import Mathlib

/-
Verification of the tsclean scaffolding generator (src/commands/createProject.ts,
src/utils/typeUtils.ts).  The TypeScript source is shallowly embedded: strings
are Lean `String`s (lists of characters), JavaScript `split` is modelled by
`jsSplit`, the zod field-spec regex by `fieldOk`, and the file-system effects of
`createProject` / `addFeature` by explicit state passing over a small
file-system record.  Braces inside generated text are written with the escapes
\x7b and \x7d, apostrophes with \x27 and backticks with \x60.
-/

namespace Tsclean

/-- One parsed field of a feature: the `Field` interface of createProject.ts
(`name`, `type`, optional `rule`). -/
structure Field where
  name : String
  type : String
  rule : Option String
deriving Repr, DecidableEq

/-- One feature as carried by the CLI: the `Feature` interface of
createProject.ts (`name`, raw `fields` spec string). -/
structure Feature where
  name : String
  fields : String
deriving Repr, DecidableEq

/-- JavaScript `str.charAt(0).toUpperCase() + str.slice(1)` guarded by
`str ? ... : str` (the `capitalize` helper of createProject.ts).  ASCII case
mapping, which agrees with JS on the identifiers considered here. -/
def capitalize (s : String) : String :=
  match s.data with
  | [] => ""
  | c :: cs => ⟨c.toUpper :: cs⟩

/-- The `toTsType` switch of createProject.ts (also duplicated in
src/utils/typeUtils.ts): field type token to TypeScript type. -/
def toTsType (t : String) : String :=
  if t == "string" then "string"
  else if t == "number" then "number"
  else if t == "boolean" then "boolean"
  else "any"

/-- The `toMongooseType` switch of createProject.ts: field type token to
Mongoose schema type. -/
def toMongooseType (t : String) : String :=
  if t == "string" then "String"
  else if t == "number" then "Number"
  else if t == "boolean" then "Boolean"
  else "Mixed"

/-- JavaScript `String.prototype.split` with a single-character separator,
on character lists: `jsSplit sep l` never returns `[]`, and splitting the
empty string yields `[[]]`, as in JS. -/
def jsSplit (sep : Char) : List Char → List (List Char)
  | [] => [[]]
  | c :: cs =>
    match jsSplit sep cs with
    | [] => [[]]
    | p :: ps => if c == sep then [] :: p :: ps else (c :: p) :: ps

/-- String-level wrapper of `jsSplit`. -/
def jsSplitStr (sep : Char) (s : String) : List String :=
  (jsSplit sep s.data).map (fun l => ⟨l⟩)

/-- Bool prefix test on character lists (the literal part of a regex match
attempt): `pfx p l` holds when `p` is an initial segment of `l`. -/
def pfx : List Char → List Char → Bool
  | [], _ => true
  | _ :: _, [] => false
  | a :: as, b :: bs => a == b && pfx as bs

/-- JavaScript `s.startsWith(p)`. -/
def jsStartsWith (s p : String) : Bool := pfx p.data s.data

/-- JavaScript `Array.prototype.map` over a callback that may throw
(the thrown error aborts the whole map): first error wins, otherwise the
list of results. -/
def mapExcept (f : α → Except ε β) : List α → Except ε (List β)
  | [] => .ok []
  | x :: xs =>
    match f x with
    | .error e => .error e
    | .ok y =>
      match mapExcept f xs with
      | .error e => .error e
      | .ok ys => .ok (y :: ys)

/-- The zod `FieldSchema` refinement of createProject.ts: the regex
`^[^:]+:[^:]+(:[^:]+)?$` holds of `pair` exactly when splitting on a colon
yields two or three parts, none of them empty (each `[^:]+` group is one
maximal colon-free segment). -/
def fieldOk (pair : String) : Bool :=
  let parts := jsSplitStr ':' pair
  (parts.length == 2 || parts.length == 3) && parts.all (fun p => p != "")

/-- The error message attached to `FieldSchema`. -/
def fieldErrMsg : String := "Field must be in format name:type[:rule]"

/-- The `parseFields` function of createProject.ts: empty input gives `[]`;
otherwise each comma-separated pair is destructured on colons and validated by
`FieldSchema.parse`, which throws on the first malformed pair (modelled by
`Except`). -/
def parseFields (fields : String) : Except String (List Field) :=
  if fields == "" then .ok []
  else mapExcept (fun pair =>
    let parts := jsSplitStr ':' pair
    if fieldOk pair then
      .ok ⟨parts.headD "", (parts[1]?).getD "", parts[2]?⟩
    else
      .error fieldErrMsg) (jsSplitStr ',' fields)

/-- Re-serialization of one parsed field descriptor back to its
`name:type[:rule]` surface form (the round-trip direction of the field
grammar). -/
def serializeField (f : Field) : String :=
  f.name ++ ":" ++ f.type ++ (match f.rule with | none => "" | some r => ":" ++ r)

/-- JavaScript `rule.split(\x27=\x27)[1]` as used by `getZodSchema` /
`getSampleJson`; every call site guards with a `startsWith` containing `=`, so
the index is always present and the default is never used. -/
def eqArg (r : String) : String :=
  ((jsSplitStr '=' r)[1]?).getD ""

/-- JavaScript `Array.prototype.join`: elements glued with the separator. -/
def joinSep (sep : String) : List String → String
  | [] => ""
  | [x] => x
  | x :: y :: rest => x ++ sep ++ joinSep sep (y :: rest)

/-- The per-field `zodType` computation of the `getZodSchema` loop of
createProject.ts: the base validator comes from the type switch, and the
optional rule is dispatched by the `switch (true)` case list (first match
wins; an unrecognized rule leaves the base validator). -/
def zodTypeFor (type : String) (rule : Option String) : String :=
  let base :=
    if type == "string" then "z.string()"
    else if type == "number" then "z.number()"
    else if type == "boolean" then "z.boolean()"
    else "z.any()"
  match rule with
  | none => base
  | some r =>
    if r == "" then base
    else if r == "email" then base ++ ".email()"
    else if jsStartsWith r "minlength=" then base ++ ".min(" ++ eqArg r ++ ")"
    else if jsStartsWith r "maxlength=" then base ++ ".max(" ++ eqArg r ++ ")"
    else if jsStartsWith r "min=" then base ++ ".min(" ++ eqArg r ++ ")"
    else if jsStartsWith r "max=" then base ++ ".max(" ++ eqArg r ++ ")"
    else if jsStartsWith r "enum=" then
      "z.enum([" ++
        joinSep ", " ((jsSplitStr '|' (eqArg r)).map
          (fun e => "\"" ++ e ++ "\"")) ++ "])"
    else base

/-- The `getZodSchema` function of createProject.ts. -/
def getZodSchema (fields : List Field) : String :=
  (fields.foldl
    (fun schema f =>
      schema ++ "    " ++ f.name ++ ": " ++ zodTypeFor f.type f.rule ++ ",\n")
    "z.object(\x7b\n") ++ "\x7d)"

/-- The per-field `value` computation of the `getSampleJson` loop of
createProject.ts. -/
def sampleValue (f : Field) : String :=
  if f.type == "string" then
    if f.rule == some "email" then "\"test@example.com\""
    else if (match f.rule with
             | some r => jsStartsWith r "enum="
             | none => false) then
      "\"" ++ ((jsSplitStr '|' (eqArg (f.rule.getD ""))).headD "") ++ "\""
    else "\"sample_" ++ f.name ++ "\""
  else if f.type == "number" then "123"
  else if f.type == "boolean" then "true"
  else "null"

/-- The fragment appended for one field by the `getSampleJson` loop. -/
def sampleEntry (f : Field) : String :=
  "\"" ++ f.name ++ "\": " ++ sampleValue f ++ ", "

/-- JavaScript `s.slice(0, -2)`: all but the last two characters (clamped to
the empty string on short inputs). -/
def jsSliceDropTwo (s : String) : String :=
  ⟨s.data.take (s.data.length - 2)⟩

/-- The `getSampleJson` function of createProject.ts: opening brace, one
`"name": value, ` fragment per field, then the trailing two characters are
sliced off unconditionally before the closing brace is appended. -/
def getSampleJson (fields : List Field) : String :=
  let json := fields.foldl
    (fun j f => j ++ "\"" ++ f.name ++ "\": " ++ sampleValue f ++ ", ")
    "\x7b"
  jsSliceDropTwo json ++ "\x7d"

namespace templates

/-- The `templates.packageJson` emitter of createProject.ts, transcribed verbatim. -/
def packageJson (projectName : String) : String :=
  "\x7b\n"
  ++ "    \"name\": \""
  ++ (projectName)
  ++ "\",\n"
  ++ "    \"version\": \"1.0.0\",\n"
  ++ "    \"description\": \"Express API with TypeScript, MongoDB, and clean architecture\",\n"
  ++ "    \"main\": \"dist/Server/index.js\",\n"
  ++ "    \"scripts\": \x7b\n"
  ++ "      \"start\": \"node dist/Server/index.js\",\n"
  ++ "      \"build\": \"tsc\",\n"
  ++ "      \"dev\": \"nodemon Server/index.ts\",\n"
  ++ "      \"test\": \"jest\",\n"
  ++ "      \"test:watch\": \"jest --watch\"\n"
  ++ "    \x7d,\n"
  ++ "    \"dependencies\": \x7b\n"
  ++ "      \"dotenv\": \"^16.4.5\",\n"
  ++ "      \"express\": \"^4.21.1\",\n"
  ++ "      \"mongoose\": \"^8.7.2\",\n"
  ++ "      \"tsyringe\": \"^4.8.0\",\n"
  ++ "      \"zod\": \"^3.23.8\"\n"
  ++ "    \x7d,\n"
  ++ "    \"devDependencies\": \x7b\n"
  ++ "      \"@types/express\": \"^5.0.0\",\n"
  ++ "      \"@types/jest\": \"^29.5.13\",\n"
  ++ "      \"@types/node\": \"^22.7.5\",\n"
  ++ "      \"@types/supertest\": \"^6.0.2\",\n"
  ++ "      \"jest\": \"^29.7.0\",\n"
  ++ "      \"nodemon\": \"^3.1.7\",\n"
  ++ "      \"supertest\": \"^7.0.0\",\n"
  ++ "      \"ts-jest\": \"^29.2.5\",\n"
  ++ "      \"ts-node\": \"^10.9.2\",\n"
  ++ "      \"typescript\": \"^5.6.3\"\n"
  ++ "    \x7d\n"
  ++ "  \x7d"

/-- The `templates.tsconfigJson` emitter of createProject.ts, transcribed verbatim. -/
def tsconfigJson : String :=
  "\x7b\n"
  ++ "    \"compilerOptions\": \x7b\n"
  ++ "      \"target\": \"ES2020\",\n"
  ++ "      \"module\": \"commonjs\",\n"
  ++ "      \"outDir\": \"./dist\",\n"
  ++ "      \"rootDir\": \"./\",\n"
  ++ "      \"strict\": true,\n"
  ++ "      \"esModuleInterop\": true,\n"
  ++ "      \"skipLibCheck\": true,\n"
  ++ "      \"forceConsistentCasingInFileNames\": true,\n"
  ++ "      \"experimentalDecorators\": true,\n"
  ++ "      \"emitDecoratorMetadata\": true\n"
  ++ "    \x7d,\n"
  ++ "    \"include\": [\"Core/**/*\", \"Features/**/*\", \"Server/**/*\", \"__tests__/**/*\"],\n"
  ++ "    \"exclude\": [\"node_modules\", \"dist\"]\n"
  ++ "  \x7d"

/-- The `templates.jestConfigTs` emitter of createProject.ts, transcribed verbatim. -/
def jestConfigTs : String :=
  "export default \x7b\n"
  ++ "    preset: \x27ts-jest\x27,\n"
  ++ "    testEnvironment: \x27node\x27,\n"
  ++ "    testMatch: [\x27**/__tests__/**/*.test.ts\x27],\n"
  ++ "    moduleFileExtensions: [\x27ts\x27, \x27js\x27],\n"
  ++ "    coverageDirectory: \x27coverage\x27,\n"
  ++ "    collectCoverageFrom: [\x27Features/**/*.\x7bts,js\x7d\x27, \x27Core/**/*.\x7bts,js\x7d\x27],\n"
  ++ "  \x7d;"

/-- The `templates.env` emitter of createProject.ts, transcribed verbatim. -/
def env (projectName : String) : String :=
  "PORT=3000\n"
  ++ "MONGODB_URI=mongodb://localhost:27017/"
  ++ (projectName)

/-- The `templates.gitignore` emitter of createProject.ts, transcribed verbatim. -/
def gitignore : String :=
  "node_modules/\n"
  ++ "dist/\n"
  ++ ".env\n"
  ++ "coverage/"

/-- The `templates.resultTs` emitter of createProject.ts, transcribed verbatim. -/
def resultTs : String :=
  "export type Result<T, E> = Ok<T> | Err<E>;\n"
  ++ "\n"
  ++ "interface Ok<T> \x7b\n"
  ++ "  kind: \x27Ok\x27;\n"
  ++ "  value: T;\n"
  ++ "  isOk(): boolean;\n"
  ++ "  isErr(): boolean;\n"
  ++ "  unwrap(): T;\n"
  ++ "  unwrapErr(): never;\n"
  ++ "\x7d\n"
  ++ "\n"
  ++ "interface Err<E> \x7b\n"
  ++ "  kind: \x27Err\x27;\n"
  ++ "  error: E;\n"
  ++ "  isOk(): boolean;\n"
  ++ "  isErr(): boolean;\n"
  ++ "  unwrap(): never;\n"
  ++ "  unwrapErr(): E;\n"
  ++ "\x7d\n"
  ++ "\n"
  ++ "export function Ok<T>(value: T): Ok<T> \x7b\n"
  ++ "  return \x7b\n"
  ++ "    kind: \x27Ok\x27,\n"
  ++ "    value,\n"
  ++ "    isOk: () => true,\n"
  ++ "    isErr: () => false,\n"
  ++ "    unwrap: () => value,\n"
  ++ "    unwrapErr: () => \x7b throw new Error(\x27Cannot unwrapErr an Ok value\x27); \x7d,\n"
  ++ "  \x7d;\n"
  ++ "\x7d\n"
  ++ "\n"
  ++ "export function Err<E>(error: E): Err<E> \x7b\n"
  ++ "  return \x7b\n"
  ++ "    kind: \x27Err\x27,\n"
  ++ "    error,\n"
  ++ "    isOk: () => false,\n"
  ++ "    isErr: () => true,\n"
  ++ "    unwrap: () => \x7b throw new Error(\x27Cannot unwrap an Err value\x27); \x7d,\n"
  ++ "    unwrapErr: () => error,\n"
  ++ "  \x7d;\n"
  ++ "\x7d"

/-- The `templates.customErrorTs` emitter of createProject.ts, transcribed verbatim. -/
def customErrorTs : String :=
  "export class CustomError extends Error \x7b\n"
  ++ "  constructor(public statusCode: number, message: string) \x7b\n"
  ++ "    super(message);\n"
  ++ "    this.name = \x27CustomError\x27;\n"
  ++ "  \x7d\n"
  ++ "\x7d"

/-- The `templates.databaseTs` emitter of createProject.ts, transcribed verbatim. -/
def databaseTs : String :=
  "import mongoose from \x27mongoose\x27;\n"
  ++ "\n"
  ++ "export const connectToDatabase = async () => \x7b\n"
  ++ "  const uri = process.env.MONGODB_URI;\n"
  ++ "  if (!uri) \x7b\n"
  ++ "    throw new Error(\x27MONGODB_URI is not defined in .env\x27);\n"
  ++ "  \x7d\n"
  ++ "  await mongoose.connect(uri);\n"
  ++ "  console.log(\x27Connected to MongoDB\x27);\n"
  ++ "\x7d;"

/-- The `templates.serverIndexTs` emitter of createProject.ts, transcribed verbatim. -/
def serverIndexTs (features : List Feature) : String :=
  "import \x27reflect-metadata\x27;\n"
  ++ "import express from \x27express\x27;\n"
  ++ "import dotenv from \x27dotenv\x27;\n"
  ++ "import \x7b container \x7d from \x27tsyringe\x27;\n"
  ++ "import \x7b connectToDatabase \x7d from \x27../Core/config/database\x27;\n"
  ++ ((joinSep "\n" (features.map (fun ft => "import \x7b " ++ (capitalize ft.name) ++ "Controller \x7d from \x27../Features/" ++ (ft.name) ++ "/delivery/controllers/" ++ (ft.name) ++ ".controller\x27;"))))
  ++ "\n"
  ++ "\n"
  ++ "dotenv.config();\n"
  ++ "\n"
  ++ "const app = express();\n"
  ++ "const port = process.env.PORT || 3000;\n"
  ++ "\n"
  ++ "app.use(express.json());\n"
  ++ ((joinSep "\n" (features.map (fun ft => "const " ++ (ft.name) ++ "Controller = container.resolve(" ++ (capitalize ft.name) ++ "Controller);\napp.use(\x27/api/" ++ (ft.name) ++ "\x27, " ++ (ft.name) ++ "Controller.getRouter());"))))
  ++ "\n"
  ++ "\n"
  ++ "const startServer = async () => \x7b\n"
  ++ "  try \x7b\n"
  ++ "    await connectToDatabase();\n"
  ++ "    app.listen(port, () => \x7b\n"
  ++ "      console.log(\x60Server running on http://localhost:$\x7bport\x7d\x60);\n"
  ++ "    \x7d);\n"
  ++ "  \x7d catch (error) \x7b\n"
  ++ "    console.error(\x27Failed to start server:\x27, error);\n"
  ++ "  \x7d\n"
  ++ "\x7d;\n"
  ++ "\n"
  ++ "startServer();"

/-- The `templates.featureContainerTs` emitter of createProject.ts, transcribed verbatim. -/
def featureContainerTs (feature : String) : String :=
  "import \x27reflect-metadata\x27;\n"
  ++ "import \x7b container \x7d from \x27tsyringe\x27;\n"
  ++ "import \x7b "
  ++ (capitalize feature)
  ++ "Controller \x7d from \x27./delivery/controllers/"
  ++ (feature)
  ++ ".controller\x27;\n"
  ++ "import \x7b Create"
  ++ (capitalize feature)
  ++ "UseCase \x7d from \x27./domain/usecases/create-"
  ++ (feature)
  ++ ".usecase\x27;\n"
  ++ "import \x7b "
  ++ (capitalize feature)
  ++ "RepositoryImpl \x7d from \x27./data/repositories/"
  ++ (feature)
  ++ ".repository\x27;\n"
  ++ "import \x7b "
  ++ (capitalize feature)
  ++ "DataSource \x7d from \x27./data/datasources/"
  ++ (feature)
  ++ ".datasource\x27;\n"
  ++ "\n"
  ++ "container.register<Create"
  ++ (capitalize feature)
  ++ "UseCase>(\x27Create"
  ++ (capitalize feature)
  ++ "UseCase\x27, Create"
  ++ (capitalize feature)
  ++ "UseCase);\n"
  ++ "container.register<"
  ++ (capitalize feature)
  ++ "RepositoryImpl>(\x27"
  ++ (capitalize feature)
  ++ "Repository\x27, "
  ++ (capitalize feature)
  ++ "RepositoryImpl);\n"
  ++ "container.register<"
  ++ (capitalize feature)
  ++ "DataSource>(\x27"
  ++ (capitalize feature)
  ++ "DataSource\x27, "
  ++ (capitalize feature)
  ++ "DataSource);\n"
  ++ "container.register<"
  ++ (capitalize feature)
  ++ "Controller>("
  ++ (capitalize feature)
  ++ "Controller, "
  ++ (capitalize feature)
  ++ "Controller);\n"
  ++ "\n"
  ++ "export \x7b container \x7d;"

/-- The `templates.featureEntityTs` emitter of createProject.ts, transcribed verbatim. -/
def featureEntityTs (feature : String) (fields : List Field) : String :=
  "export class "
  ++ (capitalize feature)
  ++ " \x7b\n"
  ++ "  constructor(\n"
  ++ "    public id: string,\n"
  ++ "    public "
  ++ ((joinSep ", " (fields.map (fun f => (f.name) ++ ": " ++ (toTsType f.type)))))
  ++ "\n"
  ++ "  ) \x7b\x7d\n"
  ++ "\x7d"

/-- The `templates.featureRepositoryInterfaceTs` emitter of createProject.ts, transcribed verbatim. -/
def featureRepositoryInterfaceTs (feature : String) : String :=
  "import \x7b Result \x7d from \x27../../../../Core/result/result\x27;\n"
  ++ "import \x7b "
  ++ (capitalize feature)
  ++ " \x7d from \x27../entity/"
  ++ (feature)
  ++ ".entity\x27;\n"
  ++ "import \x7b CustomError \x7d from \x27../../../../Core/error/custom-error\x27;\n"
  ++ "\n"
  ++ "export interface "
  ++ (capitalize feature)
  ++ "Repository \x7b\n"
  ++ "  create("
  ++ (feature)
  ++ ": "
  ++ (capitalize feature)
  ++ "): Promise<Result<"
  ++ (capitalize feature)
  ++ ", CustomError>>;\n"
  ++ "  findById(id: string): Promise<Result<"
  ++ (capitalize feature)
  ++ " | null, CustomError>>;\n"
  ++ "\x7d"

/-- The `templates.featureUseCaseTs` emitter of createProject.ts, transcribed verbatim. -/
def featureUseCaseTs (feature : String) (fields : List Field) : String :=
  "import \x7b injectable, inject \x7d from \x27tsyringe\x27;\n"
  ++ "import \x7b "
  ++ (capitalize feature)
  ++ " \x7d from \x27../entity/"
  ++ (feature)
  ++ ".entity\x27;\n"
  ++ "import \x7b "
  ++ (capitalize feature)
  ++ "Repository \x7d from \x27../repositories/"
  ++ (feature)
  ++ ".repository.interface\x27;\n"
  ++ "import \x7b Result, Ok, Err \x7d from \x27../../../../Core/result/result\x27;\n"
  ++ "import \x7b CustomError \x7d from \x27../../../../Core/error/custom-error\x27;\n"
  ++ "\n"
  ++ "export interface Create"
  ++ (capitalize feature)
  ++ "Dto \x7b\n"
  ++ "  "
  ++ ((joinSep "\n" (fields.map (fun f => "  " ++ (f.name) ++ ": " ++ (toTsType f.type) ++ ";"))))
  ++ "\n"
  ++ "\x7d\n"
  ++ "\n"
  ++ "@injectable()\n"
  ++ "export class Create"
  ++ (capitalize feature)
  ++ "UseCase \x7b\n"
  ++ "  constructor(@inject(\x27"
  ++ (capitalize feature)
  ++ "Repository\x27) private "
  ++ (feature)
  ++ "Repository: "
  ++ (capitalize feature)
  ++ "Repository) \x7b\x7d\n"
  ++ "\n"
  ++ "  async execute(dto: Create"
  ++ (capitalize feature)
  ++ "Dto): Promise<Result<"
  ++ (capitalize feature)
  ++ ", CustomError>> \x7b\n"
  ++ "    const "
  ++ (feature)
  ++ " = new "
  ++ (capitalize feature)
  ++ "(\n"
  ++ "      Math.random().toString(36).substring(2), // Simple ID generation\n"
  ++ "      "
  ++ ((joinSep ", " (fields.map (fun f => "dto." ++ (f.name)))))
  ++ "\n"
  ++ "    );\n"
  ++ "    return await this."
  ++ (feature)
  ++ "Repository.create("
  ++ (feature)
  ++ ");\n"
  ++ "  \x7d\n"
  ++ "\x7d"

/-- The `templates.featureModelTs` emitter of createProject.ts, transcribed verbatim. -/
def featureModelTs (feature : String) (fields : List Field) : String :=
  "import mongoose, \x7b Schema, Document \x7d from \x27mongoose\x27;\n"
  ++ "\n"
  ++ "export interface I"
  ++ (capitalize feature)
  ++ " extends Document \x7b\n"
  ++ "  id: string;\n"
  ++ "  "
  ++ ((joinSep ";\n  " (fields.map (fun f => (f.name) ++ ": " ++ (toTsType f.type)))))
  ++ ";\n"
  ++ "\x7d\n"
  ++ "\n"
  ++ "const "
  ++ (capitalize feature)
  ++ "Schema: Schema = new Schema(\x7b\n"
  ++ "  id: \x7b type: String, required: true, unique: true \x7d,\n"
  ++ "  "
  ++ ((joinSep ",\n  " (fields.map (fun f => (f.name) ++ ": \x7b type: " ++ (toMongooseType f.type) ++ ", required: true \x7d"))))
  ++ "\n"
  ++ "\x7d);\n"
  ++ "\n"
  ++ "export const "
  ++ (capitalize feature)
  ++ "Model = mongoose.model<I"
  ++ (capitalize feature)
  ++ ">(\x27"
  ++ (capitalize feature)
  ++ "\x27, "
  ++ (capitalize feature)
  ++ "Schema);"

/-- The `templates.featureDataSourceTs` emitter of createProject.ts, transcribed verbatim. -/
def featureDataSourceTs (feature : String) (fields : List Field) : String :=
  "import \x7b injectable \x7d from \x27tsyringe\x27;\n"
  ++ "import \x7b "
  ++ (capitalize feature)
  ++ " \x7d from \x27../../domain/entity/"
  ++ (feature)
  ++ ".entity\x27;\n"
  ++ "import \x7b "
  ++ (capitalize feature)
  ++ "Model \x7d from \x27../models/"
  ++ (feature)
  ++ ".model\x27;\n"
  ++ "import \x7b Result, Ok, Err \x7d from \x27../../../../Core/result/result\x27;\n"
  ++ "import \x7b CustomError \x7d from \x27../../../../Core/error/custom-error\x27;\n"
  ++ "\n"
  ++ "@injectable()\n"
  ++ "export class "
  ++ (capitalize feature)
  ++ "DataSource \x7b\n"
  ++ "  async create("
  ++ (feature)
  ++ ": "
  ++ (capitalize feature)
  ++ "): Promise<Result<"
  ++ (capitalize feature)
  ++ ", CustomError>> \x7b\n"
  ++ "    try \x7b\n"
  ++ "      const "
  ++ (feature)
  ++ "Doc = new "
  ++ (capitalize feature)
  ++ "Model("
  ++ (feature)
  ++ ");\n"
  ++ "      await "
  ++ (feature)
  ++ "Doc.save();\n"
  ++ "      return Ok("
  ++ (feature)
  ++ ");\n"
  ++ "    \x7d catch (error) \x7b\n"
  ++ "      return Err(new CustomError(500, \x27Failed to create "
  ++ (feature)
  ++ ": \x27 + (error as Error).message));\n"
  ++ "    \x7d\n"
  ++ "  \x7d\n"
  ++ "\n"
  ++ "  async findById(id: string): Promise<Result<"
  ++ (capitalize feature)
  ++ " | null, CustomError>> \x7b\n"
  ++ "    try \x7b\n"
  ++ "      const "
  ++ (feature)
  ++ "Doc = await "
  ++ (capitalize feature)
  ++ "Model.findOne(\x7b id \x7d);\n"
  ++ "      if (!"
  ++ (feature)
  ++ "Doc) return Ok(null);\n"
  ++ "      return Ok(new "
  ++ (capitalize feature)
  ++ "("
  ++ (feature)
  ++ "Doc.id, "
  ++ ((joinSep ", " (fields.map (fun f => (feature) ++ "Doc." ++ (f.name)))))
  ++ "));\n"
  ++ "    \x7d catch (error) \x7b\n"
  ++ "      return Err(new CustomError(500, \x27Failed to find "
  ++ (feature)
  ++ ": \x27 + (error as Error).message));\n"
  ++ "    \x7d\n"
  ++ "  \x7d\n"
  ++ "\x7d"

/-- The `templates.featureRepositoryTs` emitter of createProject.ts, transcribed verbatim. -/
def featureRepositoryTs (feature : String) : String :=
  "import \x7b injectable, inject \x7d from \x27tsyringe\x27;\n"
  ++ "import \x7b "
  ++ (capitalize feature)
  ++ " \x7d from \x27../../domain/entity/"
  ++ (feature)
  ++ ".entity\x27;\n"
  ++ "import \x7b "
  ++ (capitalize feature)
  ++ "Repository \x7d from \x27../../domain/repositories/"
  ++ (feature)
  ++ ".repository.interface\x27;\n"
  ++ "import \x7b "
  ++ (capitalize feature)
  ++ "DataSource \x7d from \x27../datasources/"
  ++ (feature)
  ++ ".datasource\x27;\n"
  ++ "import \x7b Result \x7d from \x27../../../../Core/result/result\x27;\n"
  ++ "import \x7b CustomError \x7d from \x27../../../../Core/error/custom-error\x27;\n"
  ++ "\n"
  ++ "@injectable()\n"
  ++ "export class "
  ++ (capitalize feature)
  ++ "RepositoryImpl implements "
  ++ (capitalize feature)
  ++ "Repository \x7b\n"
  ++ "  constructor(@inject(\x27"
  ++ (capitalize feature)
  ++ "DataSource\x27) private dataSource: "
  ++ (capitalize feature)
  ++ "DataSource) \x7b\x7d\n"
  ++ "\n"
  ++ "  async create("
  ++ (feature)
  ++ ": "
  ++ (capitalize feature)
  ++ "): Promise<Result<"
  ++ (capitalize feature)
  ++ ", CustomError>> \x7b\n"
  ++ "    return await this.dataSource.create("
  ++ (feature)
  ++ ");\n"
  ++ "  \x7d\n"
  ++ "\n"
  ++ "  async findById(id: string): Promise<Result<"
  ++ (capitalize feature)
  ++ " | null, CustomError>> \x7b\n"
  ++ "    return await this.dataSource.findById(id);\n"
  ++ "  \x7d\n"
  ++ "\x7d"

/-- The `templates.featureMiddlewareTs` emitter of createProject.ts, transcribed verbatim. -/
def featureMiddlewareTs (feature : String) (zodSchema : String) : String :=
  "import \x7b Request, Response, NextFunction \x7d from \x27express\x27;\n"
  ++ "import \x7b z \x7d from \x27zod\x27;\n"
  ++ "import \x7b CustomError \x7d from \x27../../../Core/error/custom-error\x27;\n"
  ++ "\n"
  ++ "const "
  ++ (feature)
  ++ "Schema = "
  ++ (zodSchema)
  ++ ";\n"
  ++ "\n"
  ++ "export const validate"
  ++ (capitalize feature)
  ++ " = (req: Request, res: Response, next: NextFunction) => \x7b\n"
  ++ "  try \x7b\n"
  ++ "    "
  ++ (feature)
  ++ "Schema.parse(req.body);\n"
  ++ "    next();\n"
  ++ "  \x7d catch (error) \x7b\n"
  ++ "    if (error instanceof z.ZodError) \x7b\n"
  ++ "      throw new CustomError(400, error.errors.map(e => e.message).join(\x27, \x27));\n"
  ++ "    \x7d\n"
  ++ "    throw new CustomError(500, \x27Validation error\x27);\n"
  ++ "  \x7d\n"
  ++ "\x7d;"

/-- The `templates.featureControllerTs` emitter of createProject.ts, transcribed verbatim. -/
def featureControllerTs (feature : String) : String :=
  "import \x7b injectable, inject \x7d from \x27tsyringe\x27;\n"
  ++ "import \x7b Request, Response, NextFunction \x7d from \x27express\x27;\n"
  ++ "import \x7b Router \x7d from \x27express\x27;\n"
  ++ "import \x7b Create"
  ++ (capitalize feature)
  ++ "UseCase, Create"
  ++ (capitalize feature)
  ++ "Dto \x7d from \x27../../domain/usecases/create-"
  ++ (feature)
  ++ ".usecase\x27;\n"
  ++ "import \x7b CustomError \x7d from \x27../../../Core/error/custom-error\x27;\n"
  ++ "import \x7b validate"
  ++ (capitalize feature)
  ++ " \x7d from \x27../middlewares/validate-"
  ++ (feature)
  ++ ".middleware\x27;\n"
  ++ "\n"
  ++ "@injectable()\n"
  ++ "export class "
  ++ (capitalize feature)
  ++ "Controller \x7b\n"
  ++ "  private router: Router;\n"
  ++ "\n"
  ++ "  constructor(@inject(\x27Create"
  ++ (capitalize feature)
  ++ "UseCase\x27) private create"
  ++ (capitalize feature)
  ++ "UseCase: Create"
  ++ (capitalize feature)
  ++ "UseCase) \x7b\n"
  ++ "    this.router = Router();\n"
  ++ "    this.router.post(\x27/\x27, validate"
  ++ (capitalize feature)
  ++ ", this.create"
  ++ (capitalize feature)
  ++ ".bind(this));\n"
  ++ "  \x7d\n"
  ++ "\n"
  ++ "  async create"
  ++ (capitalize feature)
  ++ "(req: Request, res: Response): Promise<void> \x7b\n"
  ++ "    const dto: Create"
  ++ (capitalize feature)
  ++ "Dto = req.body;\n"
  ++ "    const result = await this.create"
  ++ (capitalize feature)
  ++ "UseCase.execute(dto);\n"
  ++ "    if (result.isOk()) \x7b\n"
  ++ "      res.status(201).json(result.unwrap());\n"
  ++ "    \x7d else \x7b\n"
  ++ "      const error = result.unwrapErr();\n"
  ++ "      res.status(error.statusCode).json(\x7b message: error.message \x7d);\n"
  ++ "    \x7d\n"
  ++ "  \x7d\n"
  ++ "\n"
  ++ "  getRouter(): Router \x7b\n"
  ++ "    return this.router;\n"
  ++ "  \x7d\n"
  ++ "\x7d"

/-- The `templates.featureUseCaseTestTs` emitter of createProject.ts, transcribed verbatim. -/
def featureUseCaseTestTs (feature : String) (fields : List Field) (sampleJson : String) : String :=
  "import \x7b container \x7d from \x27tsyringe\x27;\n"
  ++ "import \x7b Create"
  ++ (capitalize feature)
  ++ "UseCase, Create"
  ++ (capitalize feature)
  ++ "Dto \x7d from \x27../../../Features/"
  ++ (feature)
  ++ "/domain/usecases/create-"
  ++ (feature)
  ++ ".usecase\x27;\n"
  ++ "import \x7b "
  ++ (capitalize feature)
  ++ "Repository \x7d from \x27../../../Features/"
  ++ (feature)
  ++ "/domain/repositories/"
  ++ (feature)
  ++ ".repository.interface\x27;\n"
  ++ "import \x7b Result, Ok, Err \x7d from \x27../../../Core/result/result\x27;\n"
  ++ "import \x7b CustomError \x7d from \x27../../../Core/error/custom-error\x27;\n"
  ++ "import \x7b "
  ++ (capitalize feature)
  ++ " \x7d from \x27../../../Features/"
  ++ (feature)
  ++ "/domain/entity/"
  ++ (feature)
  ++ ".entity\x27;\n"
  ++ "\n"
  ++ "describe(\x27Create"
  ++ (capitalize feature)
  ++ "UseCase\x27, () => \x7b\n"
  ++ "  let create"
  ++ (capitalize feature)
  ++ "UseCase: Create"
  ++ (capitalize feature)
  ++ "UseCase;\n"
  ++ "  let mockRepository: jest.Mocked<"
  ++ (capitalize feature)
  ++ "Repository>;\n"
  ++ "\n"
  ++ "  beforeEach(() => \x7b\n"
  ++ "    mockRepository = \x7b\n"
  ++ "      create: jest.fn(),\n"
  ++ "      findById: jest.fn(),\n"
  ++ "    \x7d;\n"
  ++ "    container.registerInstance(\x27"
  ++ (capitalize feature)
  ++ "Repository\x27, mockRepository);\n"
  ++ "    create"
  ++ (capitalize feature)
  ++ "UseCase = container.resolve<Create"
  ++ (capitalize feature)
  ++ "UseCase>(\x27Create"
  ++ (capitalize feature)
  ++ "UseCase\x27);\n"
  ++ "  \x7d);\n"
  ++ "\n"
  ++ "  afterEach(() => \x7b\n"
  ++ "    container.reset();\n"
  ++ "  \x7d);\n"
  ++ "\n"
  ++ "  it(\x27should create a "
  ++ (feature)
  ++ " successfully\x27, async () => \x7b\n"
  ++ "    const dto: Create"
  ++ (capitalize feature)
  ++ "Dto = "
  ++ (sampleJson)
  ++ ";\n"
  ++ "    const "
  ++ (feature)
  ++ " = new "
  ++ (capitalize feature)
  ++ "(\x27123\x27, "
  ++ ((joinSep ", " (fields.map (fun f => "dto." ++ (f.name)))))
  ++ ");\n"
  ++ "    mockRepository.create.mockResolvedValue(Ok("
  ++ (feature)
  ++ "));\n"
  ++ "\n"
  ++ "    const result = await create"
  ++ (capitalize feature)
  ++ "UseCase.execute(dto);\n"
  ++ "\n"
  ++ "    expect(result.isOk()).toBe(true);\n"
  ++ "    expect(result.unwrap()).toEqual("
  ++ (feature)
  ++ ");\n"
  ++ "    expect(mockRepository.create).toHaveBeenCalledWith(expect.any("
  ++ (capitalize feature)
  ++ "));\n"
  ++ "  \x7d);\n"
  ++ "\n"
  ++ "  it(\x27should return an error if repository fails\x27, async () => \x7b\n"
  ++ "    const dto: Create"
  ++ (capitalize feature)
  ++ "Dto = "
  ++ (sampleJson)
  ++ ";\n"
  ++ "    const error = new CustomError(500, \x27Repository error\x27);\n"
  ++ "    mockRepository.create.mockResolvedValue(Err(error));\n"
  ++ "\n"
  ++ "    const result = await create"
  ++ (capitalize feature)
  ++ "UseCase.execute(dto);\n"
  ++ "\n"
  ++ "    expect(result.isErr()).toBe(true);\n"
  ++ "    expect(result.unwrapErr()).toEqual(error);\n"
  ++ "  \x7d);\n"
  ++ "\x7d);"

/-- The `templates.featureControllerTestTs` emitter of createProject.ts, transcribed verbatim. -/
def featureControllerTestTs (feature : String) (fields : List Field) (sampleJson : String) : String :=
  "import request from \x27supertest\x27;\n"
  ++ "import express from \x27express\x27;\n"
  ++ "import \x7b container \x7d from \x27tsyringe\x27;\n"
  ++ "import \x7b "
  ++ (capitalize feature)
  ++ "Controller \x7d from \x27../../../Features/"
  ++ (feature)
  ++ "/delivery/controllers/"
  ++ (feature)
  ++ ".controller\x27;\n"
  ++ "import \x7b Create"
  ++ (capitalize feature)
  ++ "UseCase \x7d from \x27../../../Features/"
  ++ (feature)
  ++ "/domain/usecases/create-"
  ++ (feature)
  ++ ".usecase\x27;\n"
  ++ "import \x7b Result, Ok \x7d from \x27../../../Core/result/result\x27;\n"
  ++ "import \x7b "
  ++ (capitalize feature)
  ++ " \x7d from \x27../../../Features/"
  ++ (feature)
  ++ "/domain/entity/"
  ++ (feature)
  ++ ".entity\x27;\n"
  ++ "\n"
  ++ "describe(\x27"
  ++ (capitalize feature)
  ++ "Controller\x27, () => \x7b\n"
  ++ "  let app: express.Application;\n"
  ++ "  let mockUseCase: jest.Mocked<Create"
  ++ (capitalize feature)
  ++ "UseCase>;\n"
  ++ "\n"
  ++ "  beforeEach(() => \x7b\n"
  ++ "    mockUseCase = \x7b\n"
  ++ "      execute: jest.fn(),\n"
  ++ "    \x7d;\n"
  ++ "    container.registerInstance(\x27Create"
  ++ (capitalize feature)
  ++ "UseCase\x27, mockUseCase);\n"
  ++ "    const controller = container.resolve("
  ++ (capitalize feature)
  ++ "Controller);\n"
  ++ "    app = express();\n"
  ++ "    app.use(express.json());\n"
  ++ "    app.use(\x27/api/"
  ++ (feature)
  ++ "\x27, controller.getRouter());\n"
  ++ "  \x7d);\n"
  ++ "\n"
  ++ "  afterEach(() => \x7b\n"
  ++ "    container.reset();\n"
  ++ "  \x7d);\n"
  ++ "\n"
  ++ "  it(\x27should create a "
  ++ (feature)
  ++ " and return 201\x27, async () => \x7b\n"
  ++ "    const dto = "
  ++ (sampleJson)
  ++ ";\n"
  ++ "    const "
  ++ (feature)
  ++ " = new "
  ++ (capitalize feature)
  ++ "(\x27123\x27, "
  ++ ((joinSep ", " (fields.map (fun f => "dto." ++ (f.name)))))
  ++ ");\n"
  ++ "    mockUseCase.execute.mockResolvedValue(Ok("
  ++ (feature)
  ++ "));\n"
  ++ "\n"
  ++ "    const response = await request(app)\n"
  ++ "      .post(\x27/api/"
  ++ (feature)
  ++ "\x27)\n"
  ++ "      .send(dto)\n"
  ++ "      .set(\x27Accept\x27, \x27application/json\x27);\n"
  ++ "\n"
  ++ "    expect(response.status).toBe(201);\n"
  ++ "    expect(response.body).toEqual(\x7b\n"
  ++ "      id: \x27123\x27,\n"
  ++ "      "
  ++ ((joinSep ", " (fields.map (fun f => (f.name) ++ ": dto." ++ (f.name)))))
  ++ "\n"
  ++ "    \x7d);\n"
  ++ "    expect(mockUseCase.execute).toHaveBeenCalledWith(dto);\n"
  ++ "  \x7d);\n"
  ++ "\n"
  ++ "  it(\x27should return 400 for invalid input\x27, async () => \x7b\n"
  ++ "    const invalidDto = \x7b\x7d;\n"
  ++ "\n"
  ++ "    const response = await request(app)\n"
  ++ "      .post(\x27/api/"
  ++ (feature)
  ++ "\x27)\n"
  ++ "      .send(invalidDto)\n"
  ++ "      .set(\x27Accept\x27, \x27application/json\x27);\n"
  ++ "\n"
  ++ "    expect(response.status).toBe(400);\n"
  ++ "    expect(response.body.message).toContain(\x27is required\x27);\n"
  ++ "  \x7d);\n"
  ++ "\x7d;"

/-- The `templates.readmeMd` emitter of createProject.ts, transcribed verbatim. -/
def readmeMd (projectName : String) (features : List Feature) (sampleJsons : List String) : String :=
  "# "
  ++ (projectName)
  ++ "\n"
  ++ "\n"
  ++ "A TypeScript-based Express API with MongoDB, Mongoose, clean architecture, Zod validation, tsyringe DI, and Jest testing.\n"
  ++ "\n"
  ++ "## Setup\n"
  ++ "\n"
  ++ "1. Ensure MongoDB is running locally or update \x60.env\x60 with your MongoDB URI.\n"
  ++ "2. Install dependencies:\n"
  ++ "   \x60\x60\x60bash\n"
  ++ "   npm install\n"
  ++ "   \x60\x60\x60\n"
  ++ "3. Run in development mode:\n"
  ++ "   \x60\x60\x60bash\n"
  ++ "   npm run dev\n"
  ++ "   \x60\x60\x60\n"
  ++ "4. Build for production:\n"
  ++ "   \x60\x60\x60bash\n"
  ++ "   npm run build\n"
  ++ "   npm start\n"
  ++ "   \x60\x60\x60\n"
  ++ "5. Run tests:\n"
  ++ "   \x60\x60\x60bash\n"
  ++ "   npm test\n"
  ++ "   \x60\x60\x60\n"
  ++ "\n"
  ++ "## Testing\n"
  ++ "\n"
  ++ ((joinSep "\n" (features.enum.map (fun p => "- Create a " ++ (p.2.name) ++ ":\n  \x60\x60\x60bash\n  curl -X POST http://localhost:3000/api/" ++ (p.2.name) ++ " -H \"Content-Type: application/json\" -d \x27" ++ (((sampleJsons[p.1]?).getD "undefined")) ++ "\x27\n  \x60\x60\x60"))))
  ++ "\n"
  ++ "\n"
  ++ "## Structure\n"
  ++ "\n"
  ++ "- \x60Core/\x60: Shared utilities (config, error, result).\n"
  ++ "- \x60Features/\x60: Feature-specific modules ("
  ++ ((joinSep ", " (features.map (fun ft => ft.name))))
  ++ ").\n"
  ++ "  - \x60domain/\x60: Business logic (entities, use cases, repositories).\n"
  ++ "  - \x60data/\x60: Data access (models, data sources, repositories).\n"
  ++ "  - \x60delivery/\x60: HTTP layer (controllers, middleware).\n"
  ++ "  - \x60container.ts\x60: DI container setup.\n"
  ++ "- \x60Server/\x60: Application entry point.\n"
  ++ "- \x60__tests__/\x60: Jest tests for features.\n"
  ++ "\n"
  ++ "## Notes\n"
  ++ "\n"
  ++ "- Uses \x60tsyringe\x60 for dependency injection and \x60zod\x60 for validation.\n"
  ++ "- Run \x60npm test\x60 to execute unit and integration tests.\n"
  ++ "- Ensure MongoDB is running for integration tests."

end templates

/-- JavaScript word character, the regex character class of the recovery
patterns: ASCII letters, digits or underscore. -/
def wordChar (c : Char) : Bool := c.isAlphanum || c == '_'

/-- Backtracking step of a greedy one-or-more capture followed by a literal
`post`: the largest `n` with `1 ≤ n ≤ fuel` such that `post` starts right
after the first `n` captured characters of `l1`. -/
def findN (post : List Char) (l1 : List Char) : Nat → Option Nat
  | 0 => none
  | n + 1 => if pfx post (l1.drop (n + 1)) then some (n + 1) else findN post l1 n

/-- One match attempt of a regex of shape literal-capture-literal at the head
of `l` (`cap` is the character class of the capture group, matched greedily
with backtracking, exactly as the JS regex engine does): returns the captured
group and the remainder of the input after the whole match. -/
def matchAt (pre post : List Char) (cap : Char → Bool) (l : List Char) :
    Option (List Char × List Char) :=
  if pfx pre l then
    let l1 := l.drop pre.length
    let run := l1.takeWhile cap
    match findN post l1 run.length with
    | some n => some (l1.take n, l1.drop (n + post.length))
    | none => none
  else none

/-- Global scan (the `g` flag of the recovery regexes): try a match at each
position left to right; on success record the capture and continue after the
whole match (non-overlapping), on failure advance one character.  `fuel`
bounds the recursion; any `fuel` at least `l.length` computes the true scan. -/
def scanAux (pre post : List Char) (cap : Char → Bool) : Nat → List Char → List (List Char)
  | _, [] => []
  | 0, _ :: _ => []
  | fuel + 1, c :: cs =>
    match matchAt pre post cap (c :: cs) with
    | some (g, rest) => g :: scanAux pre post cap fuel rest
    | none => scanAux pre post cap fuel cs

/-- The scan at its canonical fuel (the input length). -/
def scanL (pre post : List Char) (cap : Char → Bool) (l : List Char) : List (List Char) :=
  scanAux pre post cap l.length l

/-- String-level global scan returning the captured groups. -/
def scanAll (pre post : List Char) (cap : Char → Bool) (s : String) : List String :=
  (scanL pre post cap s.data).map (fun l => ⟨l⟩)

/-- `p` can never start at the head of `u ++ t`, however `t` continues: a
mismatch occurs strictly inside `u`. -/
def definiteMismatch : List Char → List Char → Bool
  | [], _ => false
  | _ :: _, [] => false
  | a :: as, b :: bs => a != b || definiteMismatch as bs

/-- Decides that a match attempt at the head of `u ++ t` fails for every
continuation `t`: either the leading literal mismatches inside `u`, or it
matches wholly inside `u` but the capture run stops inside `u` and no
backtracking position lets the trailing literal match. -/
def noStartAtB (pre post : List Char) (cap : Char → Bool) (u : List Char) : Bool :=
  if definiteMismatch pre u then true
  else if pfx pre u then
    let l1 := u.drop pre.length
    let run := l1.takeWhile cap
    run.length < l1.length &&
      (List.range run.length).all (fun n => definiteMismatch post (l1.drop (n + 1)))
  else false

/-- Decides that no match of the pattern starts anywhere inside `u`, for every
continuation of the input. -/
def noStartAllB (pre post : List Char) (cap : Char → Bool) : List Char → Bool
  | [] => true
  | c :: cs => noStartAtB pre post cap (c :: cs) && noStartAllB pre post cap cs

/-- The leading literal of the server-bootstrap recovery regex
(`import { (\w+)Controller }` with the `g` flag, from `addFeature`). -/
def preImport : List Char := "import \x7b ".data

/-- The trailing literal of the server-bootstrap recovery regex. -/
def postImport : List Char := "Controller \x7d".data

/-- The leading literal of the README roster recovery regex
(`Create a (\w+)` with the `g` flag, from `addFeature`). -/
def preCreateA : List Char := "Create a ".data

/-- The leading literal of the route-mount extraction pattern
(`app.use(` followed by an opening quote). -/
def preAppUse : List Char := "app.use(\x27".data

/-- The trailing literal (closing quote) of the route-mount extraction. -/
def postAppUse : List Char := "\x27".data

/-- Character class of a quoted route string: anything but the quote. -/
def notQuote (c : Char) : Bool := c != '\x27'

/-- The full matches of `serverContent.match(/import { (\w+)Controller }/g)`
composed with the per-match group extraction `m.match(/(\w+)Controller/)[1]`
of `addFeature`: on a full match `import { W Controller }` the inner regex
recaptures exactly `W` (the earlier positions inside `import { ` carry no
later `Controller` literal, and greedy backtracking stops the group before
`Controller`), so the two regex passes are fused into one captured scan. -/
def importControllerScan (content : String) : List String :=
  scanAll preImport postImport wordChar content

/-- The matches of `readmeContent.match(/Create a (\w+)/g)` composed with the
`m.split(' ')[2]` projection of `addFeature`: a full match is
`Create a W` with `W` free of spaces, so the third space-separated part is
exactly the captured group, and the two passes are fused into one scan. -/
def createAScan (content : String) : List String :=
  scanAll preCreateA [] wordChar content

/-- Route-mount extraction: the quoted first arguments of the
`app.use(...)` calls of a generated bootstrap file, in file order.  This is
the formal reading of the routes a bootstrap file mounts. -/
def appUseScan (content : String) : List String :=
  scanAll preAppUse postAppUse notQuote content

/-- JavaScript `toLowerCase`, ASCII case mapping. -/
def toLowerStr (s : String) : String := ⟨s.data.map Char.toLower⟩

/-- The roster recovery of `addFeature`: controller imports of the existing
bootstrap file, lower-cased, with empty field specs. -/
def recoverServerFeatures (serverContent : String) : List Feature :=
  (importControllerScan serverContent).map (fun g => ⟨toLowerStr g, ""⟩)

/-- First match of the multiline regex of `addFeature` recovering the project
name (a line starting with a hash-space whose rest is nonempty): scans
positions that start the string or follow a newline. -/
def findHeadingAux : Bool → List Char → Option (List Char)
  | _, [] => none
  | atStart, c :: cs =>
    if atStart && pfx "# ".data (c :: cs) &&
        ((c :: cs).drop 2).takeWhile (fun x => x != '\n') != ([] : List Char) then
      some (((c :: cs).drop 2).takeWhile (fun x => x != '\n'))
    else findHeadingAux (c == '\n') cs

/-- `readmeContent.match(/^# (.+)/m)?.[1] || 'Project'` of `addFeature`. -/
def recoverProjectName (readme : String) : String :=
  match findHeadingAux true readme.data with
  | some g => ⟨g⟩
  | none => "Project"

/-- The default field spec substituted for an absent or empty `--fields`
value (`'name:string:minlength=3,email:string:email'`). -/
def defaultFieldSpec : String := "name:string:minlength=3,email:string:email"

/-- File-system state: current working directory (always an absolute path, as
`process.cwd()` returns one), the set of created directories and the written
files with their contents (most recent write first, so lookup is
last-write-wins). -/
structure FS where
  cwd : String
  dirs : List String
  files : List (String × String)
deriving Repr, DecidableEq

/-- A path is absolute when it starts with a slash. -/
def isAbsolute (p : String) : Bool := pfx "/".data p.data

/-- `path.join` for the path shapes the generator produces: a dot component
disappears, otherwise the parts are glued with a slash. -/
def joinPath (a b : String) : String :=
  if a == "." then b else if b == "." then a else a ++ "/" ++ b

/-- Resolution of a possibly relative path against the working directory, as
the Node `fs` calls do. -/
def resolvePath (cwd p : String) : String :=
  if isAbsolute p then p else joinPath cwd p

/-- `fs.access`: does the resolved path exist as a directory or a file? -/
def FS.access (fs : FS) (p : String) : Bool :=
  let q := resolvePath fs.cwd p
  fs.dirs.contains q || fs.files.any (fun kv => kv.1 == q)

/-- `fs.mkdir` with `recursive: true` (parent components are not tracked
separately; re-creating an existing directory is a no-op in effect). -/
def FS.mkdirp (fs : FS) (p : String) : FS :=
  { fs with dirs := resolvePath fs.cwd p :: fs.dirs }

/-- `fs.writeFile`: overwrite semantics, most recent write shadows. -/
def FS.write (fs : FS) (p content : String) : FS :=
  { fs with files := (resolvePath fs.cwd p, content) :: fs.files }

/-- `fs.readFile`: content of the most recent write to the resolved path. -/
def FS.read (fs : FS) (p : String) : Option String :=
  (fs.files.find? (fun kv => kv.1 == resolvePath fs.cwd p)).map (fun kv => kv.2)

/-- `process.chdir`. -/
def FS.chdir (fs : FS) (p : String) : FS :=
  { fs with cwd := resolvePath fs.cwd p }

/-- The per-feature directory list of `generateFeature`. -/
def generateFeatureDirs (featurePath feature : String) : List String :=
  [joinPath featurePath "domain/entity",
   joinPath featurePath "domain/usecases",
   joinPath featurePath "domain/repositories",
   joinPath featurePath "data/repositories",
   joinPath featurePath "data/datasources",
   joinPath featurePath "data/models",
   joinPath featurePath "delivery/routes",
   joinPath featurePath "delivery/controllers",
   joinPath featurePath "delivery/middlewares",
   joinPath (joinPath "__tests__" "Features") feature]

/-- The `generateFeature` function of createProject.ts: create the feature
subtree (paths joined to `projectRoot`, which is resolved against the current
working directory exactly as Node resolves the relative path), then write the
eleven per-feature files.  The writes go through `Promise.all` in the source
but target pairwise distinct paths, so sequencing them is faithful. -/
def generateFeatureRun (fs : FS) (projectRoot feature : String) (fields : List Field) : FS :=
  let featurePath := joinPath "Features" feature
  let zodSchema := getZodSchema fields
  let sampleJson := getSampleJson fields
  let fs1 := (generateFeatureDirs featurePath feature).foldl
    (fun s d => s.mkdirp (joinPath projectRoot d)) fs
  let writes : List (String × String) := [
    (joinPath projectRoot (joinPath featurePath "container.ts"),
      templates.featureContainerTs feature),
    (joinPath projectRoot (joinPath featurePath (joinPath "domain/entity" (feature ++ ".entity.ts"))),
      templates.featureEntityTs feature fields),
    (joinPath projectRoot (joinPath featurePath (joinPath "domain/repositories" (feature ++ ".repository.interface.ts"))),
      templates.featureRepositoryInterfaceTs feature),
    (joinPath projectRoot (joinPath featurePath (joinPath "domain/usecases" ("create-" ++ feature ++ ".usecase.ts"))),
      templates.featureUseCaseTs feature fields),
    (joinPath projectRoot (joinPath featurePath (joinPath "data/models" (feature ++ ".model.ts"))),
      templates.featureModelTs feature fields),
    (joinPath projectRoot (joinPath featurePath (joinPath "data/datasources" (feature ++ ".datasource.ts"))),
      templates.featureDataSourceTs feature fields),
    (joinPath projectRoot (joinPath featurePath (joinPath "data/repositories" (feature ++ ".repository.ts"))),
      templates.featureRepositoryTs feature),
    (joinPath projectRoot (joinPath featurePath (joinPath "delivery/middlewares" ("validate-" ++ feature ++ ".middleware.ts"))),
      templates.featureMiddlewareTs feature zodSchema),
    (joinPath projectRoot (joinPath featurePath (joinPath "delivery/controllers" (feature ++ ".controller.ts"))),
      templates.featureControllerTs feature),
    (joinPath projectRoot (joinPath (joinPath (joinPath "__tests__" "Features") feature) (feature ++ ".usecase.test.ts")),
      templates.featureUseCaseTestTs feature fields sampleJson),
    (joinPath projectRoot (joinPath (joinPath (joinPath "__tests__" "Features") feature) (feature ++ ".controller.test.ts")),
      templates.featureControllerTestTs feature fields sampleJson)]
  writes.foldl (fun s kv => s.write kv.1 kv.2) fs1

/-- The fixed top-level directories of `createProject`. -/
def coreDirs : List String :=
  ["Core/config", "Core/error", "Core/result", "Server", "__tests__"]

/-- The per-feature directory names of the `directories` array of
`createProject`. -/
def featureDirList (f : Feature) : List String :=
  ["Features/" ++ f.name ++ "/domain/entity",
   "Features/" ++ f.name ++ "/domain/usecases",
   "Features/" ++ f.name ++ "/domain/repositories",
   "Features/" ++ f.name ++ "/data/repositories",
   "Features/" ++ f.name ++ "/data/datasources",
   "Features/" ++ f.name ++ "/data/models",
   "Features/" ++ f.name ++ "/delivery/routes",
   "Features/" ++ f.name ++ "/delivery/controllers",
   "Features/" ++ f.name ++ "/delivery/middlewares",
   "__tests__/Features/" ++ f.name]

/-- The feature loop of `createProject`: per feature, parse the spec (or the
default when the spec is empty, per `fieldDefs || '...'`), record the sample
JSON, generate the feature files; a parse failure aborts with the state as
already mutated (the enclosing try-catch exits the process without rollback).
After the loop the README is written. -/
def createFeaturesLoop (projectRoot projectName : String) (allFeatures : List Feature) :
    FS → List String → List Feature → FS × Except String Unit
  | fs, sjs, [] =>
    ((fs.write "README.md" (templates.readmeMd projectName allFeatures sjs.reverse)), .ok ())
  | fs, sjs, f :: rest =>
    match parseFields (if f.fields == "" then defaultFieldSpec else f.fields) with
    | .error e => (fs, .error e)
    | .ok flds =>
      createFeaturesLoop projectRoot projectName allFeatures
        (generateFeatureRun fs projectRoot f.name flds)
        (getSampleJson flds :: sjs) rest

/-- The `createProject` function of createProject.ts (the Node-version check
is environmental and omitted): reject an existing target, create the project
root and all directories, change into the project root, write the nine core
files, then run the feature loop and write the README. -/
def createProjectRun (fs0 : FS) (projectName pathSpec : String) (features : List Feature) :
    FS × Except String Unit :=
  let projectRoot := joinPath pathSpec projectName
  if fs0.access projectRoot then
    (fs0, .error ("Directory " ++ projectRoot ++
      " already exists. Please remove it or choose a different name."))
  else
    let fs1 := fs0.mkdirp projectRoot
    let dirs := coreDirs ++ features.flatMap featureDirList
    let fs2 := dirs.foldl (fun s d => s.mkdirp (joinPath projectRoot d)) fs1
    let fs3 := fs2.chdir projectRoot
    let coreWrites : List (String × String) := [
      ("package.json", templates.packageJson projectName),
      ("tsconfig.json", templates.tsconfigJson),
      ("jest.config.ts", templates.jestConfigTs),
      (".env", templates.env projectName),
      (".gitignore", templates.gitignore),
      ("Core/result/result.ts", templates.resultTs),
      ("Core/error/custom-error.ts", templates.customErrorTs),
      ("Core/config/database.ts", templates.databaseTs),
      ("Server/index.ts", templates.serverIndexTs features)]
    let fs4 := coreWrites.foldl (fun s kv => s.write kv.1 kv.2) fs3
    createFeaturesLoop projectRoot projectName features fs4 [] features

/-- The `addFeature` function of createProject.ts: require the bootstrap
marker file, parse the spec (or the default), generate the feature files,
rewrite the bootstrap with the recovered roster plus the new feature, and
rewrite the README with the recovered names plus the new feature (existing
features get empty specs, hence default sample JSON). -/
def addFeatureRun (fs0 : FS) (featureName fields : String) : FS × Except String Unit :=
  let projectRoot := fs0.cwd
  if !(fs0.access (joinPath projectRoot "Server/index.ts")) then
    (fs0, .error "Error: Current directory is not a tsclean project. Run from the project root.")
  else
    match parseFields (if fields == "" then defaultFieldSpec else fields) with
    | .error e => (fs0, .error e)
    | .ok parsedFields =>
      let fs1 := generateFeatureRun fs0 projectRoot featureName parsedFields
      match fs1.read (joinPath projectRoot "Server/index.ts") with
      | none => (fs1, .error "Failed to add feature: read")
      | some serverContent =>
        let newServerContent := templates.serverIndexTs
          (recoverServerFeatures serverContent ++ [⟨featureName, fields⟩])
        let fs2 := fs1.write (joinPath projectRoot "Server/index.ts") newServerContent
        match fs2.read (joinPath projectRoot "README.md") with
        | none => (fs2, .error "Failed to add feature: read")
        | some readmeContent =>
          let projectName := recoverProjectName readmeContent
          let existingFeatures := createAScan readmeContent
          let newFeatures := (existingFeatures ++ [featureName]).map
            (fun n => (⟨n, if n == featureName then fields else ""⟩ : Feature))
          match mapExcept (fun f =>
              (parseFields (if f.fields == "" then defaultFieldSpec else f.fields)).map
                getSampleJson) newFeatures with
          | .error e => (fs2, .error e)
          | .ok sampleJsons =>
            ((fs2.write (joinPath projectRoot "README.md")
              (templates.readmeMd projectName newFeatures sampleJsons)), .ok ())

/-- Containment of `pat` in `s` as a factor: the exact-string-match reading
of cross-file identifier agreement. -/
def strContains (s pat : String) : Prop := ∃ a b : String, s = a ++ pat ++ b

/-- Lower-case ASCII letter. -/
def lowerAlpha (c : Char) : Bool := 'a' ≤ c && c ≤ 'z'

/-- The lower-case ASCII alphabet as an explicit character list. -/
def lowerAlphabet : List Char := "abcdefghijklmnopqrstuvwxyz".data

/-- A well-formed lower-case feature name: nonempty, lower-case letters. -/
def lowerNameB (s : String) : Bool :=
  s != "" && s.data.all (fun c => lowerAlphabet.contains c)

/-- Character allowed in a field spec for roster-recovery to be exact:
lower-case letters, digits, and the punctuation of the field grammar. -/
def specCharB (c : Char) : Bool :=
  lowerAlpha c || c.isDigit || c == ':' || c == ',' || c == '=' || c == '|' ||
    c == '.' || c == '_' || c == '-' || c == '@'

/-- A well-formed field spec string (possibly empty, in which case the
default applies). -/
def specOkB (s : String) : Bool := s.data.all specCharB

/-- A well-formed project name for roster recovery: nonempty, without spaces
or newlines. -/
def projNameOkB (s : String) : Bool :=
  s != "" && s.data.all (fun c => c != ' ' && c != '\n')

/-- Rebuilding a string from its characters. -/
theorem mk_data (s : String) : (⟨s.data⟩ : String) = s := by cases s; rfl

/-- Inequality of strings from inequality of their character lists. -/
theorem strNe_of_data {a b : String} (h : a.data ≠ b.data) : a ≠ b :=
  fun hc => h (congrArg String.data hc)

/-- `jsSplit` never returns the empty list of parts. -/
theorem jsSplit_ne_nil (sep : Char) (l : List Char) : jsSplit sep l ≠ [] := by
  induction l with
  | nil => simp [jsSplit]
  | cons c cs ih =>
    simp only [jsSplit]
    cases h : jsSplit sep cs with
    | nil => exact absurd h ih
    | cons p ps =>
      by_cases hc : c == sep <;> simp [hc]

/-- Glueing the parts of a split back with the separator restores the input
(the JS `split`/`join` round trip). -/
theorem jsSplit_join (sep : Char) (l : List Char) :
    joinSep ⟨[sep]⟩ ((jsSplit sep l).map (fun x => (⟨x⟩ : String))) = ⟨l⟩ := by
  induction l with
  | nil => rfl
  | cons c cs ih =>
    simp only [jsSplit]
    cases h : jsSplit sep cs with
    | nil => exact absurd h (jsSplit_ne_nil sep cs)
    | cons p ps =>
      rw [h] at ih
      by_cases hc : c == sep
      · simp only [hc, if_pos]
        have hceq : c = sep := by simpa using hc
        subst hceq
        apply String.ext
        simp only [List.map_cons, joinSep, String.data_append] at ih ⊢
        cases ps with
        | nil => simp_all [joinSep]
        | cons q qs => simp_all [joinSep, String.data_append]
      · simp only [hc, if_neg, Bool.false_eq_true, not_false_iff]
        cases ps with
        | nil =>
          simp only [List.map_cons, List.map_nil, joinSep] at ih ⊢
          have : p = cs := by
            have := congrArg String.data ih
            simpa using this
          subst this
          rfl
        | cons q qs =>
          apply String.ext
          have hd := congrArg String.data ih
          simp only [List.map_cons, joinSep, String.data_append] at hd ⊢
          simp [hd]

/-- Characters of any part of a split are free of the separator. -/
theorem jsSplit_no_sep (sep : Char) (l : List Char) :
    ∀ p ∈ jsSplit sep l, ∀ x ∈ p, x ≠ sep := by
  induction l with
  | nil => intro p hp; simp [jsSplit] at hp; subst hp; simp
  | cons c cs ih =>
    intro p hp
    simp only [jsSplit] at hp
    cases h : jsSplit sep cs with
    | nil => exact absurd h (jsSplit_ne_nil sep cs)
    | cons q qs =>
      rw [h] at hp
      by_cases hc : c == sep
      · simp only [hc, if_pos] at hp
        rcases List.mem_cons.mp hp with hp | hp
        · subst hp; simp
        · exact ih p (h ▸ hp)
      · simp only [hc, if_neg, Bool.false_eq_true, not_false_iff] at hp
        rcases List.mem_cons.mp hp with hp | hp
        · subst hp
          intro x hx
          rcases List.mem_cons.mp hx with hx | hx
          · subst hx; simpa using hc
          · exact ih q (h ▸ List.mem_cons_self q qs) x hx
        · exact ih p (h ▸ List.mem_cons_of_mem q hp)

/-- Characters of any part of a split are characters of the input. -/
theorem jsSplit_subset (sep : Char) (l : List Char) :
    ∀ p ∈ jsSplit sep l, ∀ x ∈ p, x ∈ l := by
  induction l with
  | nil => intro p hp; simp [jsSplit] at hp; subst hp; simp
  | cons c cs ih =>
    intro p hp
    simp only [jsSplit] at hp
    cases h : jsSplit sep cs with
    | nil => exact absurd h (jsSplit_ne_nil sep cs)
    | cons q qs =>
      rw [h] at hp
      by_cases hc : c == sep
      · simp only [hc, if_pos] at hp
        rcases List.mem_cons.mp hp with hp | hp
        · subst hp; simp
        · intro x hx
          exact List.mem_cons_of_mem c (ih p (h ▸ hp) x hx)
      · simp only [hc, if_neg, Bool.false_eq_true, not_false_iff] at hp
        rcases List.mem_cons.mp hp with hp | hp
        · subst hp
          intro x hx
          rcases List.mem_cons.mp hx with hx | hx
          · subst hx; simp
          · exact List.mem_cons_of_mem c
              (ih q (h ▸ List.mem_cons_self q qs) x hx)
        · intro x hx
          exact List.mem_cons_of_mem c
            (ih p (h ▸ List.mem_cons_of_mem q hp) x hx)

/-- A separator-free list splits into a single part. -/
theorem jsSplit_sepfree (sep : Char) (l : List Char) (h : ∀ x ∈ l, x ≠ sep) :
    jsSplit sep l = [l] := by
  induction l with
  | nil => rfl
  | cons c cs ih =>
    have hc : (c == sep) = false := by
      simp only [beq_eq_false_iff_ne]
      exact h c (List.mem_cons_self c cs)
    have ihc := ih (fun x hx => h x (List.mem_cons_of_mem c hx))
    simp [jsSplit, ihc, hc]

/-- Splitting a separator-free prefix glued by a separator to a remainder
peels off the prefix as the first part. -/
theorem jsSplit_append_sepfree (sep : Char) (a : List Char)
    (ha : ∀ x ∈ a, x ≠ sep) (b : List Char) :
    jsSplit sep (a ++ sep :: b) = a :: jsSplit sep b := by
  induction a with
  | nil =>
    simp only [List.nil_append, jsSplit]
    cases h : jsSplit sep b with
    | nil => exact absurd h (jsSplit_ne_nil sep b)
    | cons p ps => simp
  | cons c a' ih =>
    have hc : (c == sep) = false := by
      simp only [beq_eq_false_iff_ne]
      exact ha c (List.mem_cons_self c a')
    have iha := ih (fun x hx => ha x (List.mem_cons_of_mem c hx))
    simp [jsSplit, iha, hc]

/-- A literal is a prefix of itself extended by anything. -/
theorem pfx_append_self (p l : List Char) : pfx p (p ++ l) = true := by
  induction p with
  | nil => rfl
  | cons c cs ih => simp [pfx, ih]

/-- Left cancellation for string append. -/
theorem strAppend_left_cancel {a x y : String} (h : a ++ x = a ++ y) : x = y := by
  have := congrArg String.data h
  simp only [String.data_append, List.append_cancel_left_eq] at this
  exact String.ext this

/-- Splitting on the equals sign behind a known head (`rule.split('=')[1]`)
returns exactly the right-hand side when neither side holds its own equals
sign. -/
theorem eqArg_concat (p n : String) (hp : ∀ x ∈ p.data, x ≠ '=')
    (hn : ∀ x ∈ n.data, x ≠ '=') : eqArg (p ++ "=" ++ n) = n := by
  have hdata : (p ++ "=" ++ n).data = p.data ++ '=' :: n.data := by
    simp [String.data_append]
  simp only [eqArg, jsSplitStr, hdata,
    jsSplit_append_sepfree '=' p.data hp n.data,
    jsSplit_sepfree '=' n.data hn]
  simp [mk_data]

/-- `mapExcept` over a list whose elements all succeed collects the images. -/
theorem mapExcept_ok_of {f : α → Except ε β} {g : α → β}
    (l : List α) (h : ∀ x ∈ l, f x = .ok (g x)) :
    mapExcept f l = .ok (l.map g) := by
  induction l with
  | nil => rfl
  | cons x xs ih =>
    have hx := h x (List.mem_cons_self x xs)
    have ihx := ih (fun y hy => h y (List.mem_cons_of_mem x hy))
    simp [mapExcept, hx, ihx]

/-- If every element either fails with the fixed error or succeeds, a single
failing element makes the whole `mapExcept` fail with that error. -/
theorem mapExcept_fixed_error {f : α → Except ε β} {e0 : ε}
    (hall : ∀ x, f x = .error e0 ∨ ∃ y, f x = .ok y)
    (l : List α) (h : ∃ x ∈ l, f x = .error e0) :
    mapExcept f l = .error e0 := by
  induction l with
  | nil => simp at h
  | cons x xs ih =>
    rcases hall x with hx | ⟨y, hy⟩
    · simp [mapExcept, hx]
    · rcases h with ⟨z, hz, hze⟩
      rcases List.mem_cons.mp hz with hz | hz
      · subst hz; rw [hze] at hy; cases hy
      · have := ih ⟨z, hz, hze⟩
        simp [mapExcept, hy, this]

/-- Success of `mapExcept` forces success on every element. -/
theorem mapExcept_ok_forall {f : α → Except ε β} :
    ∀ {l : List α} {r : List β}, mapExcept f l = .ok r → ∀ x ∈ l, ∃ y, f x = .ok y := by
  intro l
  induction l with
  | nil => intro r _ x hx; simp at hx
  | cons a as ih =>
    intro r hr x hx
    simp only [mapExcept] at hr
    cases hfa : f a with
    | error e => rw [hfa] at hr; cases hr
    | ok y =>
      rw [hfa] at hr
      cases hrest : mapExcept f as with
      | error e => rw [hrest] at hr; cases hr
      | ok ys =>
        rcases List.mem_cons.mp hx with hx | hx
        · exact hx ▸ ⟨y, hfa⟩
        · exact ih hrest x hx

/-- Characters of a joined list come from the separator or from a part. -/
theorem joinSep_chars (sep : String) :
    ∀ (l : List String), ∀ x ∈ (joinSep sep l).data,
      x ∈ sep.data ∨ ∃ s ∈ l, x ∈ s.data := by
  intro l
  induction l with
  | nil => intro x hx; simp [joinSep] at hx
  | cons a as ih =>
    intro x hx
    cases as with
    | nil =>
      simp only [joinSep] at hx
      exact Or.inr ⟨a, by simp, hx⟩
    | cons b bs =>
      simp only [joinSep, String.data_append, List.append_assoc,
        List.mem_append] at hx
      rcases hx with hx | hx | hx
      · exact Or.inr ⟨a, by simp, hx⟩
      · exact Or.inl hx
      · rcases ih x hx with h | ⟨s, hs, hxs⟩
        · exact Or.inl h
        · exact Or.inr ⟨s, List.mem_cons_of_mem a hs, hxs⟩

/-- Splitting a pipe-joined nonempty list of pipe-free parts restores the
parts. -/
theorem joinSep_split (l : List String) (hl : ∀ s ∈ l, ∀ x ∈ s.data, x ≠ '|')
    (hne : l ≠ []) : jsSplitStr '|' (joinSep "|" l) = l := by
  induction l with
  | nil => exact absurd rfl hne
  | cons a as ih =>
    cases as with
    | nil =>
      simp only [joinSep, jsSplitStr,
        jsSplit_sepfree '|' a.data (hl a (by simp)), List.map_cons,
        List.map_nil, mk_data]
    | cons b bs =>
      have hdata : (joinSep "|" (a :: b :: bs)).data
          = a.data ++ '|' :: (joinSep "|" (b :: bs)).data := by
        simp [joinSep, String.data_append]
      have ihs := ih (fun s hs => hl s (List.mem_cons_of_mem a hs)) (by simp)
      simp only [jsSplitStr, hdata,
        jsSplit_append_sepfree '|' a.data (hl a (by simp)), List.map_cons,
        mk_data]
      simp only [jsSplitStr] at ihs
      simp [ihs]

/-- C7: the type mapper is a total function over all string inputs: the three
known tokens map to their TypeScript and Mongoose types, every other token
falls back to the permissive pair `any` / `Mixed`, and every input yields one
of the four results — there is no failing or unmapped case.  (`toTsType` in
src/utils/typeUtils.ts is the same switch as the one in createProject.ts.) -/
theorem c7_type_mapper_total (t : String)
    (h : t ∉ (["string", "number", "boolean"] : List String)) :
    toTsType "string" = "string" ∧ toTsType "number" = "number" ∧
    toTsType "boolean" = "boolean" ∧ toMongooseType "string" = "String" ∧
    toMongooseType "number" = "Number" ∧ toMongooseType "boolean" = "Boolean" ∧
    toTsType t = "any" ∧ toMongooseType t = "Mixed" ∧
    (∀ u, toTsType u ∈ (["string", "number", "boolean", "any"] : List String)) ∧
    (∀ u, toMongooseType u ∈ (["String", "Number", "Boolean", "Mixed"] : List String)) := by
  simp only [List.mem_cons, List.mem_singleton, not_or] at h
  obtain ⟨h1, h2, h3, -⟩ := h
  refine ⟨rfl, rfl, rfl, rfl, rfl, rfl, ?_, ?_, ?_, ?_⟩
  · simp [toTsType, beq_eq_false_iff_ne.mpr h1, beq_eq_false_iff_ne.mpr h2,
      beq_eq_false_iff_ne.mpr h3]
  · simp [toMongooseType, beq_eq_false_iff_ne.mpr h1,
      beq_eq_false_iff_ne.mpr h2, beq_eq_false_iff_ne.mpr h3]
  · intro u
    unfold toTsType
    repeat' split
    all_goals simp
  · intro u
    unfold toMongooseType
    repeat' split
    all_goals simp

/-- Closed instance of `c7_type_mapper_total` at the unknown token `date`. -/
theorem c7_type_mapper_total_witness :
    ("date" ∉ (["string", "number", "boolean"] : List String)) ∧
    toTsType "date" = "any" ∧ toMongooseType "date" = "Mixed" :=
  ⟨by decide,
   (c7_type_mapper_total "date" (by decide)).2.2.2.2.2.2.1,
   (c7_type_mapper_total "date" (by decide)).2.2.2.2.2.2.2.1⟩

/-- C5: the rule-to-schema compilation dispatches on the rule text by literal
or prefix match: `email` appends the email check, `minlength=N`/`maxlength=N`
append `.min(N)`/`.max(N)`, `min=N`/`max=N` likewise, `enum=a|b|c` replaces
the validator by an enum over exactly the listed literals, and any other
non-empty rule leaves the bare type validator.  The base validator is the
type switch (`zodTypeFor ty none`). -/
theorem c5_rule_to_schema_compilation (ty n e : String) (es : List String)
    (hn : ∀ x ∈ n.data, x ≠ '=')
    (he : ∀ x ∈ e.data, x ≠ '=' ∧ x ≠ '|')
    (hes : ∀ s ∈ es, ∀ x ∈ s.data, x ≠ '=' ∧ x ≠ '|') :
    zodTypeFor ty (some "email") = zodTypeFor ty none ++ ".email()" ∧
    zodTypeFor ty (some ("minlength=" ++ n)) = zodTypeFor ty none ++ ".min(" ++ n ++ ")" ∧
    zodTypeFor ty (some ("maxlength=" ++ n)) = zodTypeFor ty none ++ ".max(" ++ n ++ ")" ∧
    zodTypeFor ty (some ("min=" ++ n)) = zodTypeFor ty none ++ ".min(" ++ n ++ ")" ∧
    zodTypeFor ty (some ("max=" ++ n)) = zodTypeFor ty none ++ ".max(" ++ n ++ ")" ∧
    zodTypeFor ty (some ("enum=" ++ joinSep "|" (e :: es)))
      = "z.enum([" ++ joinSep ", " ((e :: es).map (fun x => "\"" ++ x ++ "\"")) ++ "])" ∧
    (∀ r, r ≠ "" → r ≠ "email" →
      jsStartsWith r "minlength=" = false → jsStartsWith r "maxlength=" = false →
      jsStartsWith r "min=" = false → jsStartsWith r "max=" = false →
      jsStartsWith r "enum=" = false →
      zodTypeFor ty (some r) = zodTypeFor ty none) := by
  have hne : ∀ (p q : String), p.data ≠ [] → ((p ++ q) == "") = false := by
    intro p q hp
    simp only [beq_eq_false_iff_ne]
    intro hc
    have := congrArg String.data hc
    simp only [String.data_append] at this
    cases hq : p.data with
    | nil => exact hp hq
    | cons x xs => rw [hq] at this; simp at this
  refine ⟨?_, ?_, ?_, ?_, ?_, ?_, ?_⟩
  · simp [zodTypeFor]
  · have h4 : eqArg ("minlength=" ++ n) = n := by
      have := eqArg_concat "minlength" n (by decide) hn
      simpa [String.append_assoc] using this
    have h2 : (("minlength=" ++ n) == "email") = false := by
      simp only [beq_eq_false_iff_ne]; intro hc
      have := congrArg String.data hc
      simp [String.data_append] at this
    simp only [zodTypeFor, hne "minlength=" n (by decide), h2,
      show jsStartsWith ("minlength=" ++ n) "minlength=" = true from by
        simp only [jsStartsWith, String.data_append]; exact pfx_append_self _ _,
      h4, Bool.false_eq_true, if_false, if_true]
  · have h4 : eqArg ("maxlength=" ++ n) = n := by
      have := eqArg_concat "maxlength" n (by decide) hn
      simpa [String.append_assoc] using this
    have h2 : (("maxlength=" ++ n) == "email") = false := by
      simp only [beq_eq_false_iff_ne]; intro hc
      have := congrArg String.data hc
      simp [String.data_append] at this
    simp only [zodTypeFor, hne "maxlength=" n (by decide), h2,
      show jsStartsWith ("maxlength=" ++ n) "minlength=" = false from rfl,
      show jsStartsWith ("maxlength=" ++ n) "maxlength=" = true from by
        simp only [jsStartsWith, String.data_append]; exact pfx_append_self _ _,
      h4, Bool.false_eq_true, if_false, if_true]
  · have h4 : eqArg ("min=" ++ n) = n := by
      have := eqArg_concat "min" n (by decide) hn
      simpa [String.append_assoc] using this
    have h2 : (("min=" ++ n) == "email") = false := by
      simp only [beq_eq_false_iff_ne]; intro hc
      have := congrArg String.data hc
      simp [String.data_append] at this
    simp only [zodTypeFor, hne "min=" n (by decide), h2,
      show jsStartsWith ("min=" ++ n) "minlength=" = false from rfl,
      show jsStartsWith ("min=" ++ n) "maxlength=" = false from rfl,
      show jsStartsWith ("min=" ++ n) "min=" = true from by
        simp only [jsStartsWith, String.data_append]; exact pfx_append_self _ _,
      h4, Bool.false_eq_true, if_false, if_true]
  · have h4 : eqArg ("max=" ++ n) = n := by
      have := eqArg_concat "max" n (by decide) hn
      simpa [String.append_assoc] using this
    have h2 : (("max=" ++ n) == "email") = false := by
      simp only [beq_eq_false_iff_ne]; intro hc
      have := congrArg String.data hc
      simp [String.data_append] at this
    simp only [zodTypeFor, hne "max=" n (by decide), h2,
      show jsStartsWith ("max=" ++ n) "minlength=" = false from rfl,
      show jsStartsWith ("max=" ++ n) "maxlength=" = false from rfl,
      show jsStartsWith ("max=" ++ n) "min=" = false from rfl,
      show jsStartsWith ("max=" ++ n) "max=" = true from by
        simp only [jsStartsWith, String.data_append]; exact pfx_append_self _ _,
      h4, Bool.false_eq_true, if_false, if_true]
  · set body := joinSep "|" (e :: es) with hbody
    have hbodyeq : ∀ x ∈ body.data, x ≠ '=' := by
      intro x hx
      rcases joinSep_chars "|" (e :: es) x hx with h | ⟨s, hs, hxs⟩
      · simp only [show ("|" : String).data = ['|'] from rfl,
          List.mem_singleton] at h
        subst h; decide
      · rcases List.mem_cons.mp hs with hs | hs
        · exact (he x (hs ▸ hxs)).1
        · exact (hes s hs x hxs).1
    have h4 : eqArg ("enum=" ++ body) = body := by
      have := eqArg_concat "enum" body (by decide) hbodyeq
      simpa [String.append_assoc] using this
    have h2 : (("enum=" ++ body) == "email") = false := by
      simp only [beq_eq_false_iff_ne]; intro hc
      have := congrArg String.data hc
      simp [String.data_append] at this
    have hsplit : jsSplitStr '|' body = e :: es := by
      apply joinSep_split
      · intro s hs x hx
        rcases List.mem_cons.mp hs with hs | hs
        · exact (he x (hs ▸ hx)).2
        · exact (hes s hs x hx).2
      · simp
    simp only [zodTypeFor, hne "enum=" body (by decide), h2,
      show jsStartsWith ("enum=" ++ body) "minlength=" = false from rfl,
      show jsStartsWith ("enum=" ++ body) "maxlength=" = false from rfl,
      show jsStartsWith ("enum=" ++ body) "min=" = false from rfl,
      show jsStartsWith ("enum=" ++ body) "max=" = false from rfl,
      show jsStartsWith ("enum=" ++ body) "enum=" = true from by
        simp only [jsStartsWith, String.data_append]; exact pfx_append_self _ _,
      h4, hsplit, Bool.false_eq_true, if_false, if_true]
  · intro r hr0 hr1 hr2 hr3 hr4 hr5 hr6
    simp [zodTypeFor, beq_eq_false_iff_ne.mpr hr0, beq_eq_false_iff_ne.mpr hr1,
      hr2, hr3, hr4, hr5, hr6]

/-- Closed instance of `c5_rule_to_schema_compilation` on a string field. -/
theorem c5_rule_to_schema_compilation_witness :
    ((∀ x ∈ ("18" : String).data, x ≠ '=') ∧
      (∀ x ∈ ("open" : String).data, x ≠ '=' ∧ x ≠ '|') ∧
      (∀ s ∈ (["closed"] : List String), ∀ x ∈ s.data, x ≠ '=' ∧ x ≠ '|')) ∧
    zodTypeFor "string" (some ("minlength=" ++ "18"))
      = zodTypeFor "string" none ++ ".min(" ++ "18" ++ ")" ∧
    zodTypeFor "string" (some ("enum=" ++ joinSep "|" ("open" :: ["closed"])))
      = "z.enum([" ++ joinSep ", " (("open" :: ["closed"]).map (fun x => "\"" ++ x ++ "\"")) ++ "])" :=
  ⟨⟨by decide, by decide, by decide⟩,
   (c5_rule_to_schema_compilation "string" "18" "open" ["closed"]
     (by decide) (by decide) (by decide)).2.1,
   (c5_rule_to_schema_compilation "string" "18" "open" ["closed"]
     (by decide) (by decide) (by decide)).2.2.2.2.2.1⟩

/-- C6: the sample-value generator: string with `email` rule gives the fixed
address, string with an `enum=` rule gives the first listed literal, numbers
give `123` and booleans `true` regardless of any rule, unknown types give
`null`, and any other string field gives `sample_` followed by the name. -/
theorem c6_sample_values (nm ty e : String) (es : List String) (r : String)
    (he : ∀ x ∈ e.data, x ≠ '=' ∧ x ≠ '|')
    (hes : ∀ s ∈ es, ∀ x ∈ s.data, x ≠ '=' ∧ x ≠ '|')
    (hty : ty ∉ (["string", "number", "boolean"] : List String))
    (hr : r ≠ "email" ∧ jsStartsWith r "enum=" = false) :
    sampleValue ⟨nm, "string", some "email"⟩ = "\"test@example.com\"" ∧
    sampleValue ⟨nm, "string", some ("enum=" ++ joinSep "|" (e :: es))⟩
      = "\"" ++ e ++ "\"" ∧
    (∀ ru, sampleValue ⟨nm, "number", ru⟩ = "123") ∧
    (∀ ru, sampleValue ⟨nm, "boolean", ru⟩ = "true") ∧
    (∀ ru, sampleValue ⟨nm, ty, ru⟩ = "null") ∧
    sampleValue ⟨nm, "string", none⟩ = "\"sample_" ++ nm ++ "\"" ∧
    sampleValue ⟨nm, "string", some r⟩ = "\"sample_" ++ nm ++ "\"" := by
  simp only [List.mem_cons, List.mem_singleton, not_or] at hty
  obtain ⟨hty1, hty2, hty3, -⟩ := hty
  refine ⟨rfl, ?_, fun ru => rfl, fun ru => rfl, ?_, rfl, ?_⟩
  · set body := joinSep "|" (e :: es) with hbody
    have hbodyeq : ∀ x ∈ body.data, x ≠ '=' := by
      intro x hx
      rcases joinSep_chars "|" (e :: es) x hx with h | ⟨s, hs, hxs⟩
      · simp only [show ("|" : String).data = ['|'] from rfl,
          List.mem_singleton] at h
        subst h; decide
      · rcases List.mem_cons.mp hs with hs | hs
        · exact (he x (hs ▸ hxs)).1
        · exact (hes s hs x hxs).1
    have henum : jsStartsWith ("enum=" ++ body) "enum=" = true := by
      simp only [jsStartsWith, String.data_append]; exact pfx_append_self _ _
    have hne : ((some ("enum=" ++ body) : Option String) == some "email") = false := by
      simp only [beq_eq_false_iff_ne, ne_eq, Option.some.injEq]
      intro hc
      have := congrArg String.data hc
      simp [String.data_append] at this
    have h4 : eqArg ("enum=" ++ body) = body := by
      have := eqArg_concat "enum" body (by decide) hbodyeq
      simpa [String.append_assoc] using this
    have hhead : (jsSplitStr '|' (eqArg ("enum=" ++ body))).headD "" = e := by
      rw [h4]
      cases es with
      | nil =>
        simp only [hbody, joinSep, jsSplitStr,
          jsSplit_sepfree '|' e.data (fun x hx => (he x hx).2), List.map_cons,
          List.map_nil, List.headD_cons, mk_data]
      | cons q qs =>
        have hdata : body.data = e.data ++ '|' :: (joinSep "|" (q :: qs)).data := by
          simp [hbody, joinSep, String.data_append]
        simp only [jsSplitStr, hdata,
          jsSplit_append_sepfree '|' e.data (fun x hx => (he x hx).2),
          List.map_cons, List.headD_cons, mk_data]
    have hgd : (some ("enum=" ++ body)).getD "" = "enum=" ++ body := rfl
    simp only [sampleValue, hne, henum, hgd, hhead, Bool.false_eq_true,
      if_false, if_true]
    rfl
  · intro ru
    simp [sampleValue, beq_eq_false_iff_ne.mpr hty1,
      beq_eq_false_iff_ne.mpr hty2, beq_eq_false_iff_ne.mpr hty3]
  · simp [sampleValue, beq_eq_false_iff_ne.mpr
      (show some r ≠ some "email" by simpa using hr.1), hr.2]

/-- Closed instance of `c6_sample_values` at the spec examples: an email
rule, an `enum=open|closed` rule and a numeric `min=18` rule. -/
theorem c6_sample_values_witness :
    sampleValue ⟨"email", "string", some "email"⟩ = "\"test@example.com\"" ∧
    sampleValue ⟨"status", "string", some "enum=open|closed"⟩ = "\"open\"" ∧
    sampleValue ⟨"age", "number", some "min=18"⟩ = "123" :=
  ⟨(c6_sample_values "email" "date" "open" ["closed"] "foo"
      (by decide) (by decide) (by decide) ⟨by decide, by decide⟩).1,
   (c6_sample_values "status" "date" "open" ["closed"] "foo"
      (by decide) (by decide) (by decide) ⟨by decide, by decide⟩).2.1,
   (c6_sample_values "age" "date" "open" ["closed"] "foo"
      (by decide) (by decide) (by decide) ⟨by decide, by decide⟩).2.2.1
     (some "min=18")⟩

/-- The `getSampleJson` accumulator unfolded: the initial text followed by
one entry fragment per field. -/
theorem sample_fold_data (fields : List Field) : ∀ (init : String),
    (fields.foldl (fun j f => j ++ "\"" ++ f.name ++ "\": " ++ sampleValue f ++ ", ") init).data
      = init.data ++ (fields.map (fun f => (sampleEntry f).data)).flatten := by
  induction fields with
  | nil => intro init; simp
  | cons f fs ih =>
    intro init
    simp only [List.foldl_cons, List.map_cons, List.flatten_cons]
    rw [ih]
    simp [sampleEntry, String.data_append, List.append_assoc]

/-- A nonempty entry block always ends with a comma and a space. -/
theorem entries_end (fields : List Field) (h : fields ≠ []) :
    ∃ Y, (fields.map (fun f => (sampleEntry f).data)).flatten = Y ++ [',', ' '] := by
  induction fields with
  | nil => exact absurd rfl h
  | cons f fs ih =>
    cases fs with
    | nil =>
      refine ⟨("\"" ++ f.name ++ "\": " ++ sampleValue f).data, ?_⟩
      simp [sampleEntry, String.data_append]
    | cons g gs =>
      obtain ⟨Y, hY⟩ := ih (by simp)
      refine ⟨(sampleEntry f).data ++ Y, ?_⟩
      rw [List.map_cons, List.flatten_cons, hY, List.append_assoc]

/-- C10: on the empty field list `getSampleJson` returns the single closing
brace (the unconditional two-character slice eats the opening brace), not the
empty JSON object; on any non-empty field list the result opens with a brace
and closes with one. -/
theorem c10_sample_json_empty_slice (fields : List Field) (h : fields ≠ []) :
    getSampleJson ([] : List Field) = "\x7d" ∧
    getSampleJson ([] : List Field) ≠ "\x7b\x7d" ∧
    ∃ mid : String, getSampleJson fields = "\x7b" ++ mid ++ "\x7d" := by
  refine ⟨rfl, by decide, ?_⟩
  obtain ⟨Y, hY⟩ := entries_end fields h
  have hdata :
      (fields.foldl (fun j f => j ++ "\"" ++ f.name ++ "\": " ++ sampleValue f ++ ", ") "\x7b").data
        = '\x7b' :: (Y ++ [',', ' ']) := by
    rw [sample_fold_data, hY]; rfl
  refine ⟨⟨Y⟩, ?_⟩
  apply String.ext
  simp only [getSampleJson, jsSliceDropTwo, String.data_append, hdata]
  have hlen : ('\x7b' :: (Y ++ [',', ' '])).length - 2 = Y.length + 1 := by
    simp
  rw [hlen]
  have htake : ('\x7b' :: (Y ++ [',', ' '])).take (Y.length + 1)
      = '\x7b' :: Y := by
    simp only [List.take_succ_cons, List.cons.injEq, true_and]
    exact List.take_left Y [',', ' ']
  rw [htake]
  simp

/-- One valid field entry survives the parse/serialize round trip. -/
theorem serialize_entry (e : String) (hok : fieldOk e = true) :
    serializeField ⟨(jsSplitStr ':' e).headD "",
      ((jsSplitStr ':' e)[1]?).getD "", (jsSplitStr ':' e)[2]?⟩ = e := by
  have hjoin : joinSep ":" (jsSplitStr ':' e) = e := by
    have h := jsSplit_join ':' e.data
    rw [show (⟨[':']⟩ : String) = ":" from rfl, mk_data] at h
    exact h
  simp only [fieldOk, Bool.and_eq_true, Bool.or_eq_true, beq_iff_eq,
    List.all_eq_true] at hok
  obtain ⟨hlen, -⟩ := hok
  rcases hlen with h2 | h3
  · obtain ⟨a, b, hab⟩ := List.length_eq_two.mp h2
    rw [hab] at hjoin ⊢
    simp only [joinSep] at hjoin
    simpa [serializeField] using hjoin
  · obtain ⟨a, b, c, habc⟩ := List.length_eq_three.mp h3
    rw [habc] at hjoin ⊢
    simp only [joinSep] at hjoin
    simp only [serializeField, List.headD_cons]
    rw [← hjoin]
    simp [String.append_assoc]

/-- C4: a syntactically valid spec string (each comma entry passing the field
regex) parses successfully, and re-serializing every descriptor back to its
`name:type[:rule]` form and joining with commas reproduces the input exactly,
preserving field order. -/
theorem c4_field_grammar_roundtrip (s : String) (hne : s ≠ "")
    (hval : ∀ e ∈ jsSplitStr ',' s, fieldOk e = true) :
    ∃ fs, parseFields s = .ok fs ∧ joinSep "," (fs.map serializeField) = s := by
  refine ⟨(jsSplitStr ',' s).map (fun e =>
    (⟨(jsSplitStr ':' e).headD "", ((jsSplitStr ':' e)[1]?).getD "",
      (jsSplitStr ':' e)[2]?⟩ : Field)), ?_, ?_⟩
  · simp only [parseFields, beq_eq_false_iff_ne.mpr hne, Bool.false_eq_true,
      if_false]
    apply mapExcept_ok_of
    intro e hee
    simp [hval e hee]
  · rw [List.map_map]
    have hmap : (jsSplitStr ',' s).map (serializeField ∘ (fun e =>
        (⟨(jsSplitStr ':' e).headD "", ((jsSplitStr ':' e)[1]?).getD "",
          (jsSplitStr ':' e)[2]?⟩ : Field))) = jsSplitStr ',' s := by
      calc _ = (jsSplitStr ',' s).map id :=
            List.map_congr_left (fun e hee => serialize_entry e (hval e hee))
        _ = jsSplitStr ',' s := List.map_id _
    rw [hmap]
    have h := jsSplit_join ',' s.data
    rw [show (⟨[',']⟩ : String) = "," from rfl, mk_data] at h
    exact h

/-- Closed instance of `c4_field_grammar_roundtrip` on the two-field spec of
the claim. -/
theorem c4_field_grammar_roundtrip_witness :
    (("title:string,price:number" : String) ≠ "" ∧
      ∀ e ∈ jsSplitStr ',' "title:string,price:number", fieldOk e = true) ∧
    ∃ fs, parseFields "title:string,price:number" = .ok fs ∧
      joinSep "," (fs.map serializeField) = "title:string,price:number" :=
  ⟨⟨by decide, by decide⟩,
   c4_field_grammar_roundtrip "title:string,price:number" (by decide) (by decide)⟩

/-- Closed instance of `c10_sample_json_empty_slice` at a one-field list. -/
theorem c10_sample_json_empty_slice_witness :
    ([(⟨"name", "string", none⟩ : Field)] ≠ ([] : List Field)) ∧
    getSampleJson ([] : List Field) = "\x7d" ∧
    ∃ mid : String,
      getSampleJson [(⟨"name", "string", none⟩ : Field)] = "\x7b" ++ mid ++ "\x7d" :=
  ⟨by decide,
   (c10_sample_json_empty_slice [⟨"name", "string", none⟩] (by decide)).1,
   (c10_sample_json_empty_slice [⟨"name", "string", none⟩] (by decide)).2.2⟩

/-- File writes do not touch the directory set. -/
theorem foldl_write_dirs (l : List (String × String)) : ∀ fs : FS,
    (l.foldl (fun s kv => s.write kv.1 kv.2) fs).dirs = fs.dirs := by
  induction l with
  | nil => intro fs; rfl
  | cons kv l ih => intro fs; rw [List.foldl_cons, ih]; rfl

/-- Directory creation only grows the directory set. -/
theorem foldl_mkdirp_mem (pr : String) (l : List String) : ∀ (fs : FS),
    ∀ x ∈ fs.dirs, x ∈ (l.foldl (fun s d => s.mkdirp (joinPath pr d)) fs).dirs := by
  induction l with
  | nil => intro fs x hx; exact hx
  | cons d l ih =>
    intro fs x hx
    rw [List.foldl_cons]
    exact ih _ x (List.mem_cons_of_mem _ hx)

/-- C8: running create when the target directory already exists fails with
the precondition error and leaves the file system completely untouched: no
file is written and no directory is created. -/
theorem c8_create_rejects_existing (fs0 : FS) (pn ps : String)
    (features : List Feature) (h : fs0.access (joinPath ps pn) = true) :
    createProjectRun fs0 pn ps features =
      (fs0, .error ("Directory " ++ joinPath ps pn ++
        " already exists. Please remove it or choose a different name.")) := by
  simp [createProjectRun, h]

/-- Closed instance of `c8_create_rejects_existing`: creating `p` twice (the
directory is present from the first run). -/
theorem c8_create_rejects_existing_witness :
    FS.access ⟨"/w", ["/w/p"], []⟩ (joinPath "." "p") = true ∧
    createProjectRun ⟨"/w", ["/w/p"], []⟩ "p" "." [⟨"user", ""⟩] =
      (⟨"/w", ["/w/p"], []⟩, .error ("Directory " ++ joinPath "." "p" ++
        " already exists. Please remove it or choose a different name.")) :=
  ⟨by decide, c8_create_rejects_existing ⟨"/w", ["/w/p"], []⟩ "p" "." [⟨"user", ""⟩] (by decide)⟩

/-- C9 (amended): the add-feature command aborts with a non-zero status and
zero writes when the bootstrap marker file is absent; the duplicate-name case
claimed alongside does not exist in the code (see the counterexample), so the
marker check is the sole precondition. -/
theorem c9_marker_check_amended (fs0 : FS) (featureName fields : String)
    (h : fs0.access (joinPath fs0.cwd "Server/index.ts") = false) :
    addFeatureRun fs0 featureName fields =
      (fs0, .error "Error: Current directory is not a tsclean project. Run from the project root.") := by
  simp [addFeatureRun, h]

/-- Closed instance of `c9_marker_check_amended` on an empty directory. -/
theorem c9_marker_check_amended_witness :
    FS.access ⟨"/w", [], []⟩ (joinPath "/w" "Server/index.ts") = false ∧
    addFeatureRun ⟨"/w", [], []⟩ "user" "" =
      (⟨"/w", [], []⟩, .error "Error: Current directory is not a tsclean project. Run from the project root.") :=
  ⟨by decide, c9_marker_check_amended ⟨"/w", [], []⟩ "user" "" (by decide)⟩

set_option maxRecDepth 400000 in
/-- C9 (counterexample): adding a feature whose name already exists in the
recovered roster does not abort: with `user` already imported by the
bootstrap file and listed in the README, `addFeature user` still exits
successfully (and regenerates the files), so the claimed duplicate-name
failure does not happen. -/
theorem c9_duplicate_feature_accepted :
    recoverServerFeatures (templates.serverIndexTs [⟨"user", ""⟩]) = [⟨"user", ""⟩] ∧
    createAScan (templates.readmeMd "shop" [⟨"user", ""⟩] ["\x7b\x7d"]) = ["user"] ∧
    (addFeatureRun
      ⟨"/w/shop", ["/w/shop"],
        [("/w/shop/Server/index.ts", templates.serverIndexTs [⟨"user", ""⟩]),
         ("/w/shop/README.md", templates.readmeMd "shop" [⟨"user", ""⟩] ["\x7b\x7d"])]⟩
      "user" "").2 = .ok () := by
  refine ⟨by decide, by decide, ?_⟩
  rfl

/-- C3 (amended): each field entry must have exactly two or three
colon-separated parts, none empty; any bad entry fails the whole parse with
the descriptive message (no partial success), and in particular `name` and
`a:b:c:d` are rejected.  During a create run the failure aborts the run with
that error, but only after the project directory tree has been created — the
project root (and the rest of the tree) is already present in the resulting
state, so the run does not create zero directories. -/
theorem c3_malformed_spec_amended (fs0 : FS) (pn ps nm s msg : String)
    (hroot : fs0.access (joinPath ps pn) = false)
    (hs : s ≠ "") (hbad : parseFields s = .error msg) :
    (createProjectRun fs0 pn ps [⟨nm, s⟩]).2 = .error msg ∧
    resolvePath fs0.cwd (joinPath ps pn) ∈ (createProjectRun fs0 pn ps [⟨nm, s⟩]).1.dirs ∧
    parseFields "name" = .error fieldErrMsg ∧
    parseFields "a:b:c:d" = .error fieldErrMsg ∧
    (∀ t, t ≠ "" → (∃ e ∈ jsSplitStr ',' t, fieldOk e = false) →
      parseFields t = .error fieldErrMsg) ∧
    (∀ t l, parseFields t = .ok l → t ≠ "" →
      ∀ e ∈ jsSplitStr ',' t, fieldOk e = true) := by
  refine ⟨?_, ?_, by rfl, by rfl, ?_, ?_⟩
  · simp only [createProjectRun, hroot, Bool.false_eq_true, if_false,
      createFeaturesLoop, beq_eq_false_iff_ne.mpr hs, hbad]
  · simp only [createProjectRun, hroot, Bool.false_eq_true, if_false,
      createFeaturesLoop, beq_eq_false_iff_ne.mpr hs, hbad]
    rw [foldl_write_dirs]
    show resolvePath fs0.cwd (joinPath ps pn) ∈
      (List.foldl _ (FS.mkdirp fs0 (joinPath ps pn)) _).dirs
    apply foldl_mkdirp_mem
    simp [FS.mkdirp, FS.chdir]
  · intro t ht hbadlist
    simp only [parseFields, beq_eq_false_iff_ne.mpr ht, Bool.false_eq_true,
      if_false]
    apply mapExcept_fixed_error
    · intro e
      by_cases he : fieldOk e = true
      · exact Or.inr ⟨⟨(jsSplitStr ':' e).headD "",
          ((jsSplitStr ':' e)[1]?).getD "", (jsSplitStr ':' e)[2]?⟩,
          by simp [he]⟩
      · exact Or.inl (by simp [he])
    · obtain ⟨e, he, hef⟩ := hbadlist
      exact ⟨e, he, by simp [hef]⟩
  · intro t l hok hcase e he
    simp only [parseFields, beq_eq_false_iff_ne.mpr hcase,
      Bool.false_eq_true, if_false] at hok
    obtain ⟨y, hy⟩ := mapExcept_ok_forall hok e he
    by_cases hfo : fieldOk e = true
    · exact hfo
    · simp [hfo] at hy

/-- Closed instance of `c3_malformed_spec_amended`: the spec `name` on a
fresh target. -/
theorem c3_malformed_spec_amended_witness :
    (FS.access ⟨"/w", [], []⟩ (joinPath "." "p") = false ∧
      ("name" : String) ≠ "" ∧ parseFields "name" = .error fieldErrMsg) ∧
    (createProjectRun ⟨"/w", [], []⟩ "p" "." [⟨"a", "name"⟩]).2 = .error fieldErrMsg ∧
    resolvePath "/w" (joinPath "." "p") ∈
      (createProjectRun ⟨"/w", [], []⟩ "p" "." [⟨"a", "name"⟩]).1.dirs :=
  ⟨⟨by decide, by decide, by rfl⟩,
   (c3_malformed_spec_amended ⟨"/w", [], []⟩ "p" "." "a" "name" fieldErrMsg
     (by decide) (by decide) (by rfl)).1,
   (c3_malformed_spec_amended ⟨"/w", [], []⟩ "p" "." "a" "name" fieldErrMsg
     (by decide) (by decide) (by rfl)).2.1⟩

set_option maxRecDepth 400000 in
/-- C3 (counterexample to the zero-directories clause): a create run on a
fresh target with the malformed spec `name` fails as claimed, yet its
resulting state holds a non-empty directory set — the tree was created
before field parsing ran. -/
theorem c3_zero_directories_refuted :
    (createProjectRun ⟨"/w", [], []⟩ "p" "." [⟨"a", "name"⟩]).2 = .error fieldErrMsg ∧
    (createProjectRun ⟨"/w", [], []⟩ "p" "." [⟨"a", "name"⟩]).1.dirs ≠ [] := by
  constructor
  · rfl
  · decide

/-- The `featureContainerTs` emitter text holds the shared creation use-case
identifier as a factor. -/
theorem featureContainerTs_contains_usecase (feature : String) :
    strContains (templates.featureContainerTs feature)
      ("Create" ++ capitalize feature ++ "UseCase") := by
  refine ⟨"import \x27reflect-metadata\x27;\n"
      ++ "import \x7b container \x7d from \x27tsyringe\x27;\n"
      ++ "import \x7b "
      ++ (capitalize feature)
      ++ "Controller \x7d from \x27./delivery/controllers/"
      ++ (feature)
      ++ ".controller\x27;\n"
      ++ "import \x7b ",
    " \x7d from \x27./domain/usecases/create-"
      ++ (feature)
      ++ ".usecase\x27;\n"
      ++ "import \x7b "
      ++ (capitalize feature)
      ++ "RepositoryImpl \x7d from \x27./data/repositories/"
      ++ (feature)
      ++ ".repository\x27;\n"
      ++ "import \x7b "
      ++ (capitalize feature)
      ++ "DataSource \x7d from \x27./data/datasources/"
      ++ (feature)
      ++ ".datasource\x27;\n"
      ++ "\n"
      ++ "container.register<Create"
      ++ (capitalize feature)
      ++ "UseCase>(\x27Create"
      ++ (capitalize feature)
      ++ "UseCase\x27, Create"
      ++ (capitalize feature)
      ++ "UseCase);\n"
      ++ "container.register<"
      ++ (capitalize feature)
      ++ "RepositoryImpl>(\x27"
      ++ (capitalize feature)
      ++ "Repository\x27, "
      ++ (capitalize feature)
      ++ "RepositoryImpl);\n"
      ++ "container.register<"
      ++ (capitalize feature)
      ++ "DataSource>(\x27"
      ++ (capitalize feature)
      ++ "DataSource\x27, "
      ++ (capitalize feature)
      ++ "DataSource);\n"
      ++ "container.register<"
      ++ (capitalize feature)
      ++ "Controller>("
      ++ (capitalize feature)
      ++ "Controller, "
      ++ (capitalize feature)
      ++ "Controller);\n"
      ++ "\n"
      ++ "export \x7b container \x7d;", ?_⟩
  simp only [templates.featureContainerTs]
  rw [show ("import \x7b Create" : String) = "import \x7b " ++ "Create" from rfl,
      show ("UseCase \x7d from \x27./domain/usecases/create-" : String)
        = "UseCase" ++ " \x7d from \x27./domain/usecases/create-" from rfl]
  simp only [String.append_assoc]

/-- The `featureUseCaseTs` emitter text holds the shared creation use-case
identifier as a factor. -/
theorem featureUseCaseTs_contains_usecase (feature : String) (fields : List Field) :
    strContains (templates.featureUseCaseTs feature fields)
      ("Create" ++ capitalize feature ++ "UseCase") := by
  refine ⟨"import \x7b injectable, inject \x7d from \x27tsyringe\x27;\n"
      ++ "import \x7b "
      ++ (capitalize feature)
      ++ " \x7d from \x27../entity/"
      ++ (feature)
      ++ ".entity\x27;\n"
      ++ "import \x7b "
      ++ (capitalize feature)
      ++ "Repository \x7d from \x27../repositories/"
      ++ (feature)
      ++ ".repository.interface\x27;\n"
      ++ "import \x7b Result, Ok, Err \x7d from \x27../../../../Core/result/result\x27;\n"
      ++ "import \x7b CustomError \x7d from \x27../../../../Core/error/custom-error\x27;\n"
      ++ "\n"
      ++ "export interface Create"
      ++ (capitalize feature)
      ++ "Dto \x7b\n"
      ++ "  "
      ++ (joinSep "\n" (fields.map (fun f => "  " ++ (f.name) ++ ": " ++ (toTsType f.type) ++ ";")))
      ++ "\n"
      ++ "\x7d\n"
      ++ "\n"
      ++ "@injectable()\n"
      ++ "export class ",
    " \x7b\n"
      ++ "  constructor(@inject(\x27"
      ++ (capitalize feature)
      ++ "Repository\x27) private "
      ++ (feature)
      ++ "Repository: "
      ++ (capitalize feature)
      ++ "Repository) \x7b\x7d\n"
      ++ "\n"
      ++ "  async execute(dto: Create"
      ++ (capitalize feature)
      ++ "Dto): Promise<Result<"
      ++ (capitalize feature)
      ++ ", CustomError>> \x7b\n"
      ++ "    const "
      ++ (feature)
      ++ " = new "
      ++ (capitalize feature)
      ++ "(\n"
      ++ "      Math.random().toString(36).substring(2), // Simple ID generation\n"
      ++ "      "
      ++ (joinSep ", " (fields.map (fun f => "dto." ++ (f.name))))
      ++ "\n"
      ++ "    );\n"
      ++ "    return await this."
      ++ (feature)
      ++ "Repository.create("
      ++ (feature)
      ++ ");\n"
      ++ "  \x7d\n"
      ++ "\x7d", ?_⟩
  simp only [templates.featureUseCaseTs]
  rw [show ("export class Create" : String) = "export class " ++ "Create" from rfl,
      show ("UseCase \x7b\n" : String)
        = "UseCase" ++ " \x7b\n" from rfl]
  simp only [String.append_assoc]

/-- The `featureControllerTs` emitter text holds the shared creation use-case
identifier as a factor. -/
theorem featureControllerTs_contains_usecase (feature : String) :
    strContains (templates.featureControllerTs feature)
      ("Create" ++ capitalize feature ++ "UseCase") := by
  refine ⟨"import \x7b injectable, inject \x7d from \x27tsyringe\x27;\n"
      ++ "import \x7b Request, Response, NextFunction \x7d from \x27express\x27;\n"
      ++ "import \x7b Router \x7d from \x27express\x27;\n"
      ++ "import \x7b ",
    ", Create"
      ++ (capitalize feature)
      ++ "Dto \x7d from \x27../../domain/usecases/create-"
      ++ (feature)
      ++ ".usecase\x27;\n"
      ++ "import \x7b CustomError \x7d from \x27../../../Core/error/custom-error\x27;\n"
      ++ "import \x7b validate"
      ++ (capitalize feature)
      ++ " \x7d from \x27../middlewares/validate-"
      ++ (feature)
      ++ ".middleware\x27;\n"
      ++ "\n"
      ++ "@injectable()\n"
      ++ "export class "
      ++ (capitalize feature)
      ++ "Controller \x7b\n"
      ++ "  private router: Router;\n"
      ++ "\n"
      ++ "  constructor(@inject(\x27Create"
      ++ (capitalize feature)
      ++ "UseCase\x27) private create"
      ++ (capitalize feature)
      ++ "UseCase: Create"
      ++ (capitalize feature)
      ++ "UseCase) \x7b\n"
      ++ "    this.router = Router();\n"
      ++ "    this.router.post(\x27/\x27, validate"
      ++ (capitalize feature)
      ++ ", this.create"
      ++ (capitalize feature)
      ++ ".bind(this));\n"
      ++ "  \x7d\n"
      ++ "\n"
      ++ "  async create"
      ++ (capitalize feature)
      ++ "(req: Request, res: Response): Promise<void> \x7b\n"
      ++ "    const dto: Create"
      ++ (capitalize feature)
      ++ "Dto = req.body;\n"
      ++ "    const result = await this.create"
      ++ (capitalize feature)
      ++ "UseCase.execute(dto);\n"
      ++ "    if (result.isOk()) \x7b\n"
      ++ "      res.status(201).json(result.unwrap());\n"
      ++ "    \x7d else \x7b\n"
      ++ "      const error = result.unwrapErr();\n"
      ++ "      res.status(error.statusCode).json(\x7b message: error.message \x7d);\n"
      ++ "    \x7d\n"
      ++ "  \x7d\n"
      ++ "\n"
      ++ "  getRouter(): Router \x7b\n"
      ++ "    return this.router;\n"
      ++ "  \x7d\n"
      ++ "\x7d", ?_⟩
  simp only [templates.featureControllerTs]
  rw [show ("import \x7b Create" : String) = "import \x7b " ++ "Create" from rfl,
      show ("UseCase, Create" : String)
        = "UseCase" ++ ", Create" from rfl]
  simp only [String.append_assoc]

/-- The `featureUseCaseTestTs` emitter text holds the shared creation use-case
identifier as a factor. -/
theorem featureUseCaseTestTs_contains_usecase (feature : String) (fields : List Field) (sampleJson : String) :
    strContains (templates.featureUseCaseTestTs feature fields sampleJson)
      ("Create" ++ capitalize feature ++ "UseCase") := by
  refine ⟨"import \x7b container \x7d from \x27tsyringe\x27;\n"
      ++ "import \x7b ",
    ", Create"
      ++ (capitalize feature)
      ++ "Dto \x7d from \x27../../../Features/"
      ++ (feature)
      ++ "/domain/usecases/create-"
      ++ (feature)
      ++ ".usecase\x27;\n"
      ++ "import \x7b "
      ++ (capitalize feature)
      ++ "Repository \x7d from \x27../../../Features/"
      ++ (feature)
      ++ "/domain/repositories/"
      ++ (feature)
      ++ ".repository.interface\x27;\n"
      ++ "import \x7b Result, Ok, Err \x7d from \x27../../../Core/result/result\x27;\n"
      ++ "import \x7b CustomError \x7d from \x27../../../Core/error/custom-error\x27;\n"
      ++ "import \x7b "
      ++ (capitalize feature)
      ++ " \x7d from \x27../../../Features/"
      ++ (feature)
      ++ "/domain/entity/"
      ++ (feature)
      ++ ".entity\x27;\n"
      ++ "\n"
      ++ "describe(\x27Create"
      ++ (capitalize feature)
      ++ "UseCase\x27, () => \x7b\n"
      ++ "  let create"
      ++ (capitalize feature)
      ++ "UseCase: Create"
      ++ (capitalize feature)
      ++ "UseCase;\n"
      ++ "  let mockRepository: jest.Mocked<"
      ++ (capitalize feature)
      ++ "Repository>;\n"
      ++ "\n"
      ++ "  beforeEach(() => \x7b\n"
      ++ "    mockRepository = \x7b\n"
      ++ "      create: jest.fn(),\n"
      ++ "      findById: jest.fn(),\n"
      ++ "    \x7d;\n"
      ++ "    container.registerInstance(\x27"
      ++ (capitalize feature)
      ++ "Repository\x27, mockRepository);\n"
      ++ "    create"
      ++ (capitalize feature)
      ++ "UseCase = container.resolve<Create"
      ++ (capitalize feature)
      ++ "UseCase>(\x27Create"
      ++ (capitalize feature)
      ++ "UseCase\x27);\n"
      ++ "  \x7d);\n"
      ++ "\n"
      ++ "  afterEach(() => \x7b\n"
      ++ "    container.reset();\n"
      ++ "  \x7d);\n"
      ++ "\n"
      ++ "  it(\x27should create a "
      ++ (feature)
      ++ " successfully\x27, async () => \x7b\n"
      ++ "    const dto: Create"
      ++ (capitalize feature)
      ++ "Dto = "
      ++ (sampleJson)
      ++ ";\n"
      ++ "    const "
      ++ (feature)
      ++ " = new "
      ++ (capitalize feature)
      ++ "(\x27123\x27, "
      ++ (joinSep ", " (fields.map (fun f => "dto." ++ (f.name))))
      ++ ");\n"
      ++ "    mockRepository.create.mockResolvedValue(Ok("
      ++ (feature)
      ++ "));\n"
      ++ "\n"
      ++ "    const result = await create"
      ++ (capitalize feature)
      ++ "UseCase.execute(dto);\n"
      ++ "\n"
      ++ "    expect(result.isOk()).toBe(true);\n"
      ++ "    expect(result.unwrap()).toEqual("
      ++ (feature)
      ++ ");\n"
      ++ "    expect(mockRepository.create).toHaveBeenCalledWith(expect.any("
      ++ (capitalize feature)
      ++ "));\n"
      ++ "  \x7d);\n"
      ++ "\n"
      ++ "  it(\x27should return an error if repository fails\x27, async () => \x7b\n"
      ++ "    const dto: Create"
      ++ (capitalize feature)
      ++ "Dto = "
      ++ (sampleJson)
      ++ ";\n"
      ++ "    const error = new CustomError(500, \x27Repository error\x27);\n"
      ++ "    mockRepository.create.mockResolvedValue(Err(error));\n"
      ++ "\n"
      ++ "    const result = await create"
      ++ (capitalize feature)
      ++ "UseCase.execute(dto);\n"
      ++ "\n"
      ++ "    expect(result.isErr()).toBe(true);\n"
      ++ "    expect(result.unwrapErr()).toEqual(error);\n"
      ++ "  \x7d);\n"
      ++ "\x7d);", ?_⟩
  simp only [templates.featureUseCaseTestTs]
  rw [show ("import \x7b Create" : String) = "import \x7b " ++ "Create" from rfl,
      show ("UseCase, Create" : String)
        = "UseCase" ++ ", Create" from rfl]
  simp only [String.append_assoc]

/-- The `featureControllerTestTs` emitter text holds the shared creation use-case
identifier as a factor. -/
theorem featureControllerTestTs_contains_usecase (feature : String) (fields : List Field) (sampleJson : String) :
    strContains (templates.featureControllerTestTs feature fields sampleJson)
      ("Create" ++ capitalize feature ++ "UseCase") := by
  refine ⟨"import request from \x27supertest\x27;\n"
      ++ "import express from \x27express\x27;\n"
      ++ "import \x7b container \x7d from \x27tsyringe\x27;\n"
      ++ "import \x7b "
      ++ (capitalize feature)
      ++ "Controller \x7d from \x27../../../Features/"
      ++ (feature)
      ++ "/delivery/controllers/"
      ++ (feature)
      ++ ".controller\x27;\n"
      ++ "import \x7b ",
    " \x7d from \x27../../../Features/"
      ++ (feature)
      ++ "/domain/usecases/create-"
      ++ (feature)
      ++ ".usecase\x27;\n"
      ++ "import \x7b Result, Ok \x7d from \x27../../../Core/result/result\x27;\n"
      ++ "import \x7b "
      ++ (capitalize feature)
      ++ " \x7d from \x27../../../Features/"
      ++ (feature)
      ++ "/domain/entity/"
      ++ (feature)
      ++ ".entity\x27;\n"
      ++ "\n"
      ++ "describe(\x27"
      ++ (capitalize feature)
      ++ "Controller\x27, () => \x7b\n"
      ++ "  let app: express.Application;\n"
      ++ "  let mockUseCase: jest.Mocked<Create"
      ++ (capitalize feature)
      ++ "UseCase>;\n"
      ++ "\n"
      ++ "  beforeEach(() => \x7b\n"
      ++ "    mockUseCase = \x7b\n"
      ++ "      execute: jest.fn(),\n"
      ++ "    \x7d;\n"
      ++ "    container.registerInstance(\x27Create"
      ++ (capitalize feature)
      ++ "UseCase\x27, mockUseCase);\n"
      ++ "    const controller = container.resolve("
      ++ (capitalize feature)
      ++ "Controller);\n"
      ++ "    app = express();\n"
      ++ "    app.use(express.json());\n"
      ++ "    app.use(\x27/api/"
      ++ (feature)
      ++ "\x27, controller.getRouter());\n"
      ++ "  \x7d);\n"
      ++ "\n"
      ++ "  afterEach(() => \x7b\n"
      ++ "    container.reset();\n"
      ++ "  \x7d);\n"
      ++ "\n"
      ++ "  it(\x27should create a "
      ++ (feature)
      ++ " and return 201\x27, async () => \x7b\n"
      ++ "    const dto = "
      ++ (sampleJson)
      ++ ";\n"
      ++ "    const "
      ++ (feature)
      ++ " = new "
      ++ (capitalize feature)
      ++ "(\x27123\x27, "
      ++ (joinSep ", " (fields.map (fun f => "dto." ++ (f.name))))
      ++ ");\n"
      ++ "    mockUseCase.execute.mockResolvedValue(Ok("
      ++ (feature)
      ++ "));\n"
      ++ "\n"
      ++ "    const response = await request(app)\n"
      ++ "      .post(\x27/api/"
      ++ (feature)
      ++ "\x27)\n"
      ++ "      .send(dto)\n"
      ++ "      .set(\x27Accept\x27, \x27application/json\x27);\n"
      ++ "\n"
      ++ "    expect(response.status).toBe(201);\n"
      ++ "    expect(response.body).toEqual(\x7b\n"
      ++ "      id: \x27123\x27,\n"
      ++ "      "
      ++ (joinSep ", " (fields.map (fun f => (f.name) ++ ": dto." ++ (f.name))))
      ++ "\n"
      ++ "    \x7d);\n"
      ++ "    expect(mockUseCase.execute).toHaveBeenCalledWith(dto);\n"
      ++ "  \x7d);\n"
      ++ "\n"
      ++ "  it(\x27should return 400 for invalid input\x27, async () => \x7b\n"
      ++ "    const invalidDto = \x7b\x7d;\n"
      ++ "\n"
      ++ "    const response = await request(app)\n"
      ++ "      .post(\x27/api/"
      ++ (feature)
      ++ "\x27)\n"
      ++ "      .send(invalidDto)\n"
      ++ "      .set(\x27Accept\x27, \x27application/json\x27);\n"
      ++ "\n"
      ++ "    expect(response.status).toBe(400);\n"
      ++ "    expect(response.body.message).toContain(\x27is required\x27);\n"
      ++ "  \x7d);\n"
      ++ "\x7d;", ?_⟩
  simp only [templates.featureControllerTestTs]
  rw [show ("import \x7b Create" : String) = "import \x7b " ++ "Create" from rfl,
      show ("UseCase \x7d from \x27../../../Features/" : String)
        = "UseCase" ++ " \x7d from \x27../../../Features/" from rfl]
  simp only [String.append_assoc]
/-- C1: for every feature name and field list, all five emitted files that
reference the creation use case — the DI container, the use-case module, the
controller, and the two test files — contain the identical identifier
`Create` ++ Capitalize(feature) ++ `UseCase` as an exact substring of their
text, so the cross-file name agreement holds by exact string match. -/
theorem c1_create_usecase_identifier_agreement
    (feature : String) (fields : List Field) (sampleJson : String) :
    strContains (templates.featureContainerTs feature)
      ("Create" ++ capitalize feature ++ "UseCase") ∧
    strContains (templates.featureUseCaseTs feature fields)
      ("Create" ++ capitalize feature ++ "UseCase") ∧
    strContains (templates.featureControllerTs feature)
      ("Create" ++ capitalize feature ++ "UseCase") ∧
    strContains (templates.featureUseCaseTestTs feature fields sampleJson)
      ("Create" ++ capitalize feature ++ "UseCase") ∧
    strContains (templates.featureControllerTestTs feature fields sampleJson)
      ("Create" ++ capitalize feature ++ "UseCase") :=
  ⟨featureContainerTs_contains_usecase feature,
   featureUseCaseTs_contains_usecase feature fields,
   featureControllerTs_contains_usecase feature,
   featureUseCaseTestTs_contains_usecase feature fields sampleJson,
   featureControllerTestTs_contains_usecase feature fields sampleJson⟩

/-- A prefix of `u` stays a prefix when `u` is extended. -/
theorem pfx_extend {p u : List Char} (h : pfx p u = true) (t : List Char) :
    pfx p (u ++ t) = true := by
  induction p generalizing u with
  | nil => rfl
  | cons a as ih =>
    cases u with
    | nil => simp [pfx] at h
    | cons b bs =>
      simp only [pfx, Bool.and_eq_true] at h
      simp [pfx, h.1, ih h.2]

/-- A definite mismatch refutes the prefix for every continuation. -/
theorem definiteMismatch_sound {p u : List Char}
    (h : definiteMismatch p u = true) (t : List Char) :
    pfx p (u ++ t) = false := by
  induction p generalizing u with
  | nil => simp [definiteMismatch] at h
  | cons a as ih =>
    cases u with
    | nil => simp [definiteMismatch] at h
    | cons b bs =>
      simp only [definiteMismatch, Bool.or_eq_true, bne_iff_ne, ne_eq] at h
      rcases h with h | h
      · simp [pfx, beq_eq_false_iff_ne.mpr h]
      · simp [pfx, ih h]

/-- A capture run that stops strictly inside `u` ignores the continuation. -/
theorem takeWhile_stop {cap : Char → Bool} : ∀ (u : List Char),
    (u.takeWhile cap).length < u.length →
    ∀ t, (u ++ t).takeWhile cap = u.takeWhile cap := by
  intro u
  induction u with
  | nil => intro h; simp at h
  | cons c cs ih =>
    intro h t
    by_cases hc : cap c
    · simp only [List.takeWhile_cons, hc, if_true, List.length_cons,
        Nat.add_lt_add_iff_right] at h
      simp only [List.cons_append, List.takeWhile_cons, hc, if_true, ih h t]
    · simp [List.takeWhile_cons, hc]

/-- A capture run consumes an all-captured block whole. -/
theorem takeWhile_all {cap : Char → Bool} : ∀ (g : List Char),
    (∀ c ∈ g, cap c = true) →
    ∀ x, (g ++ x).takeWhile cap = g ++ x.takeWhile cap := by
  intro g
  induction g with
  | nil => intro _ x; rfl
  | cons c cs ih =>
    intro h x
    simp only [List.cons_append, List.takeWhile_cons,
      h c (List.mem_cons_self c cs), if_true]
    rw [ih (fun d hd => h d (List.mem_cons_of_mem c hd)) x]

/-- The backtracking search returns a position in range, at least one. -/
theorem findN_range {post l1 : List Char} : ∀ {k n : Nat},
    findN post l1 k = some n → 1 ≤ n ∧ n ≤ k := by
  intro k
  induction k with
  | zero => intro n h; simp [findN] at h
  | succ k ih =>
    intro n h
    simp only [findN] at h
    by_cases hp : pfx post (l1.drop (k + 1)) = true
    · rw [if_pos hp] at h
      cases h
      omega
    · rw [if_neg hp] at h
      have := ih h
      omega

/-- The backtracking search fails when every position fails. -/
theorem findN_none {post l1 : List Char} : ∀ {k : Nat},
    (∀ n, 1 ≤ n → n ≤ k → pfx post (l1.drop n) = false) →
    findN post l1 k = none := by
  intro k
  induction k with
  | zero => intro _; rfl
  | succ k ih =>
    intro h
    simp only [findN, h (k + 1) (by omega) (by omega), Bool.false_eq_true,
      if_false]
    exact ih (fun n h1 h2 => h n h1 (by omega))

/-- The backtracking search skips failing top positions. -/
theorem findN_down {post l1 : List Char} : ∀ (m k : Nat),
    (∀ j, 1 ≤ j → j ≤ m → pfx post (l1.drop (k + j)) = false) →
    findN post l1 (k + m) = findN post l1 k := by
  intro m
  induction m with
  | zero => intro k _; rfl
  | succ m ih =>
    intro k h
    have hkm : k + (m + 1) = (k + m) + 1 := by omega
    rw [hkm]
    simp only [findN, show k + m + 1 = k + (m + 1) from by omega,
      h (m + 1) (by omega) (by omega), Bool.false_eq_true, if_false]
    exact ih k (fun j h1 h2 => h j h1 (by omega))

/-- The backtracking search succeeds at its top position. -/
theorem findN_hit {post l1 : List Char} {k : Nat} (h1 : 1 ≤ k)
    (h : pfx post (l1.drop k) = true) : findN post l1 k = some k := by
  cases k with
  | zero => omega
  | succ k => simp [findN, h]

/-- No match starts where the leading literal cannot. -/
theorem matchAt_none_of_pfx {pre post : List Char} {cap : Char → Bool}
    {l : List Char} (h : pfx pre l = false) :
    matchAt pre post cap l = none := by
  simp [matchAt, h]

/-- A successful match consumes at least one character. -/
theorem matchAt_rest_len {pre post : List Char} {cap : Char → Bool}
    {l g rest : List Char} (h : matchAt pre post cap l = some (g, rest)) :
    rest.length < l.length := by
  simp only [matchAt] at h
  by_cases hp : pfx pre l = true
  · rw [if_pos hp] at h
    cases hf : findN post (l.drop pre.length)
        ((l.drop pre.length).takeWhile cap).length with
    | none => rw [hf] at h; cases h
    | some n =>
      rw [hf] at h
      obtain ⟨h1, h2⟩ := findN_range hf
      have hlen : ((l.drop pre.length).takeWhile cap).length ≤
          (l.drop pre.length).length := (List.takeWhile_sublist _).length_le
      have hdl : (l.drop pre.length).length ≤ l.length := by
        simp [List.length_drop]
      cases h
      simp only [List.length_drop]
      omega
  · rw [if_neg hp] at h; cases h

/-- The match-site lemma: at a position shaped leading literal, captured
block, trailing literal, the match succeeds with exactly that block as the
group and the rest of the input as the remainder, provided the capture run
is stopped inside the trailing literal (or immediately by the continuation
when the trailing literal is empty) and the trailing literal cannot overlap
itself at any backtracking position. -/
theorem matchAt_hit (pre post : List Char) (cap : Char → Bool)
    (g t : List Char) (hg1 : g ≠ []) (hg2 : ∀ c ∈ g, cap c = true)
    (hstop : (post ++ t).takeWhile cap = post.takeWhile cap)
    (hlen : post = [] ∨ (post.takeWhile cap).length < post.length)
    (hpost : ∀ m, 1 ≤ m → m ≤ (post.takeWhile cap).length →
      pfx post (post.drop m ++ t) = false) :
    matchAt pre post cap (pre ++ (g ++ (post ++ t))) = some (g, t) := by
  have hpre : pfx pre (pre ++ (g ++ (post ++ t))) = true := pfx_append_self _ _
  have hdrop : (pre ++ (g ++ (post ++ t))).drop pre.length = g ++ (post ++ t) :=
    List.drop_left _ _
  have hrun : (g ++ (post ++ t)).takeWhile cap = g ++ post.takeWhile cap := by
    rw [takeWhile_all g hg2, hstop]
  have hpt : (post.takeWhile cap).length ≤ post.length :=
    (List.takeWhile_sublist _).length_le
  have hdropj : ∀ j, j ≤ post.length →
      (g ++ (post ++ t)).drop (g.length + j) = post.drop j ++ t := by
    intro j hj
    rw [List.drop_append j, List.drop_append_of_le_length hj]
  have hfind : findN post (g ++ (post ++ t))
      ((g ++ (post ++ t)).takeWhile cap).length = some g.length := by
    rw [hrun, List.length_append]
    rw [findN_down (post.takeWhile cap).length g.length ?hfail]
    case hfail =>
      intro j h1 h2
      have hjp : j ≤ post.length := by
        rcases hlen with h | h
        · subst h; simp at h2; omega
        · omega
      rw [hdropj j hjp]
      exact hpost j h1 h2
    apply findN_hit
    · have : 0 < g.length := List.length_pos.mpr hg1
      omega
    · have hg0 : (g ++ (post ++ t)).drop g.length = post ++ t :=
        List.drop_left _ _
      rw [hg0]
      exact pfx_append_self _ _
  have hgrp : (g ++ (post ++ t)).take g.length = g := List.take_left _ _
  have hrest : (g ++ (post ++ t)).drop (g.length + post.length) = t := by
    rw [hdropj post.length (by omega), List.drop_length, List.nil_append]
  simp only [matchAt, hpre, if_true, hdrop, hfind, hgrp, hrest]

/-- The scan of the empty input is empty at any fuel. -/
theorem scanAux_nil (pre post : List Char) (cap : Char → Bool) (fuel : Nat) :
    scanAux pre post cap fuel [] = [] := by
  cases fuel <;> rfl

/-- One failing position advances the scan one character. -/
theorem scanAux_skip1 {pre post : List Char} {cap : Char → Bool}
    {c : Char} {cs : List Char} (h : matchAt pre post cap (c :: cs) = none)
    (fuel : Nat) : scanAux pre post cap (fuel + 1) (c :: cs) =
      scanAux pre post cap fuel cs := by
  simp [scanAux, h]

/-- One matching position records the group and continues after the match. -/
theorem scanAux_match {pre post : List Char} {cap : Char → Bool}
    {l g rest : List Char} (h : matchAt pre post cap l = some (g, rest))
    (hl : l ≠ []) (fuel : Nat) :
    scanAux pre post cap (fuel + 1) l = g :: scanAux pre post cap fuel rest := by
  cases l with
  | nil => exact absurd rfl hl
  | cons c cs => simp [scanAux, h]

/-- Fuel does not matter once it covers the input length. -/
theorem scanAux_fuel (pre post : List Char) (cap : Char → Bool) :
    ∀ (fuel : Nat) (l : List Char), l.length ≤ fuel →
      scanAux pre post cap fuel l = scanAux pre post cap l.length l := by
  intro fuel
  induction fuel using Nat.strong_induction_on with
  | _ fuel ih =>
    intro l hl
    cases l with
    | nil => simp [scanAux_nil]
    | cons c cs =>
      simp only [List.length_cons] at hl
      cases fuel with
      | zero => omega
      | succ f =>
        have hcs : cs.length ≤ f := by omega
        cases hm : matchAt pre post cap (c :: cs) with
        | some gr =>
          obtain ⟨g, rest⟩ := gr
          have hrl : rest.length ≤ cs.length := by
            have := matchAt_rest_len hm
            simp only [List.length_cons] at this
            omega
          rw [scanAux_match hm (by simp) f,
            show (c :: cs).length = cs.length + 1 from rfl,
            scanAux_match hm (by simp) cs.length,
            ih f (by omega) rest (by omega),
            ih cs.length (by omega) rest (by omega)]
        | none =>
          rw [scanAux_skip1 hm f, show (c :: cs).length = cs.length + 1 from rfl,
            scanAux_skip1 hm cs.length, ih f (by omega) cs hcs,
            ih cs.length (by omega) cs (by omega)]

/-- `scanL` on the empty input. -/
theorem scanL_nil (pre post : List Char) (cap : Char → Bool) :
    scanL pre post cap [] = [] := rfl

/-- A block where no match can start is skipped by the scan. -/
theorem scanAux_skip_chunk {pre post : List Char} {cap : Char → Bool} :
    ∀ (u : List Char) (t : List Char),
      (∀ i, i < u.length → matchAt pre post cap (u.drop i ++ t) = none) →
      ∀ fuel, scanAux pre post cap (fuel + u.length) (u ++ t) =
        scanAux pre post cap fuel t := by
  intro u
  induction u with
  | nil => intro t _ fuel; simp
  | cons c cs ih =>
    intro t h fuel
    have h0 : matchAt pre post cap ((c :: cs) ++ t) = none := by
      have := h 0 (by simp)
      simpa using this
    have hstep : scanAux pre post cap ((fuel + cs.length) + 1) (c :: (cs ++ t)) =
        scanAux pre post cap (fuel + cs.length) (cs ++ t) := by
      exact scanAux_skip1 (by simpa using h0) (fuel + cs.length)
    calc scanAux pre post cap (fuel + (c :: cs).length) ((c :: cs) ++ t)
        = scanAux pre post cap ((fuel + cs.length) + 1) (c :: (cs ++ t)) := by
          simp only [List.length_cons, List.cons_append,
            Nat.add_succ]
      _ = scanAux pre post cap (fuel + cs.length) (cs ++ t) := hstep
      _ = scanAux pre post cap fuel t := by
          apply ih
          intro i hi
          have := h (i + 1) (by simpa using Nat.succ_lt_succ hi)
          simpa using this

/-- `scanL` composition: skipping a match-free block. -/
theorem scanL_skip {pre post : List Char} {cap : Char → Bool}
    {u t : List Char}
    (h : ∀ i, i < u.length → matchAt pre post cap (u.drop i ++ t) = none) :
    scanL pre post cap (u ++ t) = scanL pre post cap t := by
  unfold scanL
  rw [List.length_append, Nat.add_comm, scanAux_skip_chunk u t h t.length]

/-- `scanL` composition: a match site contributes its group and the scan
continues after the match. -/
theorem scanL_match {pre post : List Char} {cap : Char → Bool}
    {g t : List Char} (hpre : pre ≠ [])
    (h : matchAt pre post cap (pre ++ (g ++ (post ++ t))) = some (g, t)) :
    scanL pre post cap (pre ++ (g ++ (post ++ t))) =
      g :: scanL pre post cap t := by
  unfold scanL
  have hne : pre ++ (g ++ (post ++ t)) ≠ [] := by
    cases pre with
    | nil => exact absurd rfl hpre
    | cons a as => simp
  have hlen : (pre ++ (g ++ (post ++ t))).length =
      ((pre ++ (g ++ (post ++ t))).length - 1) + 1 := by
    cases pre with
    | nil => exact absurd rfl hpre
    | cons a as => simp
  rw [hlen, scanAux_match h hne _]
  have hrest := matchAt_rest_len h
  rw [scanAux_fuel pre post cap ((pre ++ (g ++ (post ++ t))).length - 1) t
    (by omega)]

/-- Soundness of the decidable definite-failure test at one position. -/
theorem noStartAtB_sound {pre post : List Char} {cap : Char → Bool}
    {u : List Char} (h : noStartAtB pre post cap u = true) (t : List Char) :
    matchAt pre post cap (u ++ t) = none := by
  unfold noStartAtB at h
  by_cases hdm : definiteMismatch pre u = true
  · exact matchAt_none_of_pfx (definiteMismatch_sound hdm t)
  · rw [if_neg hdm] at h
    by_cases hp : pfx pre u = true
    · rw [if_pos hp] at h
      simp only [Bool.and_eq_true, decide_eq_true_eq, List.all_eq_true,
        List.mem_range] at h
      obtain ⟨hrun, hfails⟩ := h
      have hpfx : pfx pre (u ++ t) = true := pfx_extend hp t
      have hdrop : (u ++ t).drop pre.length = u.drop pre.length ++ t := by
        apply List.drop_append_of_le_length
        by_contra hc
        push_neg at hc
        have : u.drop pre.length = [] := by
          apply List.drop_eq_nil_of_le
          omega
        rw [this] at hrun
        simp at hrun
      have hrun2 : (u.drop pre.length ++ t).takeWhile cap =
          (u.drop pre.length).takeWhile cap :=
        takeWhile_stop (u.drop pre.length) hrun t
      have hfind : findN post (u.drop pre.length ++ t)
          ((u.drop pre.length ++ t).takeWhile cap).length = none := by
        rw [hrun2]
        apply findN_none
        intro n h1 h2
        have hn : n - 1 < ((u.drop pre.length).takeWhile cap).length := by
          omega
        have hdm2 := hfails (n - 1) hn
        have hn1 : n - 1 + 1 = n := by omega
        rw [hn1] at hdm2
        have hdropn : (u.drop pre.length ++ t).drop n =
            (u.drop pre.length).drop n ++ t := by
          apply List.drop_append_of_le_length
          have := (List.takeWhile_sublist (l := u.drop pre.length)
            (p := cap)).length_le
          omega
        rw [hdropn]
        exact definiteMismatch_sound hdm2 t
      simp [matchAt, hpfx, hdrop, hfind]
    · simp [hp] at h

/-- Positions inside a block passing the decidable test also pass it. -/
theorem noStartAllB_drop {pre post : List Char} {cap : Char → Bool} :
    ∀ (u : List Char), noStartAllB pre post cap u = true →
      ∀ i, i < u.length → noStartAtB pre post cap (u.drop i) = true := by
  intro u
  induction u with
  | nil => intro _ i hi; simp at hi
  | cons c cs ih =>
    intro h i hi
    simp only [noStartAllB, Bool.and_eq_true] at h
    cases i with
    | zero => exact h.1
    | succ j =>
      simp only [List.length_cons, Nat.add_lt_add_iff_right] at hi
      exact ih h.2 j hi

/-- Soundness of the decidable block test: the scan skips the block. -/
theorem scanL_skip_lit {pre post : List Char} {cap : Char → Bool}
    {u : List Char} (h : noStartAllB pre post cap u = true) (t : List Char) :
    scanL pre post cap (u ++ t) = scanL pre post cap t := by
  apply scanL_skip
  intro i hi
  exact noStartAtB_sound (noStartAllB_drop u h i hi) t

/-- Crossing lemma: the leading literal of a pattern cannot start inside a
block drawn from a character class that misses the literal character at
index `j0`, provided the continuation refutes the literal at every offset a
class-only run could reach. -/
theorem pfx_cross_false (P : Char → Bool) (t : List Char) :
    ∀ (w p : List Char) (j0 : Nat),
      j0 < p.length → P (p.getD j0 ' ') = false →
      (∀ k, 1 ≤ k → k ≤ j0 → pfx (p.drop k) t = false) →
      w ≠ [] → (∀ c ∈ w, P c = true) →
      pfx p (w ++ t) = false := by
  intro w
  induction w with
  | nil => intro p j0 _ _ _ hne _; exact absurd rfl hne
  | cons c w' ih =>
    intro p j0 hj hj0 ht _ hw
    cases p with
    | nil => simp at hj
    | cons a p' =>
      by_cases hac : a = c
      · subst hac
        have hPa : P a = true := hw a (List.mem_cons_self a w')
        have hj0ne : j0 ≠ 0 := by
          intro h0
          subst h0
          simp only [List.getD_cons_zero] at hj0
          rw [hPa] at hj0
          cases hj0
        obtain ⟨j1, rfl⟩ : ∃ j1, j0 = j1 + 1 := ⟨j0 - 1, by omega⟩
        cases w' with
        | nil =>
          simp only [List.cons_append, List.nil_append, pfx,
            beq_self_eq_true, Bool.true_and]
          have := ht 1 (by omega) (by omega)
          simpa using this
        | cons d w'' =>
          simp only [List.cons_append, pfx, beq_self_eq_true, Bool.true_and]
          apply ih p' j1
          · simpa using hj
          · simpa using hj0
          · intro k h1 h2
            have := ht (k + 1) (by omega) (by omega)
            simpa using this
          · simp
          · intro x hx
            exact hw x (List.mem_cons_of_mem a hx)
      · have hbe : (a == c) = false := beq_eq_false_iff_ne.mpr hac
        simp [pfx, hbe]

/-- The scan skips a block drawn from a character class that cannot start
the pattern, under the same crossing conditions. -/
theorem scanL_skip_sym {pre post : List Char} {cap : Char → Bool}
    (P : Char → Bool) {t : List Char} (j0 : Nat)
    (hj : j0 < pre.length) (hj0 : P (pre.getD j0 ' ') = false)
    (ht : ∀ k, 1 ≤ k → k ≤ j0 → pfx (pre.drop k) t = false)
    (w : List Char) (hw : ∀ c ∈ w, P c = true) :
    scanL pre post cap (w ++ t) = scanL pre post cap t := by
  apply scanL_skip
  intro i hi
  apply matchAt_none_of_pfx
  apply pfx_cross_false P t (w.drop i) pre j0 hj hj0 ht
  · intro hnil
    have := List.drop_eq_nil_iff.mp hnil
    omega
  · intro c hc
    exact hw c (List.mem_of_mem_drop hc)

/-- Character facts about the lower-case alphabet used by feature names. -/
theorem lowerAlphabet_props : ∀ c ∈ lowerAlphabet,
    wordChar c = true ∧ (c.toUpper).toLower = c ∧ c.toLower = c ∧
    c ≠ 'C' ∧ c ≠ '\x27' ∧ c ≠ ' ' ∧ wordChar c.toUpper = true ∧
    c.toUpper ≠ '\x27' := by decide

/-- Unpacking a well-formed feature name. -/
theorem lowerNameB_spec {s : String} (h : lowerNameB s = true) :
    s.data ≠ [] ∧ ∀ c ∈ s.data, c ∈ lowerAlphabet := by
  simp only [lowerNameB, Bool.and_eq_true, bne_iff_ne, ne_eq,
    List.all_eq_true] at h
  refine ⟨?_, fun c hc => List.elem_iff.mp (h.2 c hc)⟩
  intro hd
  exact h.1 (String.ext hd)

/-- The capitalized stem of a well-formed name is a nonempty word. -/
theorem capitalize_chars {s : String} (h : lowerNameB s = true) :
    (capitalize s).data ≠ [] ∧ ∀ c ∈ (capitalize s).data, wordChar c = true := by
  obtain ⟨hne, hch⟩ := lowerNameB_spec h
  cases hd : s.data with
  | nil => exact absurd hd hne
  | cons c cs =>
    have hcap : (capitalize s).data = c.toUpper :: cs := by
      simp [capitalize, hd]
    rw [hcap]
    constructor
    · simp
    · intro x hx
      rcases List.mem_cons.mp hx with hx | hx
      · subst hx
        exact (lowerAlphabet_props c (hch c (hd ▸ List.mem_cons_self c cs))).2.2.2.2.2.2.1
      · exact (lowerAlphabet_props x (hch x (hd ▸ List.mem_cons_of_mem c hx))).1

/-- The trailing literal of the import regex cannot overlap itself at any
backtracking offset, whatever follows. -/
theorem postImport_no_overlap (rest : List Char) :
    ∀ m, 1 ≤ m → m ≤ (postImport.takeWhile wordChar).length →
      pfx postImport (postImport.drop m ++ rest) = false := by
  intro m h1 h2
  rw [show (postImport.takeWhile wordChar).length = 10 from by decide] at h2
  interval_cases m <;> exact definiteMismatch_sound (by decide) rest


/-- Distributing `String.data` over a two-append chunk onto a char tail. -/
theorem data_append3 (A B C : String) (t : List Char) :
    (A ++ B ++ C).data ++ t = A.data ++ (B.data ++ (C.data ++ t)) := by
  simp [String.data_append]

/-- One controller-import line of the bootstrap template yields exactly the
capitalized stem as the captured group of the import-recovery scan, whatever
follows the line. -/
theorem import_line_scan (f : Feature) (t : List Char)
    (hf : lowerNameB f.name = true) :
    scanL preImport postImport wordChar
      (("import \x7b " ++ (capitalize f.name) ++ "Controller \x7d from \x27../Features/"
        ++ f.name ++ "/delivery/controllers/" ++ f.name ++ ".controller\x27;").data ++ t)
      = (capitalize f.name).data :: scanL preImport postImport wordChar t := by
  obtain ⟨hcapne, hcapw⟩ := capitalize_chars hf
  obtain ⟨hnne, hnch⟩ := lowerNameB_spec hf
  have hP : ∀ c ∈ f.name.data, (lowerAlphabet.contains c) = true :=
    fun c hc => List.elem_iff.mpr (hnch c hc)
  simp only [String.data_append, List.append_assoc]
  show scanL preImport postImport wordChar
    (preImport ++ ((capitalize f.name).data ++ (postImport ++
      (" from \x27../Features/".data ++ (f.name.data ++
        ("/delivery/controllers/".data ++ (f.name.data ++
          (".controller\x27;".data ++ t)))))))) = _
  rw [scanL_match (by decide)
    (matchAt_hit preImport postImport wordChar _ _ hcapne hcapw
      (takeWhile_stop postImport (by decide) _)
      (Or.inr (by decide))
      (postImport_no_overlap _))]
  congr 1
  rw [scanL_skip_lit (by decide : noStartAllB preImport postImport wordChar
    " from \x27../Features/".data = true)]
  rw [scanL_skip_sym (fun c => lowerAlphabet.contains c) 6 (by decide) (by decide)
    (by intro k h1 h2
        interval_cases k <;> exact definiteMismatch_sound (by decide) _)
    f.name.data hP]
  rw [scanL_skip_lit (by decide : noStartAllB preImport postImport wordChar
    "/delivery/controllers/".data = true)]
  rw [scanL_skip_sym (fun c => lowerAlphabet.contains c) 6 (by decide) (by decide)
    (by intro k h1 h2
        interval_cases k <;> exact definiteMismatch_sound (by decide) _)
    f.name.data hP]
  rw [scanL_skip_lit (by decide : noStartAllB preImport postImport wordChar
    ".controller\x27;".data = true)]

/-- The import block of the bootstrap template yields the capitalized stems
in feature order under the import-recovery scan. -/
theorem imports_join_scan (feats : List Feature) :
    (∀ f ∈ feats, lowerNameB f.name = true) → ∀ (t : List Char),
    scanL preImport postImport wordChar
      ((joinSep "\n" (feats.map (fun ft =>
        "import \x7b " ++ (capitalize ft.name) ++ "Controller \x7d from \x27../Features/"
        ++ (ft.name) ++ "/delivery/controllers/" ++ (ft.name) ++ ".controller\x27;"))).data ++ t)
      = feats.map (fun f => (capitalize f.name).data)
        ++ scanL preImport postImport wordChar t := by
  induction feats with
  | nil =>
    intro _ t
    show scanL preImport postImport wordChar (([] : List Char) ++ t) = _
    simp
  | cons f rest ih =>
    intro hn t
    cases rest with
    | nil =>
      simp only [List.map_cons, List.map_nil, joinSep]
      rw [import_line_scan f t (hn f (List.mem_cons_self f _))]
      simp
    | cons g gs =>
      simp only [List.map_cons, joinSep]
      rw [data_append3]
      rw [import_line_scan f _ (hn f (List.mem_cons_self f _))]
      rw [scanL_skip_lit (by decide : noStartAllB preImport postImport wordChar
        "\n".data = true)]
      have := ih (fun x hx => hn x (List.mem_cons_of_mem f hx)) t
      simp only [List.map_cons] at this ⊢
      rw [this]
      rfl

/-- One controller-wiring block of the bootstrap template contains no
import-pattern match, whatever follows it. -/
theorem const_line_scan_import (f : Feature) (t : List Char)
    (hf : lowerNameB f.name = true) :
    scanL preImport postImport wordChar
      (("const " ++ (f.name) ++ "Controller = container.resolve("
        ++ (capitalize f.name) ++ "Controller);\napp.use(\x27/api/" ++ (f.name)
        ++ "\x27, " ++ (f.name) ++ "Controller.getRouter());").data ++ t)
      = scanL preImport postImport wordChar t := by
  obtain ⟨hcapne, hcapw⟩ := capitalize_chars hf
  obtain ⟨hnne, hnch⟩ := lowerNameB_spec hf
  have hP : ∀ c ∈ f.name.data, (lowerAlphabet.contains c) = true :=
    fun c hc => List.elem_iff.mpr (hnch c hc)
  simp only [String.data_append, List.append_assoc]
  rw [scanL_skip_lit (by decide : noStartAllB preImport postImport wordChar
    "const ".data = true)]
  rw [scanL_skip_sym (fun c => lowerAlphabet.contains c) 6 (by decide) (by decide)
    (by intro k h1 h2
        interval_cases k <;> exact definiteMismatch_sound (by decide) _)
    f.name.data hP]
  rw [scanL_skip_lit (by decide : noStartAllB preImport postImport wordChar
    "Controller = container.resolve(".data = true)]
  rw [scanL_skip_sym wordChar 6 (by decide) (by decide)
    (by intro k h1 h2
        interval_cases k <;> exact definiteMismatch_sound (by decide) _)
    (capitalize f.name).data hcapw]
  rw [scanL_skip_lit (by decide : noStartAllB preImport postImport wordChar
    "Controller);\napp.use(\x27/api/".data = true)]
  rw [scanL_skip_sym (fun c => lowerAlphabet.contains c) 6 (by decide) (by decide)
    (by intro k h1 h2
        interval_cases k <;> exact definiteMismatch_sound (by decide) _)
    f.name.data hP]
  rw [scanL_skip_lit (by decide : noStartAllB preImport postImport wordChar
    "\x27, ".data = true)]
  rw [scanL_skip_sym (fun c => lowerAlphabet.contains c) 6 (by decide) (by decide)
    (by intro k h1 h2
        interval_cases k <;> exact definiteMismatch_sound (by decide) _)
    f.name.data hP]
  rw [scanL_skip_lit (by decide : noStartAllB preImport postImport wordChar
    "Controller.getRouter());".data = true)]

/-- The controller-wiring block of the bootstrap template is invisible to the
import-recovery scan. -/
theorem consts_join_scan_import (feats : List Feature) :
    (∀ f ∈ feats, lowerNameB f.name = true) → ∀ (t : List Char),
    scanL preImport postImport wordChar
      ((joinSep "\n" (feats.map (fun ft =>
        "const " ++ (ft.name) ++ "Controller = container.resolve("
        ++ (capitalize ft.name) ++ "Controller);\napp.use(\x27/api/" ++ (ft.name)
        ++ "\x27, " ++ (ft.name) ++ "Controller.getRouter());"))).data ++ t)
      = scanL preImport postImport wordChar t := by
  induction feats with
  | nil =>
    intro _ t
    show scanL preImport postImport wordChar (([] : List Char) ++ t) = _
    simp
  | cons f rest ih =>
    intro hn t
    cases rest with
    | nil =>
      simp only [List.map_cons, List.map_nil, joinSep]
      rw [const_line_scan_import f t (hn f (List.mem_cons_self f _))]
    | cons g gs =>
      simp only [List.map_cons, joinSep]
      rw [data_append3]
      rw [const_line_scan_import f _ (hn f (List.mem_cons_self f _))]
      rw [scanL_skip_lit (by decide : noStartAllB preImport postImport wordChar
        "\n".data = true)]
      have := ih (fun x hx => hn x (List.mem_cons_of_mem f hx)) t
      simp only [List.map_cons] at this ⊢
      rw [this]

/-- The bootstrap template as a whole yields exactly the capitalized feature
stems, in order, under the import-recovery scan. -/
theorem server_import_scan (feats : List Feature)
    (hn : ∀ f ∈ feats, lowerNameB f.name = true) :
    scanL preImport postImport wordChar (templates.serverIndexTs feats).data
      = feats.map (fun f => (capitalize f.name).data) := by
  rw [← List.append_nil (templates.serverIndexTs feats).data]
  simp only [templates.serverIndexTs, String.data_append, List.append_assoc]
  rw [scanL_skip_lit (by decide : noStartAllB preImport postImport wordChar
    "import \x27reflect-metadata\x27;\n".data = true)]
  rw [scanL_skip_lit (by decide : noStartAllB preImport postImport wordChar
    "import express from \x27express\x27;\n".data = true)]
  rw [scanL_skip_lit (by decide : noStartAllB preImport postImport wordChar
    "import dotenv from \x27dotenv\x27;\n".data = true)]
  rw [scanL_skip_lit (by decide : noStartAllB preImport postImport wordChar
    "import \x7b container \x7d from \x27tsyringe\x27;\n".data = true)]
  rw [scanL_skip_lit (by decide : noStartAllB preImport postImport wordChar
    "import \x7b connectToDatabase \x7d from \x27../Core/config/database\x27;\n".data = true)]
  rw [imports_join_scan feats hn _]
  rw [scanL_skip_lit (by decide : noStartAllB preImport postImport wordChar
    "\n".data = true)]
  rw [scanL_skip_lit (by decide : noStartAllB preImport postImport wordChar
    "\n".data = true)]
  rw [scanL_skip_lit (by decide : noStartAllB preImport postImport wordChar
    "dotenv.config();\n".data = true)]
  rw [scanL_skip_lit (by decide : noStartAllB preImport postImport wordChar
    "\n".data = true)]
  rw [scanL_skip_lit (by decide : noStartAllB preImport postImport wordChar
    "const app = express();\n".data = true)]
  rw [scanL_skip_lit (by decide : noStartAllB preImport postImport wordChar
    "const port = process.env.PORT || 3000;\n".data = true)]
  rw [scanL_skip_lit (by decide : noStartAllB preImport postImport wordChar
    "\n".data = true)]
  rw [scanL_skip_lit (by decide : noStartAllB preImport postImport wordChar
    "app.use(express.json());\n".data = true)]
  rw [consts_join_scan_import feats hn _]
  rw [scanL_skip_lit (by decide : noStartAllB preImport postImport wordChar
    "\n".data = true)]
  rw [scanL_skip_lit (by decide : noStartAllB preImport postImport wordChar
    "\n".data = true)]
  rw [scanL_skip_lit (by decide : noStartAllB preImport postImport wordChar
    "const startServer = async () => \x7b\n".data = true)]
  rw [scanL_skip_lit (by decide : noStartAllB preImport postImport wordChar
    "  try \x7b\n".data = true)]
  rw [scanL_skip_lit (by decide : noStartAllB preImport postImport wordChar
    "    await connectToDatabase();\n".data = true)]
  rw [scanL_skip_lit (by decide : noStartAllB preImport postImport wordChar
    "    app.listen(port, () => \x7b\n".data = true)]
  rw [scanL_skip_lit (by decide : noStartAllB preImport postImport wordChar
    "      console.log(\x60Server running on http://localhost:$\x7bport\x7d\x60);\n".data = true)]
  rw [scanL_skip_lit (by decide : noStartAllB preImport postImport wordChar
    "    \x7d);\n".data = true)]
  rw [scanL_skip_lit (by decide : noStartAllB preImport postImport wordChar
    "  \x7d catch (error) \x7b\n".data = true)]
  rw [scanL_skip_lit (by decide : noStartAllB preImport postImport wordChar
    "    console.error(\x27Failed to start server:\x27, error);\n".data = true)]
  rw [scanL_skip_lit (by decide : noStartAllB preImport postImport wordChar
    "  \x7d\n".data = true)]
  rw [scanL_skip_lit (by decide : noStartAllB preImport postImport wordChar
    "\x7d;\n".data = true)]
  rw [scanL_skip_lit (by decide : noStartAllB preImport postImport wordChar
    "\n".data = true)]
  rw [scanL_skip_lit (by decide : noStartAllB preImport postImport wordChar
    "startServer();".data = true)]
  simp only [scanL, List.length_nil, scanAux, List.append_nil]

/-- One controller-import line of the bootstrap template contains no
route-mount match, whatever follows it. -/
theorem import_line_scan_appuse (f : Feature) (t : List Char)
    (hf : lowerNameB f.name = true) :
    scanL preAppUse postAppUse notQuote
      (("import \x7b " ++ (capitalize f.name) ++ "Controller \x7d from \x27../Features/"
        ++ f.name ++ "/delivery/controllers/" ++ f.name ++ ".controller\x27;").data ++ t)
      = scanL preAppUse postAppUse notQuote t := by
  obtain ⟨hcapne, hcapw⟩ := capitalize_chars hf
  obtain ⟨hnne, hnch⟩ := lowerNameB_spec hf
  have hP : ∀ c ∈ f.name.data, (lowerAlphabet.contains c) = true :=
    fun c hc => List.elem_iff.mpr (hnch c hc)
  simp only [String.data_append, List.append_assoc]
  rw [scanL_skip_lit (by decide : noStartAllB preAppUse postAppUse notQuote
    "import \x7b ".data = true)]
  rw [scanL_skip_sym wordChar 3 (by decide) (by decide)
    (by intro k h1 h2
        interval_cases k <;> exact definiteMismatch_sound (by decide) _)
    (capitalize f.name).data hcapw]
  rw [scanL_skip_lit (by decide : noStartAllB preAppUse postAppUse notQuote
    "Controller \x7d from \x27../Features/".data = true)]
  rw [scanL_skip_sym (fun c => lowerAlphabet.contains c) 3 (by decide) (by decide)
    (by intro k h1 h2
        interval_cases k <;> exact definiteMismatch_sound (by decide) _)
    f.name.data hP]
  rw [scanL_skip_lit (by decide : noStartAllB preAppUse postAppUse notQuote
    "/delivery/controllers/".data = true)]
  rw [scanL_skip_sym (fun c => lowerAlphabet.contains c) 3 (by decide) (by decide)
    (by intro k h1 h2
        interval_cases k <;> exact definiteMismatch_sound (by decide) _)
    f.name.data hP]
  rw [scanL_skip_lit (by decide : noStartAllB preAppUse postAppUse notQuote
    ".controller\x27;".data = true)]

/-- The import block of the bootstrap template is invisible to the
route-mount scan. -/
theorem imports_join_scan_appuse (feats : List Feature) :
    (∀ f ∈ feats, lowerNameB f.name = true) → ∀ (t : List Char),
    scanL preAppUse postAppUse notQuote
      ((joinSep "\n" (feats.map (fun ft =>
        "import \x7b " ++ (capitalize ft.name) ++ "Controller \x7d from \x27../Features/"
        ++ (ft.name) ++ "/delivery/controllers/" ++ (ft.name) ++ ".controller\x27;"))).data ++ t)
      = scanL preAppUse postAppUse notQuote t := by
  induction feats with
  | nil =>
    intro _ t
    show scanL preAppUse postAppUse notQuote (([] : List Char) ++ t) = _
    simp
  | cons f rest ih =>
    intro hn t
    cases rest with
    | nil =>
      simp only [List.map_cons, List.map_nil, joinSep]
      rw [import_line_scan_appuse f t (hn f (List.mem_cons_self f _))]
    | cons g gs =>
      simp only [List.map_cons, joinSep]
      rw [data_append3]
      rw [import_line_scan_appuse f _ (hn f (List.mem_cons_self f _))]
      rw [scanL_skip_lit (by decide : noStartAllB preAppUse postAppUse notQuote
        "\n".data = true)]
      have := ih (fun x hx => hn x (List.mem_cons_of_mem f hx)) t
      simp only [List.map_cons] at this ⊢
      rw [this]

/-- One controller-wiring block of the bootstrap template yields exactly its
`/api/<name>` mount path under the route-mount scan, whatever follows. -/
theorem const_line_scan_appuse (f : Feature) (t : List Char)
    (hf : lowerNameB f.name = true) :
    scanL preAppUse postAppUse notQuote
      (("const " ++ (f.name) ++ "Controller = container.resolve("
        ++ (capitalize f.name) ++ "Controller);\napp.use(\x27/api/" ++ (f.name)
        ++ "\x27, " ++ (f.name) ++ "Controller.getRouter());").data ++ t)
      = ("/api/".data ++ f.name.data) :: scanL preAppUse postAppUse notQuote t := by
  obtain ⟨hcapne, hcapw⟩ := capitalize_chars hf
  obtain ⟨hnne, hnch⟩ := lowerNameB_spec hf
  have hP : ∀ c ∈ f.name.data, (lowerAlphabet.contains c) = true :=
    fun c hc => List.elem_iff.mpr (hnch c hc)
  have hQ : ∀ c ∈ "/api/".data ++ f.name.data, notQuote c = true := by
    intro c hc
    rcases List.mem_append.mp hc with hc | hc
    · revert hc
      have : ∀ c ∈ "/api/".data, notQuote c = true := by decide
      exact this c
    · have hne : c ≠ '\x27' :=
        (lowerAlphabet_props c (hnch c hc)).2.2.2.2.1
      simp [notQuote, hne]
  simp only [String.data_append, List.append_assoc]
  rw [scanL_skip_lit (by decide : noStartAllB preAppUse postAppUse notQuote
    "const ".data = true)]
  rw [scanL_skip_sym (fun c => lowerAlphabet.contains c) 3 (by decide) (by decide)
    (by intro k h1 h2
        interval_cases k <;> exact definiteMismatch_sound (by decide) _)
    f.name.data hP]
  rw [scanL_skip_lit (by decide : noStartAllB preAppUse postAppUse notQuote
    "Controller = container.resolve(".data = true)]
  rw [scanL_skip_sym wordChar 3 (by decide) (by decide)
    (by intro k h1 h2
        interval_cases k <;> exact definiteMismatch_sound (by decide) _)
    (capitalize f.name).data hcapw]
  show scanL preAppUse postAppUse notQuote
    ("Controller);\n".data ++ (preAppUse ++ (("/api/".data ++ f.name.data) ++
      (postAppUse ++ (", ".data ++ (f.name.data ++
        ("Controller.getRouter());".data ++ t)))))))
    = _
  rw [scanL_skip_lit (by decide : noStartAllB preAppUse postAppUse notQuote
    "Controller);\n".data = true)]
  rw [scanL_match (by decide)
    (matchAt_hit preAppUse postAppUse notQuote _ _ (by simp) hQ
      (takeWhile_stop postAppUse (by decide) _)
      (Or.inr (by decide))
      (by intro m h1 h2
          rw [show (postAppUse.takeWhile notQuote).length = 0 from by decide] at h2
          omega))]
  congr 1
  rw [scanL_skip_lit (by decide : noStartAllB preAppUse postAppUse notQuote
    ", ".data = true)]
  rw [scanL_skip_sym (fun c => lowerAlphabet.contains c) 3 (by decide) (by decide)
    (by intro k h1 h2
        interval_cases k <;> exact definiteMismatch_sound (by decide) _)
    f.name.data hP]
  rw [scanL_skip_lit (by decide : noStartAllB preAppUse postAppUse notQuote
    "Controller.getRouter());".data = true)]

/-- The controller-wiring block of the bootstrap template yields the
`/api/<name>` mount paths in feature order under the route-mount scan. -/
theorem consts_join_scan_appuse (feats : List Feature) :
    (∀ f ∈ feats, lowerNameB f.name = true) → ∀ (t : List Char),
    scanL preAppUse postAppUse notQuote
      ((joinSep "\n" (feats.map (fun ft =>
        "const " ++ (ft.name) ++ "Controller = container.resolve("
        ++ (capitalize ft.name) ++ "Controller);\napp.use(\x27/api/" ++ (ft.name)
        ++ "\x27, " ++ (ft.name) ++ "Controller.getRouter());"))).data ++ t)
      = feats.map (fun f => "/api/".data ++ f.name.data)
        ++ scanL preAppUse postAppUse notQuote t := by
  induction feats with
  | nil =>
    intro _ t
    show scanL preAppUse postAppUse notQuote (([] : List Char) ++ t) = _
    simp
  | cons f rest ih =>
    intro hn t
    cases rest with
    | nil =>
      simp only [List.map_cons, List.map_nil, joinSep]
      rw [const_line_scan_appuse f t (hn f (List.mem_cons_self f _))]
      simp
    | cons g gs =>
      simp only [List.map_cons, joinSep]
      rw [data_append3]
      rw [const_line_scan_appuse f _ (hn f (List.mem_cons_self f _))]
      rw [scanL_skip_lit (by decide : noStartAllB preAppUse postAppUse notQuote
        "\n".data = true)]
      have := ih (fun x hx => hn x (List.mem_cons_of_mem f hx)) t
      simp only [List.map_cons] at this ⊢
      rw [this]
      rfl

/-- The bootstrap template as a whole yields exactly the `/api/<name>` mount
paths, in feature order, under the route-mount scan. -/
theorem server_appuse_scan (feats : List Feature)
    (hn : ∀ f ∈ feats, lowerNameB f.name = true) :
    scanL preAppUse postAppUse notQuote (templates.serverIndexTs feats).data
      = feats.map (fun f => "/api/".data ++ f.name.data) := by
  rw [← List.append_nil (templates.serverIndexTs feats).data]
  simp only [templates.serverIndexTs, String.data_append, List.append_assoc]
  rw [scanL_skip_lit (by decide : noStartAllB preAppUse postAppUse notQuote
    "import \x27reflect-metadata\x27;\n".data = true)]
  rw [scanL_skip_lit (by decide : noStartAllB preAppUse postAppUse notQuote
    "import express from \x27express\x27;\n".data = true)]
  rw [scanL_skip_lit (by decide : noStartAllB preAppUse postAppUse notQuote
    "import dotenv from \x27dotenv\x27;\n".data = true)]
  rw [scanL_skip_lit (by decide : noStartAllB preAppUse postAppUse notQuote
    "import \x7b container \x7d from \x27tsyringe\x27;\n".data = true)]
  rw [scanL_skip_lit (by decide : noStartAllB preAppUse postAppUse notQuote
    "import \x7b connectToDatabase \x7d from \x27../Core/config/database\x27;\n".data = true)]
  rw [imports_join_scan_appuse feats hn _]
  rw [scanL_skip_lit (by decide : noStartAllB preAppUse postAppUse notQuote
    "\n".data = true)]
  rw [scanL_skip_lit (by decide : noStartAllB preAppUse postAppUse notQuote
    "\n".data = true)]
  rw [scanL_skip_lit (by decide : noStartAllB preAppUse postAppUse notQuote
    "dotenv.config();\n".data = true)]
  rw [scanL_skip_lit (by decide : noStartAllB preAppUse postAppUse notQuote
    "\n".data = true)]
  rw [scanL_skip_lit (by decide : noStartAllB preAppUse postAppUse notQuote
    "const app = express();\n".data = true)]
  rw [scanL_skip_lit (by decide : noStartAllB preAppUse postAppUse notQuote
    "const port = process.env.PORT || 3000;\n".data = true)]
  rw [scanL_skip_lit (by decide : noStartAllB preAppUse postAppUse notQuote
    "\n".data = true)]
  rw [scanL_skip_lit (by decide : noStartAllB preAppUse postAppUse notQuote
    "app.use(express.json());\n".data = true)]
  rw [consts_join_scan_appuse feats hn _]
  rw [scanL_skip_lit (by decide : noStartAllB preAppUse postAppUse notQuote
    "\n".data = true)]
  rw [scanL_skip_lit (by decide : noStartAllB preAppUse postAppUse notQuote
    "\n".data = true)]
  rw [scanL_skip_lit (by decide : noStartAllB preAppUse postAppUse notQuote
    "const startServer = async () => \x7b\n".data = true)]
  rw [scanL_skip_lit (by decide : noStartAllB preAppUse postAppUse notQuote
    "  try \x7b\n".data = true)]
  rw [scanL_skip_lit (by decide : noStartAllB preAppUse postAppUse notQuote
    "    await connectToDatabase();\n".data = true)]
  rw [scanL_skip_lit (by decide : noStartAllB preAppUse postAppUse notQuote
    "    app.listen(port, () => \x7b\n".data = true)]
  rw [scanL_skip_lit (by decide : noStartAllB preAppUse postAppUse notQuote
    "      console.log(\x60Server running on http://localhost:$\x7bport\x7d\x60);\n".data = true)]
  rw [scanL_skip_lit (by decide : noStartAllB preAppUse postAppUse notQuote
    "    \x7d);\n".data = true)]
  rw [scanL_skip_lit (by decide : noStartAllB preAppUse postAppUse notQuote
    "  \x7d catch (error) \x7b\n".data = true)]
  rw [scanL_skip_lit (by decide : noStartAllB preAppUse postAppUse notQuote
    "    console.error(\x27Failed to start server:\x27, error);\n".data = true)]
  rw [scanL_skip_lit (by decide : noStartAllB preAppUse postAppUse notQuote
    "  \x7d\n".data = true)]
  rw [scanL_skip_lit (by decide : noStartAllB preAppUse postAppUse notQuote
    "\x7d;\n".data = true)]
  rw [scanL_skip_lit (by decide : noStartAllB preAppUse postAppUse notQuote
    "\n".data = true)]
  rw [scanL_skip_lit (by decide : noStartAllB preAppUse postAppUse notQuote
    "startServer();".data = true)]
  simp only [scanL, List.length_nil, scanAux, List.append_nil]

/-- The multiline heading search finds the hash-space heading at the very
start of the content and captures the rest of that line. -/
theorem findHeadingAux_head (w r : List Char) (hw1 : w ≠ [])
    (hw2 : ∀ c ∈ w, (c != '\n') = true) :
    findHeadingAux true ("# ".data ++ (w ++ ("\n".data ++ r))) = some w := by
  show findHeadingAux true ('#' :: ' ' :: (w ++ ('\n' :: r))) = some w
  have hrun : (('#' :: ' ' :: (w ++ ('\n' :: r))).drop 2).takeWhile
      (fun x => x != '\n') = w := by
    show ((w ++ ('\n' :: r))).takeWhile (fun x => x != '\n') = w
    rw [takeWhile_all w hw2]
    simp [List.takeWhile_cons]
  rw [findHeadingAux]
  rw [hrun]
  have hpfx : pfx "# ".data ('#' :: ' ' :: (w ++ ('\n' :: r))) = true := by
    show pfx ('#' :: ' ' :: []) ('#' :: ' ' :: (w ++ ('\n' :: r))) = true
    simp [pfx]
  rw [hpfx]
  have hne : (w != ([] : List Char)) = true := bne_iff_ne.mpr hw1
  simp [hne]

/-- Recovering the project name from a generated README yields the project
name it was generated with, for any feature roster and sample list, provided
the name is nonempty and free of spaces and newlines. -/
theorem recoverProjectName_readme (pn : String) (feats : List Feature)
    (sjs : List String) (hpn : projNameOkB pn = true) :
    recoverProjectName (templates.readmeMd pn feats sjs) = pn := by
  have hpn2 := hpn
  simp only [projNameOkB, Bool.and_eq_true, bne_iff_ne, ne_eq,
    List.all_eq_true] at hpn2
  have hne : pn.data ≠ [] := fun hd => hpn2.1 (String.ext hd)
  have hnl : ∀ c ∈ pn.data, (c != '\n') = true := by
    intro c hc
    have := hpn2.2 c hc
    simp only [Bool.and_eq_true, bne_iff_ne, ne_eq] at this
    simp [this.2]
  simp only [recoverProjectName, templates.readmeMd, String.data_append,
    List.append_assoc]
  rw [findHeadingAux_head pn.data _ hne hnl]

/-- One Testing-section entry of the README template yields exactly its
feature name as the captured group of the roster-recovery scan, whatever
follows the entry. -/
theorem entry_line_scan (nm sj : String) (t : List Char)
    (hn : lowerNameB nm = true)
    (hsj : ∀ c ∈ sj.data, (c != 'C') = true) :
    scanL preCreateA [] wordChar
      (("- Create a " ++ nm
        ++ ":\n  \x60\x60\x60bash\n  curl -X POST http://localhost:3000/api/" ++ nm
        ++ " -H \"Content-Type: application/json\" -d \x27" ++ sj
        ++ "\x27\n  \x60\x60\x60").data ++ t)
      = nm.data :: scanL preCreateA [] wordChar t := by
  obtain ⟨hnne, hnch⟩ := lowerNameB_spec hn
  have hP : ∀ c ∈ nm.data, (lowerAlphabet.contains c) = true :=
    fun c hc => List.elem_iff.mpr (hnch c hc)
  have hW : ∀ c ∈ nm.data, wordChar c = true :=
    fun c hc => (lowerAlphabet_props c (hnch c hc)).1
  simp only [String.data_append, List.append_assoc]
  show scanL preCreateA [] wordChar
    ("- ".data ++ (preCreateA ++ (nm.data ++ ([] ++
      (":\n  \x60\x60\x60bash\n  curl -X POST http://localhost:3000/api/".data ++
        (nm.data ++
          (" -H \"Content-Type: application/json\" -d \x27".data ++
            (sj.data ++ ("\x27\n  \x60\x60\x60".data ++ t))))))))) = _
  rw [scanL_skip_lit (by decide : noStartAllB preCreateA [] wordChar
    "- ".data = true)]
  rw [scanL_match (by decide)
    (matchAt_hit preCreateA [] wordChar _ _ hnne hW
      (by rw [List.nil_append,
            takeWhile_stop
              (":\n  \x60\x60\x60bash\n  curl -X POST http://localhost:3000/api/".data)
              (by decide)]
          rfl)
      (Or.inl rfl)
      (by intro m h1 h2
          rw [show ((([] : List Char)).takeWhile wordChar).length = 0 from rfl] at h2
          omega))]
  congr 1
  rw [scanL_skip_lit (by decide : noStartAllB preCreateA [] wordChar
    ":\n  \x60\x60\x60bash\n  curl -X POST http://localhost:3000/api/".data = true)]
  rw [scanL_skip_sym (fun c => lowerAlphabet.contains c) 0 (by decide) (by decide)
    (by intro k h1 h2; omega) nm.data hP]
  rw [scanL_skip_lit (by decide : noStartAllB preCreateA [] wordChar
    " -H \"Content-Type: application/json\" -d \x27".data = true)]
  rw [scanL_skip_sym (fun c => c != 'C') 0 (by decide) (by decide)
    (by intro k h1 h2; omega) sj.data hsj]
  rw [scanL_skip_lit (by decide : noStartAllB preCreateA [] wordChar
    "\x27\n  \x60\x60\x60".data = true)]

/-- The Testing section of the README template yields the feature names in
roster order under the roster-recovery scan. -/
theorem entries_join_scan (sjs : List String) (l : List (Nat × Feature)) :
    (∀ p ∈ l, lowerNameB p.2.name = true ∧
      ∀ c ∈ ((sjs[p.1]?).getD "undefined").data, (c != 'C') = true) →
    ∀ (t : List Char),
    scanL preCreateA [] wordChar
      ((joinSep "\n" (l.map (fun p => "- Create a " ++ (p.2.name)
        ++ ":\n  \x60\x60\x60bash\n  curl -X POST http://localhost:3000/api/" ++ (p.2.name)
        ++ " -H \"Content-Type: application/json\" -d \x27"
        ++ (((sjs[p.1]?).getD "undefined"))
        ++ "\x27\n  \x60\x60\x60"))).data ++ t)
      = l.map (fun p => p.2.name.data) ++ scanL preCreateA [] wordChar t := by
  induction l with
  | nil =>
    intro _ t
    show scanL preCreateA [] wordChar (([] : List Char) ++ t) = _
    simp
  | cons p rest ih =>
    intro hl t
    cases rest with
    | nil =>
      simp only [List.map_cons, List.map_nil, joinSep]
      rw [entry_line_scan (p.2.name) ((sjs[p.1]?).getD "undefined") t
        (hl p (List.mem_cons_self p _)).1 (hl p (List.mem_cons_self p _)).2]
      simp
    | cons q qs =>
      simp only [List.map_cons, joinSep]
      rw [data_append3]
      rw [entry_line_scan (p.2.name) ((sjs[p.1]?).getD "undefined") _
        (hl p (List.mem_cons_self p _)).1 (hl p (List.mem_cons_self p _)).2]
      rw [scanL_skip_lit (by decide : noStartAllB preCreateA [] wordChar
        "\n".data = true)]
      have := ih (fun x hx => hl x (List.mem_cons_of_mem p hx)) t
      simp only [List.map_cons] at this ⊢
      rw [this]
      rfl

/-- The feature-name list of the Structure section is invisible to the
roster-recovery scan. -/
theorem names_join_scan (feats : List Feature) :
    (∀ f ∈ feats, lowerNameB f.name = true) → ∀ (t : List Char),
    scanL preCreateA [] wordChar
      ((joinSep ", " (feats.map (fun ft => ft.name))).data ++ t)
      = scanL preCreateA [] wordChar t := by
  induction feats with
  | nil =>
    intro _ t
    show scanL preCreateA [] wordChar (([] : List Char) ++ t) = _
    simp
  | cons f rest ih =>
    intro hn t
    have hP : ∀ c ∈ f.name.data, (lowerAlphabet.contains c) = true := by
      intro c hc
      exact List.elem_iff.mpr
        ((lowerNameB_spec (hn f (List.mem_cons_self f _))).2 c hc)
    cases rest with
    | nil =>
      simp only [List.map_cons, List.map_nil, joinSep]
      rw [scanL_skip_sym (fun c => lowerAlphabet.contains c) 0 (by decide)
        (by decide) (by intro k h1 h2; omega) f.name.data hP]
    | cons g gs =>
      simp only [List.map_cons, joinSep]
      rw [data_append3]
      rw [scanL_skip_sym (fun c => lowerAlphabet.contains c) 0 (by decide)
        (by decide) (by intro k h1 h2; omega) f.name.data hP]
      rw [scanL_skip_lit (by decide : noStartAllB preCreateA [] wordChar
        ", ".data = true)]
      exact ih (fun x hx => hn x (List.mem_cons_of_mem f hx)) t

/-- The generated README as a whole yields exactly the feature names, in
roster order, under the roster-recovery scan. -/
theorem readme_createa_scan (pn : String) (feats : List Feature)
    (sjs : List String)
    (hpn : projNameOkB pn = true)
    (hn : ∀ f ∈ feats, lowerNameB f.name = true)
    (hsj : ∀ s ∈ sjs, ∀ c ∈ s.data, (c != 'C') = true) :
    scanL preCreateA [] wordChar (templates.readmeMd pn feats sjs).data
      = feats.map (fun f => f.name.data) := by
  have hpn2 := hpn
  simp only [projNameOkB, Bool.and_eq_true, bne_iff_ne, ne_eq,
    List.all_eq_true] at hpn2
  have hPn : ∀ c ∈ pn.data, ((c != ' ') : Bool) = true := by
    intro c hc
    have := hpn2.2 c hc
    simp only [Bool.and_eq_true, bne_iff_ne, ne_eq] at this
    simp [this.1]
  have hent : ∀ p ∈ feats.enum, lowerNameB p.2.name = true ∧
      ∀ c ∈ ((sjs[p.1]?).getD "undefined").data, (c != 'C') = true := by
    intro p hp
    refine ⟨hn p.2 (List.snd_mem_of_mem_enum hp), ?_⟩
    cases hq : sjs[p.1]? with
    | none => intro c hc; revert hc; revert c; decide
    | some s =>
      intro c hc
      exact hsj s (List.getElem?_mem hq) c (by simpa [hq] using hc)
  rw [← List.append_nil (templates.readmeMd pn feats sjs).data]
  simp only [templates.readmeMd, String.data_append, List.append_assoc]
  rw [scanL_skip_lit (by decide : noStartAllB preCreateA [] wordChar
    "# ".data = true)]
  rw [scanL_skip_sym (fun c => c != ' ') 6 (by decide) (by decide)
    (by intro k h1 h2
        interval_cases k <;> exact definiteMismatch_sound (by decide) _)
    pn.data hPn]
  rw [scanL_skip_lit (by decide : noStartAllB preCreateA [] wordChar
    "\n".data = true)]
  rw [scanL_skip_lit (by decide : noStartAllB preCreateA [] wordChar
    "\n".data = true)]
  rw [scanL_skip_lit (by decide : noStartAllB preCreateA [] wordChar
    "A TypeScript-based Express API with MongoDB, Mongoose, clean architecture, Zod validation, tsyringe DI, and Jest testing.\n".data = true)]
  rw [scanL_skip_lit (by decide : noStartAllB preCreateA [] wordChar
    "\n".data = true)]
  rw [scanL_skip_lit (by decide : noStartAllB preCreateA [] wordChar
    "## Setup\n".data = true)]
  rw [scanL_skip_lit (by decide : noStartAllB preCreateA [] wordChar
    "\n".data = true)]
  rw [scanL_skip_lit (by decide : noStartAllB preCreateA [] wordChar
    "1. Ensure MongoDB is running locally or update \x60.env\x60 with your MongoDB URI.\n".data = true)]
  rw [scanL_skip_lit (by decide : noStartAllB preCreateA [] wordChar
    "2. Install dependencies:\n".data = true)]
  rw [scanL_skip_lit (by decide : noStartAllB preCreateA [] wordChar
    "   \x60\x60\x60bash\n".data = true)]
  rw [scanL_skip_lit (by decide : noStartAllB preCreateA [] wordChar
    "   npm install\n".data = true)]
  rw [scanL_skip_lit (by decide : noStartAllB preCreateA [] wordChar
    "   \x60\x60\x60\n".data = true)]
  rw [scanL_skip_lit (by decide : noStartAllB preCreateA [] wordChar
    "3. Run in development mode:\n".data = true)]
  rw [scanL_skip_lit (by decide : noStartAllB preCreateA [] wordChar
    "   \x60\x60\x60bash\n".data = true)]
  rw [scanL_skip_lit (by decide : noStartAllB preCreateA [] wordChar
    "   npm run dev\n".data = true)]
  rw [scanL_skip_lit (by decide : noStartAllB preCreateA [] wordChar
    "   \x60\x60\x60\n".data = true)]
  rw [scanL_skip_lit (by decide : noStartAllB preCreateA [] wordChar
    "4. Build for production:\n".data = true)]
  rw [scanL_skip_lit (by decide : noStartAllB preCreateA [] wordChar
    "   \x60\x60\x60bash\n".data = true)]
  rw [scanL_skip_lit (by decide : noStartAllB preCreateA [] wordChar
    "   npm run build\n".data = true)]
  rw [scanL_skip_lit (by decide : noStartAllB preCreateA [] wordChar
    "   npm start\n".data = true)]
  rw [scanL_skip_lit (by decide : noStartAllB preCreateA [] wordChar
    "   \x60\x60\x60\n".data = true)]
  rw [scanL_skip_lit (by decide : noStartAllB preCreateA [] wordChar
    "5. Run tests:\n".data = true)]
  rw [scanL_skip_lit (by decide : noStartAllB preCreateA [] wordChar
    "   \x60\x60\x60bash\n".data = true)]
  rw [scanL_skip_lit (by decide : noStartAllB preCreateA [] wordChar
    "   npm test\n".data = true)]
  rw [scanL_skip_lit (by decide : noStartAllB preCreateA [] wordChar
    "   \x60\x60\x60\n".data = true)]
  rw [scanL_skip_lit (by decide : noStartAllB preCreateA [] wordChar
    "\n".data = true)]
  rw [scanL_skip_lit (by decide : noStartAllB preCreateA [] wordChar
    "## Testing\n".data = true)]
  rw [scanL_skip_lit (by decide : noStartAllB preCreateA [] wordChar
    "\n".data = true)]
  rw [entries_join_scan sjs feats.enum hent _]
  rw [scanL_skip_lit (by decide : noStartAllB preCreateA [] wordChar
    "\n".data = true)]
  rw [scanL_skip_lit (by decide : noStartAllB preCreateA [] wordChar
    "\n".data = true)]
  rw [scanL_skip_lit (by decide : noStartAllB preCreateA [] wordChar
    "## Structure\n".data = true)]
  rw [scanL_skip_lit (by decide : noStartAllB preCreateA [] wordChar
    "\n".data = true)]
  rw [scanL_skip_lit (by decide : noStartAllB preCreateA [] wordChar
    "- \x60Core/\x60: Shared utilities (config, error, result).\n".data = true)]
  rw [scanL_skip_lit (by decide : noStartAllB preCreateA [] wordChar
    "- \x60Features/\x60: Feature-specific modules (".data = true)]
  rw [names_join_scan feats hn _]
  rw [scanL_skip_lit (by decide : noStartAllB preCreateA [] wordChar
    ").\n".data = true)]
  rw [scanL_skip_lit (by decide : noStartAllB preCreateA [] wordChar
    "  - \x60domain/\x60: Business logic (entities, use cases, repositories).\n".data = true)]
  rw [scanL_skip_lit (by decide : noStartAllB preCreateA [] wordChar
    "  - \x60data/\x60: Data access (models, data sources, repositories).\n".data = true)]
  rw [scanL_skip_lit (by decide : noStartAllB preCreateA [] wordChar
    "  - \x60delivery/\x60: HTTP layer (controllers, middleware).\n".data = true)]
  rw [scanL_skip_lit (by decide : noStartAllB preCreateA [] wordChar
    "  - \x60container.ts\x60: DI container setup.\n".data = true)]
  rw [scanL_skip_lit (by decide : noStartAllB preCreateA [] wordChar
    "- \x60Server/\x60: Application entry point.\n".data = true)]
  rw [scanL_skip_lit (by decide : noStartAllB preCreateA [] wordChar
    "- \x60__tests__/\x60: Jest tests for features.\n".data = true)]
  rw [scanL_skip_lit (by decide : noStartAllB preCreateA [] wordChar
    "\n".data = true)]
  rw [scanL_skip_lit (by decide : noStartAllB preCreateA [] wordChar
    "## Notes\n".data = true)]
  rw [scanL_skip_lit (by decide : noStartAllB preCreateA [] wordChar
    "\n".data = true)]
  rw [scanL_skip_lit (by decide : noStartAllB preCreateA [] wordChar
    "- Uses \x60tsyringe\x60 for dependency injection and \x60zod\x60 for validation.\n".data = true)]
  rw [scanL_skip_lit (by decide : noStartAllB preCreateA [] wordChar
    "- Run \x60npm test\x60 to execute unit and integration tests.\n".data = true)]
  rw [scanL_skip_lit (by decide : noStartAllB preCreateA [] wordChar
    "- Ensure MongoDB is running for integration tests.".data = true)]
  simp only [scanL, List.length_nil, scanAux, List.append_nil]
  rw [show (fun p : Nat × Feature => p.2.name.data)
      = (fun f : Feature => f.name.data) ∘ Prod.snd from rfl]
  rw [← List.map_map, List.enum_map_snd]

/-- A spec-grammar character is never the capital `C` that opens the README
roster pattern. -/
theorem specCharB_neC {x : Char} (h : specCharB x = true) : (x != 'C') = true := by
  rcases eq_or_ne x 'C' with he | hne
  · subst he; exact absurd h (by decide)
  · simp [hne]

/-- Characters of `rule.split('=')[1]` come from the rule. -/
theorem eqArg_subset (r : String) : ∀ x ∈ (eqArg r).data, x ∈ r.data := by
  intro x hx
  unfold eqArg jsSplitStr at hx
  rw [List.getElem?_map] at hx
  cases hq : (jsSplit '=' r.data)[1]? with
  | none => rw [hq] at hx; simp at hx
  | some l =>
    rw [hq] at hx
    simp only [Option.map_some', Option.getD_some] at hx
    exact jsSplit_subset '=' r.data l (List.getElem?_mem hq) x hx

/-- Characters of the first part of a split come from the split string. -/
theorem splitHead_subset (sep : Char) (s : String) :
    ∀ x ∈ ((jsSplitStr sep s).headD "").data, x ∈ s.data := by
  intro x hx
  unfold jsSplitStr at hx
  cases hq : jsSplit sep s.data with
  | nil => exact absurd hq (jsSplit_ne_nil sep s.data)
  | cons p ps =>
    rw [hq] at hx
    simp only [List.map_cons, List.headD_cons] at hx
    exact jsSplit_subset sep s.data p (hq ▸ List.mem_cons_self p ps) x hx

/-- The sample value of a field drawn from spec-grammar characters never
contains the capital `C`. -/
theorem sampleValue_noC (f : Field)
    (hname : ∀ x ∈ f.name.data, specCharB x = true)
    (hrule : ∀ r, f.rule = some r → ∀ x ∈ r.data, specCharB x = true) :
    ∀ ch ∈ (sampleValue f).data, (ch != 'C') = true := by
  unfold sampleValue
  split_ifs with h1 h2 h3
  · decide
  · intro ch hch
    simp only [String.data_append, List.mem_append] at hch
    rcases hch with (hch | hch) | hch
    · revert hch; revert ch; decide
    · cases hr : f.rule with
      | none => rw [hr] at h3; cases h3
      | some r =>
        rw [hr] at hch
        simp only [Option.getD_some] at hch
        exact specCharB_neC
          (hrule r hr ch (eqArg_subset r ch (splitHead_subset '|' (eqArg r) ch hch)))
    · revert hch; revert ch; decide
  · intro ch hch
    simp only [String.data_append, List.mem_append] at hch
    rcases hch with (hch | hch) | hch
    · revert hch; revert ch; decide
    · exact specCharB_neC (hname ch hch)
    · revert hch; revert ch; decide
  · decide
  · decide
  · decide

/-- Inversion of the throwing map: every output comes from some input. -/
theorem mapExcept_ok_mem {f : α → Except ε β} :
    ∀ {l : List α} {ys : List β}, mapExcept f l = .ok ys →
      ∀ y ∈ ys, ∃ x ∈ l, f x = .ok y := by
  intro l
  induction l with
  | nil =>
    intro ys h y hy
    simp only [mapExcept] at h
    cases h
    simp at hy
  | cons a as ih =>
    intro ys h y hy
    simp only [mapExcept] at h
    cases hfa : f a with
    | error e => rw [hfa] at h; cases h
    | ok b =>
      rw [hfa] at h
      cases hrest : mapExcept f as with
      | error e => rw [hrest] at h; cases h
      | ok bs =>
        rw [hrest] at h
        cases h
        rcases List.mem_cons.mp hy with hy | hy
        · exact ⟨a, List.mem_cons_self a as, hy ▸ hfa⟩
        · obtain ⟨x, hx, hfx⟩ := ih hrest y hy
          exact ⟨x, List.mem_cons_of_mem a hx, hfx⟩

/-- Characters of one comma entry come from the whole spec string. -/
theorem splitPart_subset (sep : Char) (s : String) :
    ∀ p ∈ jsSplitStr sep s, ∀ x ∈ p.data, x ∈ s.data := by
  intro p hp x hx
  unfold jsSplitStr at hp
  obtain ⟨l, hl, hpl⟩ := List.mem_map.mp hp
  subst hpl
  exact jsSplit_subset sep s.data l hl x hx

/-- Every field parsed from a spec whose characters all lie in the spec
grammar has name, type and rule drawn from the spec grammar. -/
theorem parseFields_specChars {s : String} {flds : List Field}
    (hs : specOkB s = true) (h : parseFields s = .ok flds) :
    ∀ f ∈ flds,
      (∀ x ∈ f.name.data, specCharB x = true) ∧
      (∀ x ∈ f.type.data, specCharB x = true) ∧
      (∀ r, f.rule = some r → ∀ x ∈ r.data, specCharB x = true) := by
  have hsc : ∀ x ∈ s.data, specCharB x = true := by
    simp only [specOkB, List.all_eq_true] at hs
    exact hs
  intro f hf
  by_cases hse : s = ""
  · subst hse
    simp only [parseFields, if_pos rfl] at h
    cases h
    simp at hf
  · simp only [parseFields, beq_eq_false_iff_ne.mpr hse, Bool.false_eq_true,
      if_false] at h
    obtain ⟨pair, hpair, hok⟩ := mapExcept_ok_mem h f hf
    have hpc : ∀ x ∈ pair.data, specCharB x = true :=
      fun x hx => hsc x (splitPart_subset ',' s pair hpair x hx)
    by_cases hfo : fieldOk pair = true
    · simp only [hfo, if_true] at hok
      cases hok
      refine ⟨?_, ?_, ?_⟩
      · intro x hx
        apply hpc
        cases hq : jsSplitStr ':' pair with
        | nil =>
          unfold jsSplitStr at hq
          exact absurd (List.map_eq_nil_iff.mp hq) (jsSplit_ne_nil ':' pair.data)
        | cons q qs =>
          rw [hq] at hx
          simp only [List.headD_cons] at hx
          exact splitPart_subset ':' pair q (hq ▸ List.mem_cons_self q qs) x hx
      · intro x hx
        apply hpc
        cases hq : (jsSplitStr ':' pair)[1]? with
        | none => rw [hq] at hx; simp at hx
        | some q =>
          rw [hq] at hx
          simp only [Option.getD_some] at hx
          exact splitPart_subset ':' pair q (List.getElem?_mem hq) x hx
      · intro r hr x hx
        apply hpc
        cases hq : (jsSplitStr ':' pair)[2]? with
        | none => rw [hq] at hr; cases hr
        | some q =>
          rw [hq] at hr
          have hqr : q = r := by injection hr
          subst hqr
          exact splitPart_subset ':' pair q (List.getElem?_mem hq) x hx
    · simp only [hfo, Bool.false_eq_true, if_false] at hok
      cases hok

/-- The sample-JSON accumulator stays free of the capital `C` as fields
drawn from spec-grammar characters are appended. -/
theorem sample_fold_noC (flds : List Field)
    (h : ∀ f ∈ flds,
      (∀ x ∈ f.name.data, specCharB x = true) ∧
      (∀ x ∈ f.type.data, specCharB x = true) ∧
      (∀ r, f.rule = some r → ∀ x ∈ r.data, specCharB x = true)) :
    ∀ init : String, (∀ ch ∈ init.data, (ch != 'C') = true) →
    ∀ ch ∈ (flds.foldl
      (fun j f => j ++ "\"" ++ f.name ++ "\": " ++ sampleValue f ++ ", ")
      init).data, (ch != 'C') = true := by
  induction flds with
  | nil => intro init hinit ch hch; exact hinit ch hch
  | cons f fs ih =>
    intro init hinit ch hch
    rw [List.foldl_cons] at hch
    refine ih (fun g hg => h g (List.mem_cons_of_mem f hg)) _ ?_ ch hch
    intro x hx
    simp only [String.data_append, List.append_assoc, List.mem_append] at hx
    rcases hx with hx | hx | hx | hx | hx | hx
    · exact hinit x hx
    · revert hx; revert x; decide
    · exact specCharB_neC ((h f (List.mem_cons_self f fs)).1 x hx)
    · revert hx; revert x; decide
    · exact sampleValue_noC f (h f (List.mem_cons_self f fs)).1
        (h f (List.mem_cons_self f fs)).2.2 x hx
    · revert hx; revert x; decide

/-- The sample JSON of fields parsed from a spec-grammar string never
contains the capital `C` that opens the README roster pattern. -/
theorem getSampleJson_noC {s : String} {flds : List Field}
    (hs : specOkB s = true) (h : parseFields s = .ok flds) :
    ∀ ch ∈ (getSampleJson flds).data, (ch != 'C') = true := by
  intro ch hch
  unfold getSampleJson jsSliceDropTwo at hch
  simp only [String.data_append, List.mem_append] at hch
  rcases hch with hch | hch
  · exact sample_fold_noC flds (parseFields_specChars hs h) "\x7b" (by decide)
      ch (List.mem_of_mem_take hch)
  · revert hch; revert ch; decide

/-- Strings with different first characters differ. -/
theorem strNe_of_head {a b : String} (h : a.data.head? ≠ b.data.head?) : a ≠ b :=
  fun hc => h (by rw [hc])

/-- Strings whose first characters evaluate to distinct values differ. -/
theorem ne_of_head_eq {a b : String} {x y : Char}
    (hx : a.data.head? = some x) (hy : b.data.head? = some y) (h : x ≠ y) :
    a ≠ b :=
  strNe_of_head (by rw [hx, hy]; simp [h])

/-- Strings of different lengths differ. -/
theorem strNe_of_length {a b : String} (h : a.data.length ≠ b.data.length) : a ≠ b :=
  fun hc => h (by rw [hc])

/-- A name followed by a file suffix is never the dot path component. -/
theorem append_lit_ne_dot (c s : String) (hs : 2 ≤ s.data.length) :
    ((c ++ s) == ".") = false := by
  apply beq_eq_false_iff_ne.mpr
  apply strNe_of_length
  rw [String.data_append, List.length_append]
  rw [show (".").data.length = 1 from rfl]
  omega

/-- `path.join` on non-dot components glues with a slash. -/
theorem joinPath_of_ne (a b : String) (ha : (a == ".") = false)
    (hb : (b == ".") = false) : joinPath a b = a ++ "/" ++ b := by
  simp [joinPath, ha, hb]

/-- An absolute path is not the dot component. -/
theorem isAbsolute_ne_dot {s : String} (h : isAbsolute s = true) :
    (s == ".") = false := by
  apply beq_eq_false_iff_ne.mpr
  intro he
  subst he
  exact absurd h (by decide)

/-- Extending an absolute path keeps it absolute. -/
theorem isAbsolute_append (a b : String) (h : isAbsolute a = true) :
    isAbsolute (a ++ b) = true := by
  unfold isAbsolute at h ⊢
  cases hd : a.data with
  | nil => rw [hd] at h; exact absurd h (by decide)
  | cons x xs =>
    rw [String.data_append, hd]
    rw [hd] at h
    exact h

/-- Resolving a path joined under an absolute working directory. -/
theorem resolve_join (cwd X : String) (habs : isAbsolute cwd = true)
    (hX : (X == ".") = false) :
    resolvePath cwd (joinPath cwd X) = cwd ++ "/" ++ X := by
  rw [joinPath_of_ne cwd X (isAbsolute_ne_dot habs) hX]
  unfold resolvePath
  rw [if_pos (isAbsolute_append _ X (isAbsolute_append cwd "/" habs))]

/-- Distinct final components resolve to distinct paths. -/
theorem resolve_join_ne (cwd X Y : String) (habs : isAbsolute cwd = true)
    (hX : (X == ".") = false) (hY : (Y == ".") = false) (h : X ≠ Y) :
    resolvePath cwd (joinPath cwd X) ≠ resolvePath cwd (joinPath cwd Y) := by
  rw [resolve_join cwd X habs hX, resolve_join cwd Y habs hY]
  exact fun hc => h (strAppend_left_cancel hc)

/-- Reading past a write to a different resolved path. -/
theorem FS_read_write_ne {fs : FS} {q p : String} {v : String}
    (h : resolvePath fs.cwd q ≠ resolvePath fs.cwd p) :
    (fs.write q v).read p = fs.read p := by
  unfold FS.read FS.write
  show (List.find? _ ((resolvePath fs.cwd q, v) :: fs.files)).map _ = _
  rw [List.find?_cons_of_neg]
  intro hc
  simp only [beq_iff_eq] at hc
  exact h hc

/-- Reading back a just-written path. -/
theorem FS_read_write_eq (fs : FS) (p v : String) :
    (fs.write p v).read p = some v := by
  unfold FS.read FS.write
  show (List.find? _ ((resolvePath fs.cwd p, v) :: fs.files)).map _ = _
  rw [List.find?_cons_of_pos]
  rfl
  simp

/-- A readable path passes the existence check. -/
theorem read_some_access {fs : FS} {p v : String} (h : fs.read p = some v) :
    fs.access p = true := by
  unfold FS.read at h
  unfold FS.access
  cases hf : List.find? (fun kv => kv.1 == resolvePath fs.cwd p) fs.files with
  | none => rw [hf] at h; cases h
  | some kv =>
    have hmem := List.mem_of_find?_eq_some hf
    have hpred := List.find?_some hf
    have hany : fs.files.any (fun kv => kv.1 == resolvePath fs.cwd p) = true :=
      List.any_eq_true.mpr ⟨kv, hmem, hpred⟩
    simp [hany]

/-- Directory creation does not affect reads. -/
theorem foldl_mkdirp_read (pr : String) (l : List String) : ∀ (fs : FS) (p : String),
    (l.foldl (fun s d => s.mkdirp (joinPath pr d)) fs).read p = fs.read p := by
  induction l with
  | nil => intro fs p; rfl
  | cons d l ih =>
    intro fs p
    rw [List.foldl_cons, ih]
    rfl

/-- Directory creation does not change the working directory. -/
theorem foldl_mkdirp_cwd (pr : String) (l : List String) : ∀ (fs : FS),
    (l.foldl (fun s d => s.mkdirp (joinPath pr d)) fs).cwd = fs.cwd := by
  induction l with
  | nil => intro fs; rfl
  | cons d l ih =>
    intro fs
    rw [List.foldl_cons, ih]
    rfl

/-- File writes do not change the working directory. -/
theorem foldl_write_cwd (l : List (String × String)) : ∀ (fs : FS),
    (l.foldl (fun s kv => s.write kv.1 kv.2) fs).cwd = fs.cwd := by
  induction l with
  | nil => intro fs; rfl
  | cons kv l ih =>
    intro fs
    rw [List.foldl_cons, ih]
    rfl

/-- Reading past a batch of writes that all target other resolved paths. -/
theorem foldl_write_read (l : List (String × String)) : ∀ (fs : FS) (p : String),
    (∀ kv ∈ l, resolvePath fs.cwd kv.1 ≠ resolvePath fs.cwd p) →
    (l.foldl (fun s kv => s.write kv.1 kv.2) fs).read p = fs.read p := by
  induction l with
  | nil => intro fs p _; rfl
  | cons kv l ih =>
    intro fs p h
    rw [List.foldl_cons]
    rw [ih (fs.write kv.1 kv.2) p
      (fun kv2 h2 => h kv2 (List.mem_cons_of_mem kv h2))]
    exact FS_read_write_ne (h kv (List.mem_cons_self kv l))

/-- Generating a feature does not change the working directory. -/
theorem generateFeatureRun_cwd (fs : FS) (pr c : String) (flds : List Field) :
    (generateFeatureRun fs pr c flds).cwd = fs.cwd := by
  simp only [generateFeatureRun]
  rw [foldl_write_cwd, foldl_mkdirp_cwd]

/-- Generating a feature under the working directory leaves every file whose
name starts with neither `F` nor `_` untouched: in particular the bootstrap
marker and the README survive. -/
theorem generateFeatureRun_read (fs : FS) (c Y : String) (flds : List Field)
    (habs : isAbsolute fs.cwd = true)
    (hcdot : (c == ".") = false)
    (hYdot : (Y == ".") = false)
    (hYF : Y.data.head? ≠ some 'F')
    (hYT : Y.data.head? ≠ some '_') :
    (generateFeatureRun fs fs.cwd c flds).read (joinPath fs.cwd Y)
      = fs.read (joinPath fs.cwd Y) := by
  have hfp : joinPath "Features" c = "Features" ++ "/" ++ c :=
    joinPath_of_ne _ _ (by decide) hcdot
  have hfpdot : (("Features" ++ "/" ++ c) == ".") = false :=
    beq_eq_false_iff_ne.mpr (ne_of_head_eq rfl rfl (by decide))
  have htp0 : joinPath "__tests__" "Features" = "__tests__" ++ "/" ++ "Features" := by
    decide
  have htpdot : ((("__tests__" ++ "/" ++ "Features") ++ "/" ++ c) == ".") = false :=
    beq_eq_false_iff_ne.mpr (ne_of_head_eq rfl rfl (by decide))
  have htp : joinPath (joinPath "__tests__" "Features") c
      = ("__tests__" ++ "/" ++ "Features") ++ "/" ++ c := by
    rw [htp0]
    exact joinPath_of_ne _ _ (by decide) hcdot
  simp only [generateFeatureRun]
  rw [hfp, htp]
  rw [joinPath_of_ne "domain/entity" (c ++ ".entity.ts") (by decide)
    (append_lit_ne_dot c ".entity.ts" (by decide))]
  rw [joinPath_of_ne "domain/repositories" (c ++ ".repository.interface.ts") (by decide)
    (append_lit_ne_dot c ".repository.interface.ts" (by decide))]
  rw [joinPath_of_ne "domain/usecases" ("create-" ++ c ++ ".usecase.ts") (by decide)
    (beq_eq_false_iff_ne.mpr (ne_of_head_eq rfl rfl (by decide)))]
  rw [joinPath_of_ne "data/models" (c ++ ".model.ts") (by decide)
    (append_lit_ne_dot c ".model.ts" (by decide))]
  rw [joinPath_of_ne "data/datasources" (c ++ ".datasource.ts") (by decide)
    (append_lit_ne_dot c ".datasource.ts" (by decide))]
  rw [joinPath_of_ne "data/repositories" (c ++ ".repository.ts") (by decide)
    (append_lit_ne_dot c ".repository.ts" (by decide))]
  rw [joinPath_of_ne "delivery/middlewares" ("validate-" ++ c ++ ".middleware.ts") (by decide)
    (beq_eq_false_iff_ne.mpr (ne_of_head_eq rfl rfl (by decide)))]
  rw [joinPath_of_ne "delivery/controllers" (c ++ ".controller.ts") (by decide)
    (append_lit_ne_dot c ".controller.ts" (by decide))]
  rw [joinPath_of_ne ("Features" ++ "/" ++ c) "container.ts" hfpdot (by decide)]
  rw [joinPath_of_ne ("Features" ++ "/" ++ c)
    ("domain/entity" ++ "/" ++ (c ++ ".entity.ts")) hfpdot
    (beq_eq_false_iff_ne.mpr (ne_of_head_eq rfl rfl (by decide)))]
  rw [joinPath_of_ne ("Features" ++ "/" ++ c)
    ("domain/repositories" ++ "/" ++ (c ++ ".repository.interface.ts")) hfpdot
    (beq_eq_false_iff_ne.mpr (ne_of_head_eq rfl rfl (by decide)))]
  rw [joinPath_of_ne ("Features" ++ "/" ++ c)
    ("domain/usecases" ++ "/" ++ ("create-" ++ c ++ ".usecase.ts")) hfpdot
    (beq_eq_false_iff_ne.mpr (ne_of_head_eq rfl rfl (by decide)))]
  rw [joinPath_of_ne ("Features" ++ "/" ++ c)
    ("data/models" ++ "/" ++ (c ++ ".model.ts")) hfpdot
    (beq_eq_false_iff_ne.mpr (ne_of_head_eq rfl rfl (by decide)))]
  rw [joinPath_of_ne ("Features" ++ "/" ++ c)
    ("data/datasources" ++ "/" ++ (c ++ ".datasource.ts")) hfpdot
    (beq_eq_false_iff_ne.mpr (ne_of_head_eq rfl rfl (by decide)))]
  rw [joinPath_of_ne ("Features" ++ "/" ++ c)
    ("data/repositories" ++ "/" ++ (c ++ ".repository.ts")) hfpdot
    (beq_eq_false_iff_ne.mpr (ne_of_head_eq rfl rfl (by decide)))]
  rw [joinPath_of_ne ("Features" ++ "/" ++ c)
    ("delivery/middlewares" ++ "/" ++ ("validate-" ++ c ++ ".middleware.ts")) hfpdot
    (beq_eq_false_iff_ne.mpr (ne_of_head_eq rfl rfl (by decide)))]
  rw [joinPath_of_ne ("Features" ++ "/" ++ c)
    ("delivery/controllers" ++ "/" ++ (c ++ ".controller.ts")) hfpdot
    (beq_eq_false_iff_ne.mpr (ne_of_head_eq rfl rfl (by decide)))]
  rw [joinPath_of_ne (("__tests__" ++ "/" ++ "Features") ++ "/" ++ c)
    (c ++ ".usecase.test.ts") htpdot
    (append_lit_ne_dot c ".usecase.test.ts" (by decide))]
  rw [joinPath_of_ne (("__tests__" ++ "/" ++ "Features") ++ "/" ++ c)
    (c ++ ".controller.test.ts") htpdot
    (append_lit_ne_dot c ".controller.test.ts" (by decide))]
  refine (foldl_write_read _ _ _ ?_).trans (foldl_mkdirp_read _ _ _ _)
  intro kv hkv
  rw [foldl_mkdirp_cwd]
  simp only [List.mem_cons, List.not_mem_nil, or_false] at hkv
  rcases hkv with rfl | rfl | rfl | rfl | rfl | rfl | rfl | rfl | rfl | rfl | rfl
  · exact resolve_join_ne _ _ _ habs
      (beq_eq_false_iff_ne.mpr (ne_of_head_eq rfl rfl (by decide))) hYdot
      (strNe_of_head (Ne.symm hYF))
  · exact resolve_join_ne _ _ _ habs
      (beq_eq_false_iff_ne.mpr (ne_of_head_eq rfl rfl (by decide))) hYdot
      (strNe_of_head (Ne.symm hYF))
  · exact resolve_join_ne _ _ _ habs
      (beq_eq_false_iff_ne.mpr (ne_of_head_eq rfl rfl (by decide))) hYdot
      (strNe_of_head (Ne.symm hYF))
  · exact resolve_join_ne _ _ _ habs
      (beq_eq_false_iff_ne.mpr (ne_of_head_eq rfl rfl (by decide))) hYdot
      (strNe_of_head (Ne.symm hYF))
  · exact resolve_join_ne _ _ _ habs
      (beq_eq_false_iff_ne.mpr (ne_of_head_eq rfl rfl (by decide))) hYdot
      (strNe_of_head (Ne.symm hYF))
  · exact resolve_join_ne _ _ _ habs
      (beq_eq_false_iff_ne.mpr (ne_of_head_eq rfl rfl (by decide))) hYdot
      (strNe_of_head (Ne.symm hYF))
  · exact resolve_join_ne _ _ _ habs
      (beq_eq_false_iff_ne.mpr (ne_of_head_eq rfl rfl (by decide))) hYdot
      (strNe_of_head (Ne.symm hYF))
  · exact resolve_join_ne _ _ _ habs
      (beq_eq_false_iff_ne.mpr (ne_of_head_eq rfl rfl (by decide))) hYdot
      (strNe_of_head (Ne.symm hYF))
  · exact resolve_join_ne _ _ _ habs
      (beq_eq_false_iff_ne.mpr (ne_of_head_eq rfl rfl (by decide))) hYdot
      (strNe_of_head (Ne.symm hYF))
  · exact resolve_join_ne _ _ _ habs
      (beq_eq_false_iff_ne.mpr (ne_of_head_eq rfl rfl (by decide))) hYdot
      (strNe_of_head (Ne.symm hYT))
  · exact resolve_join_ne _ _ _ habs
      (beq_eq_false_iff_ne.mpr (ne_of_head_eq rfl rfl (by decide))) hYdot
      (strNe_of_head (Ne.symm hYT))

/-- Lower-casing undoes the capitalization of a well-formed feature name. -/
theorem toLower_capitalize {s : String} (h : lowerNameB s = true) :
    toLowerStr (capitalize s) = s := by
  obtain ⟨hne, hch⟩ := lowerNameB_spec h
  cases hd : s.data with
  | nil => exact absurd hd hne
  | cons c cs =>
    have hcap : (capitalize s).data = c.toUpper :: cs := by
      simp [capitalize, hd]
    unfold toLowerStr
    rw [hcap, List.map_cons]
    have h1 : (c.toUpper).toLower = c :=
      (lowerAlphabet_props c (hch c (hd ▸ List.mem_cons_self c cs))).2.1
    have h2 : cs.map Char.toLower = cs := by
      rw [List.map_congr_left (g := id) (fun x hx =>
        (lowerAlphabet_props x (hch x (hd ▸ List.mem_cons_of_mem c hx))).2.2.1)]
      exact List.map_id cs
    rw [h1, h2, ← hd]

/-- Roster recovery from a generated bootstrap file returns the features it
was generated with, names intact and specs blanked. -/
theorem recoverServerFeatures_eq (feats : List Feature)
    (hn : ∀ f ∈ feats, lowerNameB f.name = true) :
    recoverServerFeatures (templates.serverIndexTs feats)
      = feats.map (fun f => (⟨f.name, ""⟩ : Feature)) := by
  unfold recoverServerFeatures importControllerScan scanAll
  rw [server_import_scan feats hn]
  rw [List.map_map, List.map_map]
  apply List.map_congr_left
  intro f hf
  show (⟨toLowerStr ⟨(capitalize f.name).data⟩, ""⟩ : Feature) = ⟨f.name, ""⟩
  rw [mk_data, toLower_capitalize (hn f hf)]

/-- The mounted routes of a generated bootstrap file are `/api/<name>`, in
roster order. -/
theorem appUseScan_server (feats : List Feature)
    (hn : ∀ f ∈ feats, lowerNameB f.name = true) :
    appUseScan (templates.serverIndexTs feats)
      = feats.map (fun f => "/api/" ++ f.name) := by
  unfold appUseScan scanAll
  rw [server_appuse_scan feats hn, List.map_map]
  apply List.map_congr_left
  intro f hf
  show (⟨"/api/".data ++ f.name.data⟩ : String) = "/api/" ++ f.name
  apply String.ext
  simp [String.data_append]

/-- The README roster scan of a generated README returns the feature names,
in roster order. -/
theorem createAScan_readme (pn : String) (feats : List Feature)
    (sjs : List String)
    (hpn : projNameOkB pn = true)
    (hn : ∀ f ∈ feats, lowerNameB f.name = true)
    (hsj : ∀ s ∈ sjs, ∀ c ∈ s.data, (c != 'C') = true) :
    createAScan (templates.readmeMd pn feats sjs)
      = feats.map (fun f => f.name) := by
  unfold createAScan scanAll
  rw [readme_createa_scan pn feats sjs hpn hn hsj, List.map_map]
  apply List.map_congr_left
  intro f hf
  exact mk_data f.name

/-- Writing a file does not change the working directory. -/
theorem FS_write_cwd (fs : FS) (p v : String) : (fs.write p v).cwd = fs.cwd := rfl

/-- One successful pass of the add-feature command, stepped symbolically: if
the marker check passes, the spec parses, both recovery reads succeed, and
the sample-JSON map succeeds, the run writes the regenerated bootstrap and
README and exits ok. -/
theorem addFeatureRun_steps (fs0 : FS) (c fc : String) (flds : List Field)
    (srv readme : String) (sjs2 : List String)
    (hacc : fs0.access (joinPath fs0.cwd "Server/index.ts") = true)
    (hparse : parseFields (if fc == "" then defaultFieldSpec else fc) = .ok flds)
    (hgr : (generateFeatureRun fs0 fs0.cwd c flds).read
      (joinPath fs0.cwd "Server/index.ts") = some srv)
    (hneSR : resolvePath (generateFeatureRun fs0 fs0.cwd c flds).cwd
        (joinPath fs0.cwd "Server/index.ts")
      ≠ resolvePath (generateFeatureRun fs0 fs0.cwd c flds).cwd
        (joinPath fs0.cwd "README.md"))
    (hgr2 : (generateFeatureRun fs0 fs0.cwd c flds).read
      (joinPath fs0.cwd "README.md") = some readme)
    (hsamples : mapExcept (fun f =>
        (parseFields (if f.fields == "" then defaultFieldSpec else f.fields)).map
          getSampleJson)
      ((createAScan readme ++ [c]).map
        (fun n => (⟨n, if n == c then fc else ""⟩ : Feature))) = .ok sjs2) :
    addFeatureRun fs0 c fc
      = (((generateFeatureRun fs0 fs0.cwd c flds).write
            (joinPath fs0.cwd "Server/index.ts")
            (templates.serverIndexTs
              (recoverServerFeatures srv ++ [⟨c, fc⟩]))).write
          (joinPath fs0.cwd "README.md")
          (templates.readmeMd (recoverProjectName readme)
            ((createAScan readme ++ [c]).map
              (fun n => (⟨n, if n == c then fc else ""⟩ : Feature)))
            sjs2),
        .ok ()) := by
  unfold addFeatureRun
  simp only [hacc, Bool.not_true, Bool.false_eq_true, if_false, hparse, hgr,
    FS_read_write_ne hneSR, hgr2, hsamples]

set_option maxHeartbeats 1000000 in
/-- C2: given a project whose bootstrap file and README were generated for
the roster `[a, b]` (lower-case names, in that order, under any field specs
and sample list), running the add-feature operation for a new feature `c`
succeeds and regenerates the bootstrap file so that it mounts exactly the
routes `/api/a`, `/api/b`, `/api/c` in that order, and regenerates the README
so that its testing section lists exactly the three example requests for
`a`, `b`, `c` in that order (one `Create a <name>` entry per feature). -/
theorem c2_add_feature_roster_growth
    (fs0 : FS) (a b c pn fa fb fc : String) (sjs : List String)
    (fldsC : List Field)
    (habs : isAbsolute fs0.cwd = true)
    (ha : lowerNameB a = true) (hb : lowerNameB b = true)
    (hc : lowerNameB c = true)
    (hpn : projNameOkB pn = true)
    (hfc : specOkB fc = true)
    (hparse : parseFields (if fc == "" then defaultFieldSpec else fc) = .ok fldsC)
    (hca : a ≠ c) (hcb : b ≠ c)
    (hsj : ∀ s ∈ sjs, ∀ x ∈ s.data, (x != 'C') = true)
    (hsrv : fs0.read (joinPath fs0.cwd "Server/index.ts")
      = some (templates.serverIndexTs [⟨a, fa⟩, ⟨b, fb⟩]))
    (hrd : fs0.read (joinPath fs0.cwd "README.md")
      = some (templates.readmeMd pn [⟨a, fa⟩, ⟨b, fb⟩] sjs)) :
    (addFeatureRun fs0 c fc).2 = .ok () ∧
    (addFeatureRun fs0 c fc).1.read (joinPath fs0.cwd "Server/index.ts")
      = some (templates.serverIndexTs [⟨a, ""⟩, ⟨b, ""⟩, ⟨c, fc⟩]) ∧
    appUseScan (templates.serverIndexTs [⟨a, ""⟩, ⟨b, ""⟩, ⟨c, fc⟩])
      = ["/api/" ++ a, "/api/" ++ b, "/api/" ++ c] ∧
    (addFeatureRun fs0 c fc).1.read (joinPath fs0.cwd "README.md")
      = some (templates.readmeMd pn [⟨a, ""⟩, ⟨b, ""⟩, ⟨c, fc⟩]
          [getSampleJson [⟨"name", "string", some "minlength=3"⟩,
            ⟨"email", "string", some "email"⟩],
           getSampleJson [⟨"name", "string", some "minlength=3"⟩,
            ⟨"email", "string", some "email"⟩],
           getSampleJson fldsC]) ∧
    createAScan (templates.readmeMd pn [⟨a, ""⟩, ⟨b, ""⟩, ⟨c, fc⟩]
          [getSampleJson [⟨"name", "string", some "minlength=3"⟩,
            ⟨"email", "string", some "email"⟩],
           getSampleJson [⟨"name", "string", some "minlength=3"⟩,
            ⟨"email", "string", some "email"⟩],
           getSampleJson fldsC]) = [a, b, c] := by
  have hacc : fs0.access (joinPath fs0.cwd "Server/index.ts") = true :=
    read_some_access hsrv
  have hcdot : (c == ".") = false := by
    apply beq_eq_false_iff_ne.mpr
    intro he
    subst he
    exact absurd hc (by decide)
  have hR2 : ∀ f ∈ [(⟨a, fa⟩ : Feature), ⟨b, fb⟩], lowerNameB f.name = true := by
    intro f hf
    rcases List.mem_cons.mp hf with rfl | hf
    · exact ha
    · rcases List.mem_cons.mp hf with rfl | hf
      · exact hb
      · simp at hf
  have hR3 : ∀ f ∈ [(⟨a, ""⟩ : Feature), ⟨b, ""⟩, ⟨c, fc⟩],
      lowerNameB f.name = true := by
    intro f hf
    rcases List.mem_cons.mp hf with rfl | hf
    · exact ha
    · rcases List.mem_cons.mp hf with rfl | hf
      · exact hb
      · rcases List.mem_cons.mp hf with rfl | hf
        · exact hc
        · simp at hf
  have hrec : recoverServerFeatures (templates.serverIndexTs [⟨a, fa⟩, ⟨b, fb⟩])
      = [⟨a, ""⟩, ⟨b, ""⟩] := by
    rw [recoverServerFeatures_eq _ hR2]
    rfl
  have hgr : (generateFeatureRun fs0 fs0.cwd c fldsC).read
      (joinPath fs0.cwd "Server/index.ts")
      = some (templates.serverIndexTs [⟨a, fa⟩, ⟨b, fb⟩]) := by
    rw [generateFeatureRun_read fs0 c _ fldsC habs hcdot (by decide) (by decide)
      (by decide)]
    exact hsrv
  have hgr2 : (generateFeatureRun fs0 fs0.cwd c fldsC).read
      (joinPath fs0.cwd "README.md")
      = some (templates.readmeMd pn [⟨a, fa⟩, ⟨b, fb⟩] sjs) := by
    rw [generateFeatureRun_read fs0 c _ fldsC habs hcdot (by decide) (by decide)
      (by decide)]
    exact hrd
  have hcwd1 : (generateFeatureRun fs0 fs0.cwd c fldsC).cwd = fs0.cwd :=
    generateFeatureRun_cwd _ _ _ _
  have hneSR : resolvePath (generateFeatureRun fs0 fs0.cwd c fldsC).cwd
        (joinPath fs0.cwd "Server/index.ts")
      ≠ resolvePath (generateFeatureRun fs0 fs0.cwd c fldsC).cwd
        (joinPath fs0.cwd "README.md") := by
    rw [hcwd1]
    exact resolve_join_ne _ _ _ habs (by decide) (by decide) (by decide)
  have hscan : createAScan (templates.readmeMd pn [⟨a, fa⟩, ⟨b, fb⟩] sjs)
      = [a, b] := by
    rw [createAScan_readme pn _ sjs hpn hR2 hsj]
    rfl
  have hac : (a == c) = false := beq_eq_false_iff_ne.mpr hca
  have hbc : (b == c) = false := beq_eq_false_iff_ne.mpr hcb
  have hdflt : parseFields defaultFieldSpec
      = .ok [⟨"name", "string", some "minlength=3"⟩,
             ⟨"email", "string", some "email"⟩] := by rfl
  have hsOk : specOkB (if fc == "" then defaultFieldSpec else fc) = true := by
    by_cases hfe : fc = ""
    · subst hfe
      decide
    · rw [if_neg (by simp [beq_eq_false_iff_ne.mpr hfe])]
      exact hfc
  have hnoC := getSampleJson_noC hsOk hparse
  have hS0 : ∀ x ∈ (getSampleJson [(⟨"name", "string", some "minlength=3"⟩ : Field),
      ⟨"email", "string", some "email"⟩]).data, (x != 'C') = true := by decide
  have hsj3 : ∀ s ∈ [getSampleJson [(⟨"name", "string", some "minlength=3"⟩ : Field),
        ⟨"email", "string", some "email"⟩],
      getSampleJson [(⟨"name", "string", some "minlength=3"⟩ : Field),
        ⟨"email", "string", some "email"⟩],
      getSampleJson fldsC], ∀ x ∈ s.data, (x != 'C') = true := by
    intro s hs
    rcases List.mem_cons.mp hs with rfl | hs
    · exact hS0
    · rcases List.mem_cons.mp hs with rfl | hs
      · exact hS0
      · rcases List.mem_cons.mp hs with rfl | hs
        · exact hnoC
        · simp at hs
  have hroster : (createAScan (templates.readmeMd pn [⟨a, fa⟩, ⟨b, fb⟩] sjs)
        ++ [c]).map (fun n => (⟨n, if n == c then fc else ""⟩ : Feature))
      = [⟨a, ""⟩, ⟨b, ""⟩, ⟨c, fc⟩] := by
    rw [hscan]
    simp only [List.cons_append, List.nil_append, List.map_cons, List.map_nil,
      hac, hbc, Bool.false_eq_true, if_false, beq_self_eq_true, if_true]
  have hsamp : mapExcept (fun f =>
      (parseFields (if f.fields == "" then defaultFieldSpec else f.fields)).map
        getSampleJson)
      ((createAScan (templates.readmeMd pn [⟨a, fa⟩, ⟨b, fb⟩] sjs) ++ [c]).map
        (fun n => (⟨n, if n == c then fc else ""⟩ : Feature)))
      = .ok [getSampleJson [⟨"name", "string", some "minlength=3"⟩,
              ⟨"email", "string", some "email"⟩],
             getSampleJson [⟨"name", "string", some "minlength=3"⟩,
              ⟨"email", "string", some "email"⟩],
             getSampleJson fldsC] := by
    rw [hroster]
    simp only [mapExcept, beq_self_eq_true, if_true, hdflt, hparse, Except.map]
  have hstep := addFeatureRun_steps fs0 c fc fldsC _ _ _ hacc hparse hgr hneSR
    hgr2 hsamp
  rw [hrec, hroster, recoverProjectName_readme pn [(⟨a, fa⟩ : Feature), ⟨b, fb⟩]
    sjs hpn] at hstep
  simp only [List.cons_append, List.nil_append] at hstep
  refine ⟨by rw [hstep], ?_, ?_, ?_, ?_⟩
  · rw [hstep]
    have hne2 : resolvePath (((generateFeatureRun fs0 fs0.cwd c fldsC).write
          (joinPath fs0.cwd "Server/index.ts")
          (templates.serverIndexTs [⟨a, ""⟩, ⟨b, ""⟩, ⟨c, fc⟩]))).cwd
          (joinPath fs0.cwd "README.md")
        ≠ resolvePath (((generateFeatureRun fs0 fs0.cwd c fldsC).write
          (joinPath fs0.cwd "Server/index.ts")
          (templates.serverIndexTs [⟨a, ""⟩, ⟨b, ""⟩, ⟨c, fc⟩]))).cwd
          (joinPath fs0.cwd "Server/index.ts") := by
      rw [FS_write_cwd, hcwd1]
      exact resolve_join_ne _ _ _ habs (by decide) (by decide) (by decide)
    rw [FS_read_write_ne hne2]
    exact FS_read_write_eq _ _ _
  · rw [appUseScan_server _ hR3]
    rfl
  · rw [hstep]
    exact FS_read_write_eq _ _ _
  · rw [createAScan_readme pn _ _ hpn hR3 hsj3]
    rfl

set_option maxRecDepth 400000 in
/-- Closed instance of `c2_add_feature_roster_growth`: adding `order` to a
project generated for `[user, post]` under project name `shop`. -/
theorem c2_add_feature_roster_growth_witness :
    (addFeatureRun
      ⟨"/w", ["/w"],
        [("/w/Server/index.ts",
          templates.serverIndexTs [⟨"user", ""⟩, ⟨"post", ""⟩]),
         ("/w/README.md",
          templates.readmeMd "shop" [⟨"user", ""⟩, ⟨"post", ""⟩]
            ["\x7b\x7d", "\x7b\x7d"])]⟩
      "order" "").2 = .ok () ∧
    (addFeatureRun
      ⟨"/w", ["/w"],
        [("/w/Server/index.ts",
          templates.serverIndexTs [⟨"user", ""⟩, ⟨"post", ""⟩]),
         ("/w/README.md",
          templates.readmeMd "shop" [⟨"user", ""⟩, ⟨"post", ""⟩]
            ["\x7b\x7d", "\x7b\x7d"])]⟩
      "order" "").1.read (joinPath "/w" "Server/index.ts")
      = some (templates.serverIndexTs
          [⟨"user", ""⟩, ⟨"post", ""⟩, ⟨"order", ""⟩]) ∧
    appUseScan (templates.serverIndexTs
        [⟨"user", ""⟩, ⟨"post", ""⟩, ⟨"order", ""⟩])
      = ["/api/" ++ "user", "/api/" ++ "post", "/api/" ++ "order"] ∧
    (addFeatureRun
      ⟨"/w", ["/w"],
        [("/w/Server/index.ts",
          templates.serverIndexTs [⟨"user", ""⟩, ⟨"post", ""⟩]),
         ("/w/README.md",
          templates.readmeMd "shop" [⟨"user", ""⟩, ⟨"post", ""⟩]
            ["\x7b\x7d", "\x7b\x7d"])]⟩
      "order" "").1.read (joinPath "/w" "README.md")
      = some (templates.readmeMd "shop"
          [⟨"user", ""⟩, ⟨"post", ""⟩, ⟨"order", ""⟩]
          [getSampleJson [⟨"name", "string", some "minlength=3"⟩,
            ⟨"email", "string", some "email"⟩],
           getSampleJson [⟨"name", "string", some "minlength=3"⟩,
            ⟨"email", "string", some "email"⟩],
           getSampleJson [⟨"name", "string", some "minlength=3"⟩,
            ⟨"email", "string", some "email"⟩]]) ∧
    createAScan (templates.readmeMd "shop"
          [⟨"user", ""⟩, ⟨"post", ""⟩, ⟨"order", ""⟩]
          [getSampleJson [⟨"name", "string", some "minlength=3"⟩,
            ⟨"email", "string", some "email"⟩],
           getSampleJson [⟨"name", "string", some "minlength=3"⟩,
            ⟨"email", "string", some "email"⟩],
           getSampleJson [⟨"name", "string", some "minlength=3"⟩,
            ⟨"email", "string", some "email"⟩]])
      = ["user", "post", "order"] :=
  c2_add_feature_roster_growth
    ⟨"/w", ["/w"],
      [("/w/Server/index.ts",
        templates.serverIndexTs [⟨"user", ""⟩, ⟨"post", ""⟩]),
       ("/w/README.md",
        templates.readmeMd "shop" [⟨"user", ""⟩, ⟨"post", ""⟩]
          ["\x7b\x7d", "\x7b\x7d"])]⟩
    "user" "post" "order" "shop" "" "" ""
    ["\x7b\x7d", "\x7b\x7d"]
    [⟨"name", "string", some "minlength=3"⟩, ⟨"email", "string", some "email"⟩]
    (by decide) (by decide) (by decide) (by decide) (by decide) (by decide)
    (by rfl) (by decide) (by decide) (by decide) (by rfl) (by rfl)

end Tsclean
